import Mathlib

/-!
# Verification of the 2D matrix-stiffness structural solver

Shallow embedding of `src/utils/solver.ts` and `src/utils/geometryGenerator.ts`
over exact rationals (`ℚ`).  JavaScript `number` arithmetic is modelled by `ℚ`;
`Math.sqrt`, which is irrational in general, is modelled by an explicit function
parameter `sqrtFn : ℚ → ℚ` threaded through every definition that the source
computes a square root in.  Theorems about algebraic structure (symmetry,
permutation invariance, row reduction) are quantified over all `sqrtFn`;
concrete instances supply a function that returns the exact root at the inputs
actually reached (all of which are perfect squares there).

`Math.round` rounds half toward positive infinity and `toFixed` rounds ties
toward positive infinity on the values reached here; both are `⌊q + 1/2⌋`.
-/

namespace StructuralSolver

/-- Evaluation helper: turn `|a|` into an `if` that `norm_num` can resolve. -/
theorem abs_eval (a : ℚ) : |a| = if a < 0 then -a else a := by
  split
  · exact abs_of_neg (by assumption)
  · exact abs_of_nonneg (not_lt.mp (by assumption))

/-- JS `Math.round`: round half toward positive infinity. -/
def jround (q : ℚ) : ℤ := ⌊q + 1 / 2⌋

/-- JS `parseFloat(val.toFixed(4))`: round to 4 decimal digits (ties toward `+∞`). -/
def round4 (q : ℚ) : ℚ := (jround (q * 10 ^ 4) : ℚ) / 10 ^ 4

/-- `cleanValue` from `src/utils/solver.ts` (lines 6–25): snap display values
to zero / integers / half-integers, else keep 4 decimal digits. -/
def cleanValue (val : ℚ) : ℚ :=
  if |val| < 1 / 10 ^ 4 then 0
  else if |val - (jround val : ℚ)| < 2 / 100 then (jround val : ℚ)
  else if |val * 2 - (jround (val * 2) : ℚ)| < 2 / 100 then (jround (val * 2) : ℚ) / 2
  else round4 val

/-! ## The Gauss–Jordan solver (`solveLinearSystem`, solver.ts lines 39–81)

The augmented matrix `[A | b]` is a function `Fin n → Fin (n+1) → ℚ`; row
operations are functional updates.  `gaussStep M i` is one iteration of the
outer `for (let i = 0; i < n; i++)` loop; `backSub` is the final
back-substitution loop. -/

/-- Augmented `n × (n+1)` matrix. -/
def Aug (n : ℕ) : Type := Fin n → Fin (n + 1) → ℚ

variable {n : ℕ}

/-- The threshold `1e-10` of the stability check. -/
def stabEps : ℚ := 1 / 10 ^ 10

/-- Partial pivoting: scan rows `i+1 … n-1`, keeping the first row whose entry
in column `i` strictly exceeds the current best (source lines 45–48). -/
def pivotRow (M : Aug n) (i : Fin n) : Fin n :=
  ((List.finRange n).filter (fun k => i < k)).foldl
    (fun best k => if |M k i.castSucc| > |M best i.castSucc| then k else best) i

/-- `[M[i], M[maxRow]] = [M[maxRow], M[i]]`. -/
def swapRows (M : Aug n) (a b : Fin n) : Aug n :=
  fun r => if r = a then M b else if r = b then M a else M r

/-- Stabilization of a singular pivot (source lines 57–63): diagonal `1`,
right-hand side `0`, remaining entries of the row (columns `> i`) zeroed. -/
def stabilizeRow (M : Aug n) (i : Fin n) : Aug n :=
  fun r j =>
    if r = i then
      if j = i.castSucc then 1
      else if i.castSucc < j then 0
      else M r j
    else M r j

/-- Elimination below the pivot (source lines 65–71): for every row `k > i`,
column `i` is zeroed and columns `j > i` get `c * M[i][j]` added, with
`c = -M[k][i] / M[i][i]`. -/
def eliminateBelow (M : Aug n) (i : Fin n) : Aug n :=
  fun r j =>
    if i < r then
      if j < i.castSucc then M r j
      else if j = i.castSucc then 0
      else M r j + -(M r i.castSucc) / M i i.castSucc * M i j
    else M r j

/-- One iteration of the forward loop: pivot selection, swap, then either the
stabilization branch or elimination. -/
def gaussStep (M : Aug n) (i : Fin n) : Aug n :=
  if |swapRows M i (pivotRow M i) i i.castSucc| < stabEps
  then stabilizeRow (swapRows M i (pivotRow M i)) i
  else eliminateBelow (swapRows M i (pivotRow M i)) i

/-- State of the augmented matrix after the first `s` iterations. -/
def stateAt (M : Aug n) (s : ℕ) : Aug n :=
  ((List.finRange n).take s).foldl gaussStep M

/-- The full forward pass. -/
def gaussForward (M : Aug n) : Aug n :=
  (List.finRange n).foldl gaussStep M

/-- One step of back-substitution:
`x[i] = (M[i][n] - Σ_{j>i} M[i][j]·x[j]) / M[i][i]`. -/
def backSubStep (M : Aug n) (i : Fin n) (x : Fin n → ℚ) : Fin n → ℚ :=
  Function.update x i
    ((M i (Fin.last n) - ∑ j ∈ Finset.Ioi i, M i j.castSucc * x j) / M i i.castSucc)

/-- Back-substitution, processing rows `n-1, n-2, …, 0`. -/
def backSub (M : Aug n) : Fin n → ℚ :=
  (List.finRange n).foldr (backSubStep M) (fun _ => 0)

/-- `M = A.map((row, i) => [...row, b[i]])`. -/
def augmentMat (A : Fin n → Fin n → ℚ) (b : Fin n → ℚ) : Aug n :=
  fun r j => if h : (j : ℕ) < n then A r ⟨j, h⟩ else b r

/-- `solveLinearSystem` (solver.ts lines 39–81). -/
def solveLinearSystem (A : Fin n → Fin n → ℚ) (b : Fin n → ℚ) : Fin n → ℚ :=
  backSub (gaussForward (augmentMat A b))

/-! ### Structural lemmas about the forward pass -/

theorem pivotRow_ge (M : Aug n) (i : Fin n) : i ≤ pivotRow M i := by
  unfold pivotRow
  have key : ∀ (l : List (Fin n)) (b : Fin n), i ≤ b → (∀ a ∈ l, i ≤ a) →
      i ≤ l.foldl (fun best k =>
        if |M k i.castSucc| > |M best i.castSucc| then k else best) b := by
    intro l
    induction l with
    | nil => intro b hb _; exact hb
    | cons a t ih =>
        intro b hb hmem
        simp only [List.foldl_cons]
        refine ih _ ?_ (fun x hx => hmem x (List.mem_cons_of_mem a hx))
        split
        · exact hmem a (List.mem_cons_self a t)
        · exact hb
  refine key _ i le_rfl (fun a ha => ?_)
  have := (List.mem_filter.mp ha).2
  exact le_of_lt (by simpa using this)

theorem pivotRow_ne (M : Aug n) (i r : Fin n) (hr : M r i.castSucc = 0)
    (hri : r ≠ i) : pivotRow M i ≠ r := by
  unfold pivotRow
  have key : ∀ (l : List (Fin n)) (b : Fin n), b ≠ r →
      l.foldl (fun best k =>
        if |M k i.castSucc| > |M best i.castSucc| then k else best) b ≠ r := by
    intro l
    induction l with
    | nil => intro b hb; exact hb
    | cons a t ih =>
        intro b hb
        simp only [List.foldl_cons]
        by_cases ha : a = r
        · subst ha
          have : ¬ (|M a i.castSucc| > |M b i.castSucc|) := by
            rw [hr]; simp [abs_nonneg]
          rw [if_neg this]; exact ih b hb
        · apply ih
          split
          · exact ha
          · exact hb
  exact key _ i (Ne.symm hri)

theorem pivotRow_eq_unique (M : Aug n) (i r : Fin n)
    (hr : M r i.castSucc ≠ 0) (h0 : ∀ q, q ≠ r → M q i.castSucc = 0)
    (hir : i ≤ r) : pivotRow M i = r := by
  unfold pivotRow
  have key : ∀ (l : List (Fin n)) (b : Fin n),
      (b = r ∨ M b i.castSucc = 0) → (b = r ∨ r ∈ l) →
      l.foldl (fun best k =>
        if |M k i.castSucc| > |M best i.castSucc| then k else best) b = r := by
    intro l
    induction l with
    | nil =>
        intro b hb hmem
        rcases hmem with h | h
        · exact h
        · exact absurd h (List.not_mem_nil r)
    | cons a t ih =>
        intro b hb hmem
        simp only [List.foldl_cons]
        by_cases ha : a = r
        · subst ha
          rcases hb with hb | hb
          · subst hb
            apply ih _ (Or.inl ?_) (Or.inl ?_) <;> split <;> rfl
          · have hcond : |M a i.castSucc| > |M b i.castSucc| := by
              rw [hb]; simpa using hr
            rw [if_pos hcond]
            exact ih _ (Or.inl rfl) (Or.inl rfl)
        · have hcond : ¬ (|M a i.castSucc| > |M b i.castSucc|) := by
            rw [h0 a ha]; simp [abs_nonneg]
          rw [if_neg hcond]
          refine ih _ hb ?_
          rcases hmem with h | h
          · exact Or.inl h
          · rcases List.mem_cons.mp h with h | h
            · exact absurd h.symm ha
            · exact Or.inr h
  rcases eq_or_ne i r with hir2 | hir2
  · exact key _ i (Or.inl hir2) (Or.inl hir2)
  · refine key _ i (Or.inr (h0 i hir2)) (Or.inr ?_)
    refine List.mem_filter.mpr ⟨List.mem_finRange r, ?_⟩
    simpa using lt_of_le_of_ne hir hir2

/-- A step at index `i` never changes a row strictly above `i`. -/
theorem gaussStep_preserve (M : Aug n) (i r : Fin n) (h : r < i) :
    gaussStep M i r = M r := by
  have h1 : r ≠ i := ne_of_lt h
  have h2 : r ≠ pivotRow M i := ne_of_lt (lt_of_lt_of_le h (pivotRow_ge M i))
  have hsw : swapRows M i (pivotRow M i) r = M r := by
    unfold swapRows; rw [if_neg h1, if_neg h2]
  unfold gaussStep
  split
  · funext j
    unfold stabilizeRow
    rw [if_neg h1]
    exact congrFun hsw j
  · funext j
    unfold eliminateBelow
    rw [if_neg (not_lt.mpr (le_of_lt h))]
    exact congrFun hsw j

theorem foldl_gaussStep_preserve (M : Aug n) (l : List (Fin n)) (r : Fin n)
    (h : ∀ t ∈ l, r < t) : l.foldl gaussStep M r = M r := by
  induction l generalizing M with
  | nil => rfl
  | cons a t ih =>
      simp only [List.foldl_cons]
      rw [ih _ (fun x hx => h x (List.mem_cons_of_mem a hx))]
      exact gaussStep_preserve M a r (h a (List.mem_cons_self a t))

theorem stateAt_succ (M : Aug n) (s : ℕ) (hs : s < n) :
    stateAt M (s + 1) = gaussStep (stateAt M s) ⟨s, hs⟩ := by
  unfold stateAt
  rw [List.take_succ]
  have hlen : s < (List.finRange n).length := by simpa using hs
  rw [List.getElem?_eq_getElem hlen]
  simp only [Option.toList_some, List.foldl_append, List.foldl_cons, List.foldl_nil]
  have hval : (List.finRange n)[s] = (⟨s, hs⟩ : Fin n) := by
    apply Fin.ext
    simp [List.getElem_finRange]
  rw [hval]

theorem stateAt_ge_n (M : Aug n) (s : ℕ) (hs : n ≤ s) :
    stateAt M s = gaussForward M := by
  unfold stateAt gaussForward
  rw [List.take_of_length_le (by simpa using hs)]

/-- The final value of row `r` is its value right after step `r`. -/
theorem gaussForward_row (M : Aug n) (r : Fin n) :
    gaussForward M r = stateAt M ((r : ℕ) + 1) r := by
  unfold gaussForward stateAt
  conv_lhs => rw [← List.take_append_drop ((r : ℕ) + 1) (List.finRange n)]
  rw [List.foldl_append]
  apply foldl_gaussStep_preserve
  intro t ht
  rcases List.mem_iff_getElem.mp ht with ⟨m, hm, hval⟩
  have hlen : (r : ℕ) + 1 + m < (List.finRange n).length := by
    have := hm
    simp only [List.length_drop] at this
    simp only [List.length_finRange] at this ⊢
    omega
  rw [List.getElem_drop] at hval
  have : (t : ℕ) = (r : ℕ) + 1 + m := by
    rw [← hval]
    have := List.getElem_finRange (n := n) (i := (r : ℕ) + 1 + m) hlen
    simp [this]
  have : (r : ℕ) < (t : ℕ) := by omega
  exact this

/-! ### Back-substitution recurrence -/

theorem backSub_aux (M : Aug n) :
    ∀ (l : List (Fin n)), l.Sorted (· < ·) →
    (∀ a ∈ l, ∀ b : Fin n, a < b → b ∈ l) → ∀ i ∈ l,
    (l.foldr (backSubStep M) (fun _ => 0)) i =
      (M i (Fin.last n) - ∑ j ∈ Finset.Ioi i, M i j.castSucc *
        (l.foldr (backSubStep M) (fun _ => 0)) j) / M i i.castSucc := by
  intro l
  induction l with
  | nil => intro _ _ i hi; exact absurd hi (List.not_mem_nil i)
  | cons a t ih =>
      intro hsort hclosed i hi
      have hat : ∀ b ∈ t, a < b := (List.sorted_cons.mp hsort).1
      have hsort2 : t.Sorted (· < ·) := (List.sorted_cons.mp hsort).2
      have hclosed2 : ∀ x ∈ t, ∀ b : Fin n, x < b → b ∈ t := by
        intro x hx b hxb
        have hb : b ∈ a :: t := hclosed x (List.mem_cons_of_mem a hx) b hxb
        rcases List.mem_cons.mp hb with h | h
        · rw [h] at hxb
          exact absurd (lt_trans (hat x hx) hxb) (lt_irrefl a)
        · exact h
      set gt := t.foldr (backSubStep M) (fun _ => 0) with hgt
      have hfold : (a :: t).foldr (backSubStep M) (fun _ => 0) = backSubStep M a gt := rfl
      rcases List.mem_cons.mp hi with hia | hit
      · subst hia
        rw [hfold]
        unfold backSubStep
        rw [Function.update_same]
        congr 1
        congr 1
        apply Finset.sum_congr rfl
        intro j hj
        have hji : i < j := Finset.mem_Ioi.mp hj
        rw [Function.update_noteq (ne_of_gt hji)]
      · have hai : a < i := hat i hit
        rw [hfold]
        unfold backSubStep
        rw [Function.update_noteq (ne_of_gt hai)]
        rw [ih hsort2 hclosed2 i hit]
        congr 1
        congr 1
        apply Finset.sum_congr rfl
        intro j hj
        have hji : i < j := Finset.mem_Ioi.mp hj
        rw [Function.update_noteq (ne_of_gt (lt_trans hai hji))]

theorem backSub_spec (M : Aug n) (i : Fin n) :
    backSub M i =
      (M i (Fin.last n) - ∑ j ∈ Finset.Ioi i, M i j.castSucc * backSub M j) /
        M i i.castSucc := by
  unfold backSub
  exact backSub_aux M (List.finRange n) (List.pairwise_lt_finRange n)
    (fun a _ b _ => List.mem_finRange b) i (List.mem_finRange i)

/-- Every diagonal entry of the fully forward-eliminated matrix is nonzero:
back-substitution never divides by zero. -/
theorem gaussForward_diag_ne (M : Aug n) (i : Fin n) :
    gaussForward M i i.castSucc ≠ 0 := by
  rw [gaussForward_row, stateAt_succ M i i.isLt]
  have hfin : (⟨(i : ℕ), i.isLt⟩ : Fin n) = i := rfl
  rw [hfin]
  unfold gaussStep
  split
  · unfold stabilizeRow
    simp only [if_pos rfl]
    norm_num
  · rename_i hbig
    unfold eliminateBelow
    rw [if_neg (lt_irrefl i)]
    intro hzero
    rw [hzero] at hbig
    simp only [abs_zero] at hbig
    exact hbig (by norm_num [stabEps])

theorem swapRows_fst (M : Aug n) (a b : Fin n) : swapRows M a b a = M b := by
  unfold swapRows; rw [if_pos rfl]

theorem swapRows_snd (M : Aug n) (a b : Fin n) : swapRows M a b b = M a := by
  unfold swapRows
  by_cases h : b = a
  · rw [if_pos h, h]
  · rw [if_neg h, if_pos rfl]

theorem swapRows_other (M : Aug n) (a b q : Fin n) (hqa : q ≠ a) (hqb : q ≠ b) :
    swapRows M a b q = M q := by
  unfold swapRows; rw [if_neg hqa, if_neg hqb]

/-- If the post-swap pivot at step `i` is below `1e-10`, the solver stabilizes:
afterwards row `i` has diagonal `1`, right-hand side `0`, zeros right of the
diagonal, no other row is changed by this step, and the back-substituted
solution entry `i` is `0`. -/
theorem stabilized_step (M₀ : Aug n) (i : Fin n)
    (hsm : |swapRows (stateAt M₀ (i : ℕ)) i (pivotRow (stateAt M₀ (i : ℕ)) i) i
      i.castSucc| < stabEps) :
    stateAt M₀ ((i : ℕ) + 1) =
      stabilizeRow (swapRows (stateAt M₀ (i : ℕ)) i (pivotRow (stateAt M₀ (i : ℕ)) i)) i ∧
    gaussForward M₀ i i.castSucc = 1 ∧
    gaussForward M₀ i (Fin.last n) = 0 ∧
    (∀ j : Fin (n + 1), i.castSucc < j → gaussForward M₀ i j = 0) ∧
    backSub (gaussForward M₀) i = 0 := by
  have hstep : stateAt M₀ ((i : ℕ) + 1) =
      stabilizeRow (swapRows (stateAt M₀ (i : ℕ))
        i (pivotRow (stateAt M₀ (i : ℕ)) i)) i := by
    rw [stateAt_succ M₀ (i : ℕ) i.isLt]
    have hfin : (⟨(i : ℕ), i.isLt⟩ : Fin n) = i := rfl
    rw [hfin]
    unfold gaussStep
    rw [if_pos hsm]
  have hrow : gaussForward M₀ i =
      stabilizeRow (swapRows (stateAt M₀ (i : ℕ))
        i (pivotRow (stateAt M₀ (i : ℕ)) i)) i i := by
    rw [gaussForward_row, hstep]
  have hdiag : gaussForward M₀ i i.castSucc = 1 := by
    rw [hrow]; unfold stabilizeRow
    rw [if_pos rfl, if_pos rfl]
  have hgt : ∀ j : Fin (n + 1), i.castSucc < j → gaussForward M₀ i j = 0 := by
    intro j hj
    rw [hrow]; unfold stabilizeRow
    rw [if_pos rfl, if_neg (ne_of_gt hj), if_pos hj]
  have hlast : gaussForward M₀ i (Fin.last n) = 0 :=
    hgt (Fin.last n) (Fin.castSucc_lt_last i)
  refine ⟨hstep, hdiag, hlast, hgt, ?_⟩
  rw [backSub_spec, hlast, hdiag]
  rw [Finset.sum_eq_zero]
  · norm_num
  · intro j hj
    rw [hgt j.castSucc (Fin.castSucc_lt_castSucc_iff.mpr (Finset.mem_Ioi.mp hj))]
    exact zero_mul _

/-! ### A unit row with a cleared column solves to `0`

This is the key fact behind the boundary-condition reduction: if row `k` of the
augmented system is `eₖ` with right-hand side `0`, and every other row has a
`0` in column `k`, then the computed solution has entry `k` equal to `0` — even
when other parts of the system force pivoting, swapping, or stabilization. -/

/-- The augmented row `eₖ | 0`. -/
def ekRow (k : Fin n) : Fin (n + 1) → ℚ := fun j => if j = k.castSucc then 1 else 0

/-- Invariant case A: the `eₖ` row is still intact at some position `r ≥ s`, and
every other row has a zero in column `k`. -/
def InvA (k : Fin n) (s : ℕ) (M : Aug n) : Prop :=
  ∃ r : Fin n, s ≤ (r : ℕ) ∧ M r = ekRow k ∧ ∀ q, q ≠ r → M q k.castSucc = 0

/-- Invariant case B: every remaining row has a zero in column `k` (the `eₖ`
row was consumed by a stabilization). -/
def InvB (k : Fin n) (s : ℕ) (M : Aug n) : Prop :=
  ∀ q : Fin n, s ≤ (q : ℕ) → M q k.castSucc = 0

theorem inv_step (k : Fin n) (s : ℕ) (hs : s < n) (hsk : s < (k : ℕ)) (M : Aug n)
    (hInv : InvA k s M ∨ InvB k s M) :
    InvA k (s + 1) (gaussStep M ⟨s, hs⟩) ∨ InvB k (s + 1) (gaussStep M ⟨s, hs⟩) := by
  set i : Fin n := ⟨s, hs⟩ with hidef
  have hik : i ≠ k := by
    intro h
    rw [Fin.ext_iff] at h
    simp only [hidef] at h
    omega
  have hick : i.castSucc ≠ k.castSucc := fun h => hik (Fin.castSucc_inj.mp h)
  have hickl : i.castSucc < k.castSucc := by
    rw [Fin.castSucc_lt_castSucc_iff, Fin.lt_def]
    exact hsk
  set p := pivotRow M i with hpdef
  have hip : (s : ℕ) ≤ (p : ℕ) := pivotRow_ge M i
  set M1 := swapRows M i p with hM1def
  have hstep : gaussStep M i =
      if |M1 i i.castSucc| < stabEps then stabilizeRow M1 i else eliminateBelow M1 i := rfl
  rcases hInv with ⟨r, hrge, hrow, hcol⟩ | hB
  · -- case A
    have hrcol0 : M r i.castSucc = 0 := by
      rw [hrow]; unfold ekRow; rw [if_neg hick]
    -- where the eₖ row lives after the swap
    set rr : Fin n := if r = i then p else r with hrrdef
    have hrrrow : M1 rr = ekRow k := by
      by_cases hri : r = i
      · simp only [hrrdef, if_pos hri]
        rw [hM1def, swapRows_snd, ← hri, hrow]
      · have hrp : p ≠ r := pivotRow_ne M i r hrcol0 hri
        simp only [hrrdef, if_neg hri]
        rw [hM1def, swapRows_other M i p r hri (Ne.symm hrp), hrow]
    have hrrcol : ∀ q, q ≠ rr → M1 q k.castSucc = 0 := by
      intro q hq
      by_cases hqi : q = i
      · subst hqi
        rw [hM1def, swapRows_fst]
        apply hcol
        intro hpr
        by_cases hri : r = i
        · refine hq ?_
          rw [hrrdef, if_pos hri, hpr]
          exact hri.symm
        · exact (pivotRow_ne M i r hrcol0 hri) hpr
      · by_cases hqp : q = p
        · subst hqp
          rw [hM1def, swapRows_snd]
          apply hcol
          intro hir
          by_cases hri : r = i
          · -- then rr = p = q, contradiction with hq
            exact hq (by simp only [hrrdef, if_pos hri])
          · exact hri hir.symm
        · rw [hM1def, swapRows_other M i p q hqi hqp]
          apply hcol
          intro hqr
          by_cases hri : r = i
          · exact hqi (hqr.trans hri)
          · exact hq (by simp only [hrrdef, if_neg hri, hqr])
    have hrrge : s ≤ (rr : ℕ) := by
      by_cases hri : r = i
      · simp only [hrrdef, if_pos hri]; exact hip
      · simp only [hrrdef, if_neg hri]; exact hrge
    rw [hstep]
    split
    · -- stabilization branch
      rename_i hsmall
      by_cases hrri : rr = i
      · -- the eₖ row sat at the pivot position and is overwritten: case B
        right
        intro q hq
        have hqi : q ≠ i := by
          intro h
          rw [h] at hq
          simp only [hidef] at hq
          omega
        have : stabilizeRow M1 i q = M1 q := by
          unfold stabilizeRow
          funext j
          rw [if_neg hqi]
        rw [this]
        exact hrrcol q (fun h => hqi (h.trans hrri))
      · left
        refine ⟨rr, ?_, ?_, ?_⟩
        · have : (rr : ℕ) ≠ s := by
            intro h
            exact hrri (Fin.ext (by simp [hidef, h]))
          omega
        · funext j
          unfold stabilizeRow
          rw [if_neg hrri]
          exact congrFun hrrrow j
        · intro q hq
          by_cases hqi : q = i
          · subst hqi
            unfold stabilizeRow
            rw [if_pos rfl, if_neg (Ne.symm hick), if_pos hickl]
          · unfold stabilizeRow
            rw [if_neg hqi]
            exact hrrcol q hq
    · -- elimination branch
      rename_i hbig
      have hrri : rr ≠ i := by
        intro h
        apply hbig
        have hv : M1 i i.castSucc = 0 := by
          have hvv := congrFun hrrrow i.castSucc
          rw [h] at hvv
          rw [hvv]
          unfold ekRow
          rw [if_neg hick]
        rw [hv]
        simp [stabEps]
      have hirr : i < rr := by
        rw [Fin.lt_def]
        have : (rr : ℕ) ≠ s := fun h => hrri (Fin.ext (by simp [hidef, h]))
        simp only [hidef]
        omega
      left
      refine ⟨rr, ?_, ?_, ?_⟩
      · have := Fin.lt_def.mp hirr
        simp only [hidef] at this
        omega
      · funext j
        unfold eliminateBelow
        rw [if_pos hirr]
        rcases lt_trichotomy j i.castSucc with hj | hj | hj
        · rw [if_pos hj]
          exact congrFun hrrrow j
        · rw [if_neg (by rw [hj]; exact lt_irrefl _), if_pos hj]
          rw [hj]
          unfold ekRow
          rw [if_neg hick]
        · rw [if_neg (not_lt.mpr (le_of_lt hj)), if_neg (ne_of_gt hj)]
          rw [congrFun hrrrow j]
          have : M1 rr i.castSucc = 0 := by
            rw [congrFun hrrrow i.castSucc]
            unfold ekRow
            rw [if_neg hick]
          rw [this]
          norm_num
      · intro q hq
        unfold eliminateBelow
        by_cases hiq : i < q
        · rw [if_pos hiq, if_neg (not_lt.mpr (le_of_lt hickl)), if_neg (Ne.symm hick)]
          rw [hrrcol q hq, hrrcol i (Ne.symm hrri)]
          norm_num
        · rw [if_neg hiq]
          exact hrrcol q hq
  · -- case B is preserved
    right
    have hB1 : ∀ q : Fin n, s ≤ (q : ℕ) → M1 q k.castSucc = 0 := by
      intro q hq
      by_cases hqi : q = i
      · subst hqi; rw [hM1def, swapRows_fst]; exact hB p hip
      · by_cases hqp : q = p
        · subst hqp; rw [hM1def, swapRows_snd]; exact hB i (by simp [hidef])
        · rw [hM1def, swapRows_other M i p q hqi hqp]; exact hB q hq
    rw [hstep]
    intro q hq
    have hqi : q ≠ i := by
      intro h
      rw [h] at hq
      simp only [hidef] at hq
      omega
    have hiq : i < q := by
      rw [Fin.lt_def]
      simp only [hidef]
      omega
    split
    · unfold stabilizeRow
      rw [if_neg hqi]
      exact hB1 q (by omega)
    · unfold eliminateBelow
      rw [if_pos hiq, if_neg (not_lt.mpr (le_of_lt hickl)), if_neg (Ne.symm hick)]
      rw [hB1 q (by omega), hB1 i (by simp [hidef])]
      norm_num

theorem inv_stateAt (k : Fin n) (M₀ : Aug n) (h0 : InvA k 0 M₀ ∨ InvB k 0 M₀) :
    ∀ s : ℕ, s ≤ (k : ℕ) →
      InvA k s (stateAt M₀ s) ∨ InvB k s (stateAt M₀ s) := by
  intro s
  induction s with
  | zero =>
      intro _
      have : stateAt M₀ 0 = M₀ := by unfold stateAt; rw [List.take_zero]; rfl
      rw [this]; exact h0
  | succ t ih =>
      intro hle
      have htk : t < (k : ℕ) := by omega
      have htn : t < n := lt_trans htk k.isLt
      rw [stateAt_succ M₀ t htn]
      exact inv_step k t htn htk (stateAt M₀ t) (ih (le_of_lt htk))

/-- After the forward pass, the row of a restrained-style DOF has a unit
diagonal and zeros to its right. -/
theorem final_unit_row (k : Fin n) (M₀ : Aug n) (h0 : InvA k 0 M₀ ∨ InvB k 0 M₀) :
    gaussForward M₀ k k.castSucc = 1 ∧
    ∀ j : Fin (n + 1), k.castSucc < j → gaussForward M₀ k j = 0 := by
  have hInv := inv_stateAt k M₀ h0 (k : ℕ) le_rfl
  set S := stateAt M₀ (k : ℕ) with hSdef
  have hfinal : gaussForward M₀ k = gaussStep S k k := by
    rw [gaussForward_row, stateAt_succ M₀ (k : ℕ) k.isLt]
  rcases hInv with ⟨r, hrge, hrow, hcol⟩ | hB
  · -- the eₖ row is selected as pivot, swapped into position k, kept intact
    have hrk : (k : ℕ) ≤ (r : ℕ) := hrge
    have hpr : pivotRow S k = r := by
      apply pivotRow_eq_unique S k r
      · rw [congrFun hrow k.castSucc]
        unfold ekRow
        rw [if_pos rfl]
        norm_num
      · exact hcol
      · exact hrk
    have hM1k : swapRows S k (pivotRow S k) k = ekRow k := by
      rw [hpr, swapRows_fst, hrow]
    have hcond : ¬ (|swapRows S k (pivotRow S k) k k.castSucc| < stabEps) := by
      rw [congrFun hM1k k.castSucc]
      unfold ekRow
      rw [if_pos rfl]
      norm_num [stabEps]
    have hrowk : gaussStep S k k = ekRow k := by
      unfold gaussStep
      rw [if_neg hcond]
      unfold eliminateBelow
      funext j
      rw [if_neg (lt_irrefl k)]
      exact congrFun hM1k j
    rw [hfinal, hrowk]
    constructor
    · unfold ekRow; rw [if_pos rfl]
    · intro j hj
      unfold ekRow
      rw [if_neg (ne_of_gt hj)]
  · -- the pivot column is entirely tiny: row k is stabilized
    have hcond : |swapRows S k (pivotRow S k) k k.castSucc| < stabEps := by
      rw [swapRows_fst]
      rw [hB (pivotRow S k) (pivotRow_ge S k)]
      norm_num [stabEps]
    have hrowk : ∀ j, gaussStep S k k j = stabilizeRow (swapRows S k (pivotRow S k)) k k j := by
      intro j
      unfold gaussStep
      rw [if_pos hcond]
    rw [hfinal]
    constructor
    · rw [hrowk]
      unfold stabilizeRow
      rw [if_pos rfl, if_pos rfl]
    · intro j hj
      rw [hrowk]
      unfold stabilizeRow
      rw [if_pos rfl, if_neg (ne_of_gt hj), if_pos hj]

/-- If row `k` of the square system is the unit row `eₖ` with zero right-hand
side and column `k` is zero off the diagonal, the solution entry `k` is `0`. -/
theorem solveLinearSystem_unitRow (A : Fin n → Fin n → ℚ) (b : Fin n → ℚ) (k : Fin n)
    (hrowA : ∀ j, A k j = if j = k then 1 else 0) (hbk : b k = 0)
    (hcolA : ∀ q, q ≠ k → A q k = 0) :
    solveLinearSystem A b k = 0 := by
  have h0 : InvA k 0 (augmentMat A b) ∨ InvB k 0 (augmentMat A b) := by
    left
    refine ⟨k, Nat.zero_le _, ?_, ?_⟩
    · funext j
      unfold augmentMat ekRow
      by_cases hj : (j : ℕ) < n
      · rw [dif_pos hj, hrowA]
        have : ((⟨(j : ℕ), hj⟩ : Fin n) = k) ↔ (j = k.castSucc) := by
          rw [Fin.ext_iff, Fin.ext_iff]
          simp
        by_cases hc : (⟨(j : ℕ), hj⟩ : Fin n) = k
        · rw [if_pos hc, if_pos (this.mp hc)]
        · rw [if_neg hc, if_neg (fun h => hc (this.mpr h))]
      · rw [dif_neg hj, hbk, if_neg]
        intro h
        apply hj
        rw [h]
        simp
    · intro q hq
      unfold augmentMat
      rw [dif_pos (by simp : ((k.castSucc : Fin (n+1)) : ℕ) < n)]
      have : (⟨((k.castSucc : Fin (n+1)) : ℕ), by simp⟩ : Fin n) = k := by
        apply Fin.ext; simp
      rw [this]
      exact hcolA q hq
  obtain ⟨hdiag, hgt⟩ := final_unit_row k (augmentMat A b) h0
  unfold solveLinearSystem
  rw [backSub_spec, hdiag]
  rw [hgt (Fin.last n) (Fin.castSucc_lt_last k)]
  rw [Finset.sum_eq_zero]
  · norm_num
  · intro j hj
    rw [hgt j.castSucc (Fin.castSucc_lt_castSucc_iff.mpr (Finset.mem_Ioi.mp hj))]
    exact zero_mul _

/-! ### Small fixed-size vectors

JS array literals of fixed length 3 / 6 are modelled by accessor functions with
one definitional equation per index. -/

def vec3g {α : Type} (a b c : α) : Fin 3 → α :=
  fun i => if (i : ℕ) = 0 then a else if (i : ℕ) = 1 then b else c

def vec6g {α : Type} (a b c d e f : α) : Fin 6 → α :=
  fun i => if (i : ℕ) = 0 then a else if (i : ℕ) = 1 then b else if (i : ℕ) = 2 then c
    else if (i : ℕ) = 3 then d else if (i : ℕ) = 4 then e else f

@[simp] theorem vec3g_0 {α : Type} (a b c : α) : vec3g a b c 0 = a := rfl
@[simp] theorem vec3g_1 {α : Type} (a b c : α) : vec3g a b c 1 = b := rfl
@[simp] theorem vec3g_2 {α : Type} (a b c : α) : vec3g a b c 2 = c := rfl
@[simp] theorem vec3g_mk0 {α : Type} (a b c : α) (h : (0:ℕ) < 3) : vec3g a b c ⟨0, h⟩ = a := rfl
@[simp] theorem vec3g_mk1 {α : Type} (a b c : α) (h : (1:ℕ) < 3) : vec3g a b c ⟨1, h⟩ = b := rfl
@[simp] theorem vec3g_mk2 {α : Type} (a b c : α) (h : (2:ℕ) < 3) : vec3g a b c ⟨2, h⟩ = c := rfl

@[simp] theorem vec6g_0 {α : Type} (a b c d e f : α) : vec6g a b c d e f 0 = a := rfl
@[simp] theorem vec6g_1 {α : Type} (a b c d e f : α) : vec6g a b c d e f 1 = b := rfl
@[simp] theorem vec6g_2 {α : Type} (a b c d e f : α) : vec6g a b c d e f 2 = c := rfl
@[simp] theorem vec6g_3 {α : Type} (a b c d e f : α) : vec6g a b c d e f 3 = d := rfl
@[simp] theorem vec6g_4 {α : Type} (a b c d e f : α) : vec6g a b c d e f 4 = e := rfl
@[simp] theorem vec6g_5 {α : Type} (a b c d e f : α) : vec6g a b c d e f 5 = f := rfl
@[simp] theorem vec6g_mk0 {α : Type} (a b c d e f : α) (h : (0:ℕ) < 6) :
    vec6g a b c d e f ⟨0, h⟩ = a := rfl
@[simp] theorem vec6g_mk1 {α : Type} (a b c d e f : α) (h : (1:ℕ) < 6) :
    vec6g a b c d e f ⟨1, h⟩ = b := rfl
@[simp] theorem vec6g_mk2 {α : Type} (a b c d e f : α) (h : (2:ℕ) < 6) :
    vec6g a b c d e f ⟨2, h⟩ = c := rfl
@[simp] theorem vec6g_mk3 {α : Type} (a b c d e f : α) (h : (3:ℕ) < 6) :
    vec6g a b c d e f ⟨3, h⟩ = d := rfl
@[simp] theorem vec6g_mk4 {α : Type} (a b c d e f : α) (h : (4:ℕ) < 6) :
    vec6g a b c d e f ⟨4, h⟩ = e := rfl
@[simp] theorem vec6g_mk5 {α : Type} (a b c d e f : α) (h : (5:ℕ) < 6) :
    vec6g a b c d e f ⟨5, h⟩ = f := rfl

/-! ## Data model (`src/types.ts`)

The TS `Load.id : string` field is display-only (regenerated randomly by
`autoConnectNodes`) and carries no solver semantics; it is not modelled. -/

structure SNode where
  id : ℤ
  x : ℚ
  y : ℚ
  restraints : Fin 3 → Bool
deriving DecidableEq

structure SElement where
  id : ℤ
  startNode : ℤ
  endNode : ℤ
  E : ℚ
  A : ℚ
  I : ℚ
  releaseStart : Bool
  releaseEnd : Bool
deriving DecidableEq

/-- TS `Load.type`. -/
inductive LoadKind where
  | point
  | distributed
  | moment
deriving DecidableEq

/-- TS `Load.direction` (global axis). -/
inductive LoadDir where
  | x
  | y
deriving DecidableEq

structure SLoad where
  elementId : Option ℤ
  nodeId : Option ℤ
  kind : LoadKind
  magnitude : ℚ
  direction : Option LoadDir
  location : Option ℚ
deriving DecidableEq

inductive StiffnessType where
  | Elastic
  | AxiallyRigid
  | Rigid
deriving DecidableEq

/-! ## `solveStructure` (solver.ts lines 170–613) -/

/-- `nodes.forEach((n, i) => nodeIndexMap.set(n.id, i))`: for duplicate ids,
the later entry wins.  -/
def nodeIndexMap (nodes : List SNode) (nid : ℤ) : Option ℕ :=
  nodes.enum.foldl (fun acc p => if p.2.id = nid then some p.1 else acc) none

/-- `getDofIndex` (lines 178–181); `none` models the `-1` sentinel. -/
def getDofIndex (nodes : List SNode) (nid : ℤ) : Option ℕ :=
  (nodeIndexMap nodes nid).map (· * 3)

/-- `nodes.find(n => n.id === id)`. -/
def findNode (nodes : List SNode) (nid : ℤ) : Option SNode :=
  nodes.find? (fun nd => decide (nd.id = nid))

def RIGID_MULTIPLIER : ℚ := 10 ^ 4

/-- `effE = el.E * 1e6`, times `RIGID_MULTIPLIER` in `Rigid` mode. -/
def effEOf (stype : StiffnessType) (el : SElement) : ℚ :=
  if stype = StiffnessType.Rigid then el.E * 10 ^ 6 * RIGID_MULTIPLIER else el.E * 10 ^ 6

/-- `effA = el.A * 1e-4`, times `RIGID_MULTIPLIER` in `AxiallyRigid` mode. -/
def effAOf (stype : StiffnessType) (el : SElement) : ℚ :=
  if stype = StiffnessType.AxiallyRigid then el.A * (1 / 10 ^ 4) * RIGID_MULTIPLIER
  else el.A * (1 / 10 ^ 4)

/-- `effI = el.I * 1e-6`. -/
def effIOf (el : SElement) : ℚ := el.I * (1 / 10 ^ 6)

/-- The 6×6 local stiffness matrix (lines 217–253): axial terms always, bending
terms by release case (both released / start released / end released / fixed). -/
def kLocalOf (effE effA effI L : ℚ) (relS relE : Bool) : Fin 6 → Fin 6 → ℚ :=
  let ka := effE * effA / L
  if relS && relE then
    vec6g (vec6g ka 0 0 (-ka) 0 0)
      (vec6g 0 0 0 0 0 0)
      (vec6g 0 0 0 0 0 0)
      (vec6g (-ka) 0 0 ka 0 0)
      (vec6g 0 0 0 0 0 0)
      (vec6g 0 0 0 0 0 0)
  else if relS then
    let k33 := 3 * effE * effI / (L * L * L)
    let k32 := 3 * effE * effI / (L * L)
    let k31 := 3 * effE * effI / L
    vec6g (vec6g ka 0 0 (-ka) 0 0)
      (vec6g 0 k33 0 0 (-k33) k32)
      (vec6g 0 0 0 0 0 0)
      (vec6g (-ka) 0 0 ka 0 0)
      (vec6g 0 (-k33) 0 0 k33 (-k32))
      (vec6g 0 k32 0 0 (-k32) k31)
  else if relE then
    let k33 := 3 * effE * effI / (L * L * L)
    let k32 := 3 * effE * effI / (L * L)
    let k31 := 3 * effE * effI / L
    vec6g (vec6g ka 0 0 (-ka) 0 0)
      (vec6g 0 k33 k32 0 (-k33) 0)
      (vec6g 0 k32 k31 0 (-k32) 0)
      (vec6g (-ka) 0 0 ka 0 0)
      (vec6g 0 (-k33) (-k32) 0 k33 0)
      (vec6g 0 0 0 0 0 0)
  else
    let kb1 := 12 * effE * effI / (L * L * L)
    let kb2 := 6 * effE * effI / (L * L)
    let kb3 := 4 * effE * effI / L
    let kb4 := 2 * effE * effI / L
    vec6g (vec6g ka 0 0 (-ka) 0 0)
      (vec6g 0 kb1 kb2 0 (-kb1) kb2)
      (vec6g 0 kb2 kb3 0 (-kb2) kb4)
      (vec6g (-ka) 0 0 ka 0 0)
      (vec6g 0 (-kb1) (-kb2) 0 kb1 (-kb2))
      (vec6g 0 kb2 kb4 0 (-kb2) kb3)

/-- The 2D rotation/transformation matrix `T` (lines 256–262). -/
def Tmat (c s : ℚ) : Fin 6 → Fin 6 → ℚ :=
  vec6g (vec6g c s 0 0 0 0)
    (vec6g (-s) c 0 0 0 0)
    (vec6g 0 0 1 0 0 0)
    (vec6g 0 0 0 c s 0)
    (vec6g 0 0 0 (-s) c 0)
    (vec6g 0 0 0 0 0 1)

/-- `k_global_el = Tᵗ · k_local · T` computed entrywise (lines 264–271). -/
def kGlobalEl (kL : Fin 6 → Fin 6 → ℚ) (c s : ℚ) : Fin 6 → Fin 6 → ℚ :=
  fun i j => ∑ a : Fin 6, ∑ b : Fin 6, Tmat c s a i * kL a b * Tmat c s b j

/-- The element-local → global DOF translation table (line 273). -/
def dofMap (idx1 idx2 : ℕ) : Fin 6 → ℕ :=
  vec6g idx1 (idx1 + 1) (idx1 + 2) idx2 (idx2 + 1) (idx2 + 2)

/-- The contribution of one element to the global stiffness matrix
(lines 187–275): zero if a node id is missing or the length is below `1e-6`;
otherwise the transformed local matrix scatter-added through `dofMap`. -/
def contribK (sqrtFn : ℚ → ℚ) (nodes : List SNode) (stype : StiffnessType)
    (el : SElement) : ℕ → ℕ → ℚ :=
  match getDofIndex nodes el.startNode, getDofIndex nodes el.endNode with
  | some idx1, some idx2 =>
    match findNode nodes el.startNode, findNode nodes el.endNode with
    | some n1, some n2 =>
      let dx := n2.x - n1.x
      let dy := n2.y - n1.y
      let L := sqrtFn (dx * dx + dy * dy)
      if L < 1 / 10 ^ 6 then fun _ _ => 0
      else
        let kg := kGlobalEl
          (kLocalOf (effEOf stype el) (effAOf stype el) (effIOf el) L
            el.releaseStart el.releaseEnd) (dx / L) (dy / L)
        fun p q => ∑ a : Fin 6, ∑ b : Fin 6,
          if dofMap idx1 idx2 a = p ∧ dofMap idx1 idx2 b = q then kg a b else 0
    | _, _ => fun _ _ => 0
  | _, _ => fun _ _ => 0

/-- Step 1 of `solveStructure`: assemble `K_global` by `+=` over elements. -/
def assembleK (sqrtFn : ℚ → ℚ) (nodes : List SNode) (elements : List SElement)
    (stype : StiffnessType) : ℕ → ℕ → ℚ :=
  elements.foldl (fun K el => fun p q => K p q + contribK sqrtFn nodes stype el p q)
    (fun _ _ => 0)

/-! ### Fixed-end actions and the load vector (lines 277–383) -/

/-- Local fixed-end action components `fx1, v1, m1, fx2, v2, m2`. -/
structure FemLoc where
  fx1 : ℚ
  v1 : ℚ
  m1 : ℚ
  fx2 : ℚ
  v2 : ℚ
  m2 : ℚ
deriving DecidableEq

/-- Closed-form fixed-end actions before release adjustment (lines 311–343). -/
def femFormulas (l : SLoad) (L c s : ℚ) : FemLoc :=
  match l.kind with
  | LoadKind.distributed =>
      let mag := l.magnitude
      let wx := if l.direction.getD LoadDir.y = LoadDir.x then mag * c else mag * s
      let wy := if l.direction.getD LoadDir.y = LoadDir.x then mag * -s else mag * c
      ⟨-wx * L / 2, -wy * L / 2, -wy * L * L / 12, -wx * L / 2, -wy * L / 2, wy * L * L / 12⟩
  | LoadKind.point =>
      let mag := l.magnitude
      let a := l.location.getD (1 / 2) * L
      let b := L - a
      let Px := if l.direction.getD LoadDir.y = LoadDir.x then mag * c else mag * s
      let Py := if l.direction.getD LoadDir.y = LoadDir.x then mag * -s else mag * c
      ⟨-Px * b / L, -Py * b * b * (3 * a + b) / (L * L * L), -Py * a * b * b / (L * L),
        -Px * a / L, -Py * a * a * (a + 3 * b) / (L * L * L), Py * a * a * b / (L * L)⟩
  | LoadKind.moment =>
      let M := l.magnitude
      let a := l.location.getD (1 / 2) * L
      let b := L - a
      ⟨0, -6 * M * a * b / (L * L * L), M * b * (2 * a - b) / (L * L),
        0, 6 * M * a * b / (L * L * L), M * a * (2 * b - a) / (L * L)⟩

/-- Release adjustments of the fixed-end actions (lines 345–369, duplicated at
lines 522–545): `-1.5` is written `-(3/2)` and `0.5` is `1/2`. -/
def releaseAdjust (relS relE : Bool) (l : SLoad) (L c s : ℚ) (f : FemLoc) : FemLoc :=
  let f1 :=
    if relS then
      let dm1 := -f.m1
      let dV := -(3 / 2) * dm1 / L
      { f with m1 := f.m1 + dm1, m2 := f.m2 + 1 / 2 * dm1,
               v1 := f.v1 + dV, v2 := f.v2 - dV }
    else f
  if relE then
    let dm2 := -f1.m2
    if ¬ relS then
      let dV1 := -(3 / 2) * dm2 / L
      { f1 with m2 := f1.m2 + dm2, m1 := f1.m1 + 1 / 2 * dm2,
                v1 := f1.v1 + dV1, v2 := f1.v2 - dV1 }
    else
      -- both ends released: shears recomputed from statics, axial/moments zeroed
      match l.kind with
      | LoadKind.distributed =>
          let wy := if l.direction.getD LoadDir.y = LoadDir.x then l.magnitude * -s
                    else l.magnitude * c
          ⟨0, -wy * L / 2, 0, 0, -wy * L / 2, 0⟩
      | LoadKind.point =>
          let a := l.location.getD (1 / 2) * L
          let b := L - a
          let Py := if l.direction.getD LoadDir.y = LoadDir.x then l.magnitude * -s
                    else l.magnitude * c
          ⟨0, -Py * b / L, 0, 0, -Py * a / L, 0⟩
      | LoadKind.moment =>
          ⟨0, -l.magnitude / L, 0, 0, l.magnitude / L, 0⟩
  else f1

/-- Adjusted local fixed-end actions of one load on one element. -/
def femLocal (relS relE : Bool) (l : SLoad) (L c s : ℚ) : FemLoc :=
  releaseAdjust relS relE l L c s (femFormulas l L c s)

/-- `fem_local` as the ordered 6-vector `[fx1, v1, m1, fx2, v2, m2]`. -/
def femVec (f : FemLoc) : Fin 6 → ℚ := vec6g f.fx1 f.v1 f.m1 f.fx2 f.v2 f.m2

/-- JS truthiness of an optional numeric id: `undefined` and `0` are falsy. -/
def idTruthy (o : Option ℤ) : Prop := o.getD 0 ≠ 0

instance (o : Option ℤ) : Decidable (idTruthy o) := by
  unfold idTruthy; infer_instance

/-- The element branch of the load loop (lines 293–382), for the element the
load's id resolved to. -/
def contribFElem (sqrtFn : ℚ → ℚ) (nodes : List SNode) (load : SLoad)
    (el : SElement) : ℕ → ℚ :=
  match getDofIndex nodes el.startNode, getDofIndex nodes el.endNode with
  | some idx1, some idx2 =>
    match findNode nodes el.startNode, findNode nodes el.endNode with
    | some n1, some n2 =>
      let dx := n2.x - n1.x
      let dy := n2.y - n1.y
      -- note: no `L < 1e-6` exclusion here, unlike stiffness assembly
      let L := sqrtFn (dx * dx + dy * dy)
      let c := dx / L
      let s := dy / L
      let f := femLocal el.releaseStart el.releaseEnd load L c s
      -- `F_global -= Tᵗ · fem_local` (lines 375–381)
      fun p =>
        (if p = idx1 then -(c * f.fx1 - s * f.v1) else 0) +
        (if p = idx1 + 1 then -(s * f.fx1 + c * f.v1) else 0) +
        (if p = idx1 + 2 then -f.m1 else 0) +
        (if p = idx2 then -(c * f.fx2 - s * f.v2) else 0) +
        (if p = idx2 + 1 then -(s * f.fx2 + c * f.v2) else 0) +
        (if p = idx2 + 2 then -f.m2 else 0)
    | _, _ => fun _ => 0
  | _, _ => fun _ => 0

/-- Contribution of one load to the global load vector (lines 278–383). -/
def contribF (sqrtFn : ℚ → ℚ) (nodes : List SNode) (elements : List SElement)
    (load : SLoad) : ℕ → ℚ :=
  if ¬ idTruthy load.elementId ∧ idTruthy load.nodeId then
    match getDofIndex nodes (load.nodeId.getD 0) with
    | some idx =>
        match load.kind with
        | LoadKind.moment => fun p => if p = idx + 2 then load.magnitude else 0
        | _ =>
            if load.direction.getD LoadDir.y = LoadDir.x then
              fun p => if p = idx then load.magnitude else 0
            else
              fun p => if p = idx + 1 then load.magnitude else 0
    | none => fun _ => 0
  else if idTruthy load.elementId then
    match elements.find? (fun e => decide (e.id = load.elementId.getD 0)) with
    | none => fun _ => 0
    | some el => contribFElem sqrtFn nodes load el
  else fun _ => 0

/-- Step 2 of `solveStructure`: assemble `F_global` by `+=` over loads. -/
def assembleF (sqrtFn : ℚ → ℚ) (nodes : List SNode) (elements : List SElement)
    (loads : List SLoad) : ℕ → ℚ :=
  loads.foldl (fun F l => fun p => F p + contribF sqrtFn nodes elements l p)
    (fun _ => 0)

/-! ### Boundary conditions (lines 385–402) -/

def totalDOF (nodes : List SNode) : ℕ := nodes.length * 3

/-- The restrained DOF indices of one node, in offset order `0, 1, 2`. -/
def nodeRestrainedDofs (nodes : List SNode) (nd : SNode) : List ℕ :=
  match nodeIndexMap nodes nd.id with
  | some i =>
      (if nd.restraints 0 then [i * 3] else []) ++
      (if nd.restraints 1 then [i * 3 + 1] else []) ++
      (if nd.restraints 2 then [i * 3 + 2] else [])
  | none => []

/-- All restrained DOF indices in the order the source visits them. -/
def restrainedDofs (nodes : List SNode) : List ℕ :=
  nodes.foldl (fun acc nd => acc ++ nodeRestrainedDofs nodes nd) []

/-- The body of the restraint loop for one restrained DOF `k` (lines 392–400):
zero row `k` and column `k` for all indices `< d`, set the diagonal to `1`,
zero the load entry. -/
def applyBC1 (d : ℕ) (KF : (ℕ → ℕ → ℚ) × (ℕ → ℚ)) (k : ℕ) : (ℕ → ℕ → ℚ) × (ℕ → ℚ) :=
  (fun p q =>
     if p = k ∧ q = k then 1
     else if p = k ∧ q < d then 0
     else if q = k ∧ p < d then 0
     else KF.1 p q,
   fun p => if p = k then 0 else KF.2 p)

/-- Step 3 of `solveStructure`: copies of `K_global`/`F_global` with every
restrained DOF eliminated in source order. -/
def reducedSystem (sqrtFn : ℚ → ℚ) (nodes : List SNode) (elements : List SElement)
    (loads : List SLoad) (stype : StiffnessType) : (ℕ → ℕ → ℚ) × (ℕ → ℚ) :=
  (restrainedDofs nodes).foldl (applyBC1 (totalDOF nodes))
    (assembleK sqrtFn nodes elements stype, assembleF sqrtFn nodes elements loads)

/-- Step 4: the displacement vector, as a total function on DOF indices. -/
def Uval (sqrtFn : ℚ → ℚ) (nodes : List SNode) (elements : List SElement)
    (loads : List SLoad) (stype : StiffnessType) : ℕ → ℚ :=
  fun p =>
    if h : p < totalDOF nodes then
      solveLinearSystem
        (n := totalDOF nodes)
        (fun r q => (reducedSystem sqrtFn nodes elements loads stype).1 r q)
        (fun r => (reducedSystem sqrtFn nodes elements loads stype).2 r)
        ⟨p, h⟩
    else 0

/-! ### Exact recovery (`calculateExactValues`, lines 87–168) -/

structure SForces where
  fx : ℚ
  fy : ℚ
  m : ℚ
deriving DecidableEq

/-- Clamp `x` to `[0, L]`, then snap to an end when within `1e-4` of it
(lines 96–100). -/
def clampSnapX (xInput L : ℚ) : ℚ :=
  let x0 := max 0 (min L xInput)
  let x1 := if x0 < 1 / 10 ^ 4 then 0 else x0
  if |x1 - L| < 1 / 10 ^ 4 then L else x1

/-- One load's running effect on the `(N, V, M)` accumulator (lines 122–160). -/
def loadStep (L c s x : ℚ) (acc : ℚ × ℚ × ℚ) (l : SLoad) : ℚ × ℚ × ℚ :=
  let loc := l.location.getD (1 / 2) * L
  let magX := if l.direction.getD LoadDir.y = LoadDir.x then l.magnitude * c
              else l.magnitude * s
  let magY := if l.direction.getD LoadDir.y = LoadDir.x then l.magnitude * -s
              else l.magnitude * c
  match l.kind with
  | LoadKind.distributed =>
      (acc.1 - magX * x, acc.2.1 + magY * x, acc.2.2 + magY * x * x / 2)
  | LoadKind.point =>
      if x > loc + 1 / 10 ^ 6 then
        (acc.1 - magX, acc.2.1 + magY, acc.2.2 + magY * (x - loc))
      else acc
  | LoadKind.moment =>
      if x > loc + 1 / 10 ^ 6 then (acc.1, acc.2.1, acc.2.2 - l.magnitude) else acc

/-- The raw (pre-`cleanValue`) station quantities. -/
structure RawVals where
  deflection : ℚ
  axial : ℚ
  shear : ℚ
  moment : ℚ
deriving DecidableEq

/-- The body of `calculateExactValues` before the final `cleanValue` calls:
Hermitian deflection from the local displacements, and `N/V/M` propagated from
the start forces with every element load folded in. -/
def calcExactRaw (xInput L c s : ℚ) (ul : Fin 6 → ℚ) (sf : SForces)
    (elLoads : List SLoad) : RawVals :=
  let x := clampSnapX xInput L
  let xi := if L > 1 / 10 ^ 9 then x / L else 0
  let N1 := 1 - 3 * xi * xi + 2 * xi * xi * xi
  let N2 := L * (xi - 2 * xi * xi + xi * xi * xi)
  let N3 := 3 * xi * xi - 2 * xi * xi * xi
  let N4 := L * (-(xi * xi) + xi * xi * xi)
  let dfl := N1 * ul 1 + N2 * ul 2 + N3 * ul 4 + N4 * ul 5
  let nvm := elLoads.foldl (loadStep L c s x) (-sf.fx, sf.fy, -sf.m + sf.fy * x)
  ⟨dfl, nvm.1, nvm.2.1, nvm.2.2⟩

structure ExactVals where
  deflectionY : ℚ
  axial : ℚ
  shear : ℚ
  moment : ℚ
deriving DecidableEq

/-- `calculateExactValues` (lines 87–168): the raw quantities, cleaned for
display, with deflection converted to millimetres. -/
def calculateExactValues (xInput L c s : ℚ) (ul : Fin 6 → ℚ) (sf : SForces)
    (elLoads : List SLoad) : ExactVals :=
  let r := calcExactRaw xInput L c s ul sf elLoads
  ⟨cleanValue (r.deflection * 1000), cleanValue r.axial, cleanValue r.shear,
    cleanValue r.moment⟩

/-! ### Step 5: per-element post-processing (lines 407–613).

Reactions (lines 409–422) are not modelled: no claim concerns them. -/

def uGlobalEl (U : ℕ → ℚ) (idx1 idx2 : ℕ) : Fin 6 → ℚ :=
  vec6g (U idx1) (U (idx1 + 1)) (U (idx1 + 2)) (U idx2) (U (idx2 + 1)) (U (idx2 + 2))

/-- Rotation of global end displacements into local axes (lines 446–453). -/
def uLocalVec (c s : ℚ) (ug : Fin 6 → ℚ) : Fin 6 → ℚ :=
  vec6g (c * ug 0 + s * ug 1) (-s * ug 0 + c * ug 1) (ug 2)
    (c * ug 3 + s * ug 4) (-s * ug 3 + c * ug 4) (ug 5)

/-- `f_stiff = k_local · u_local` (lines 492–493). -/
def fStiff (kL : Fin 6 → Fin 6 → ℚ) (ul : Fin 6 → ℚ) : Fin 6 → ℚ :=
  fun r => ∑ col : Fin 6, kL r col * ul col

/-- Accumulated fixed-end actions of the element's loads (lines 496–547). -/
def femSumOf (relS relE : Bool) (elLoads : List SLoad) (L c s : ℚ) : Fin 6 → ℚ :=
  elLoads.foldl (fun acc l => fun r => acc r + femVec (femLocal relS relE l L c s) r)
    (fun _ => 0)

structure Station where
  x : ℚ
  deflectionY : ℚ
  axial : ℚ
  shear : ℚ
  moment : ℚ
  globalX : ℚ
  globalY : ℚ
deriving DecidableEq

/-- The station plot points; `criticalX` is a JS `Set`, modelled as
deduplication, then sorted ascending (lines 559–571). -/
def criticalBase (L : ℚ) (elLoads : List SLoad) : List ℚ :=
  [0, L] ++
  elLoads.foldl (fun acc l =>
    let loc := l.location.getD (1 / 2) * L
    if 0 < loc ∧ loc < L then
      acc ++ [loc, max 0 (loc - 1 / 1000), min L (loc + 1 / 1000)]
    else acc) [] ++
  (List.range 101).map (fun i => (i : ℚ) * L / 100)

def sortedStations (L : ℚ) (elLoads : List SLoad) : List ℚ :=
  ((criticalBase L elLoads).dedup).mergeSort (· ≤ ·)

def stationAt (n1 : SNode) (L c s : ℚ) (ul : Fin 6 → ℚ) (sf : SForces)
    (elLoads : List SLoad) (x : ℚ) : Station :=
  let vals := calculateExactValues x L c s ul sf elLoads
  { x := x, deflectionY := vals.deflectionY, axial := vals.axial,
    shear := vals.shear, moment := vals.moment,
    globalX := n1.x + x * c - vals.deflectionY / 1000 * s,
    globalY := n1.y + x * s + vals.deflectionY / 1000 * c }

/-- `if (Math.abs v > m) m = Math.abs v` folded over a list. -/
def maxAbsFold (vals : List ℚ) : ℚ :=
  vals.foldl (fun m v => if |v| > m then |v| else m) 0

structure ElementResultE where
  elementId : ℤ
  stations : List Station
  maxAxial : ℚ
  maxMoment : ℚ
  maxShear : ℚ
  u_local : Fin 6 → ℚ
  startForces : SForces

/-- Post-processing of one element (lines 426–606); `none` models the early
`return` on a missing node id. -/
def elementResult (sqrtFn : ℚ → ℚ) (nodes : List SNode) (loads : List SLoad)
    (stype : StiffnessType) (U : ℕ → ℚ) (el : SElement) : Option ElementResultE :=
  match getDofIndex nodes el.startNode, getDofIndex nodes el.endNode with
  | some idx1, some idx2 =>
    match findNode nodes el.startNode, findNode nodes el.endNode with
    | some n1, some n2 =>
      let dx := n2.x - n1.x
      let dy := n2.y - n1.y
      let L := sqrtFn (dx * dx + dy * dy)
      let c := dx / L
      let s := dy / L
      let ul := uLocalVec c s (uGlobalEl U idx1 idx2)
      let kL := kLocalOf (effEOf stype el) (effAOf stype el) (effIOf el) L
        el.releaseStart el.releaseEnd
      let elLoads := loads.filter (fun l => decide (l.elementId = some el.id))
      let femS := femSumOf el.releaseStart el.releaseEnd elLoads L c s
      let Ft : Fin 6 → ℚ := fun r => fStiff kL ul r + femS r
      let sf : SForces := ⟨cleanValue (Ft 0), cleanValue (Ft 1), cleanValue (Ft 2)⟩
      let sts := (sortedStations L elLoads).map (stationAt n1 L c s ul sf elLoads)
      some { elementId := el.id, stations := sts,
             maxAxial := cleanValue (maxAbsFold (sts.map Station.axial)),
             maxMoment := cleanValue (maxAbsFold (sts.map Station.moment)),
             maxShear := cleanValue (maxAbsFold (sts.map Station.shear)),
             u_local := ul, startForces := sf }
    | _, _ => none
  | _, _ => none

structure AnalysisResultE where
  elements : List ElementResultE
  maxDeflection : ℚ

/-- `solveStructure` (lines 170–613), reactions omitted. -/
def solveStructure (sqrtFn : ℚ → ℚ) (nodes : List SNode) (elements : List SElement)
    (loads : List SLoad) (stype : StiffnessType) : AnalysisResultE :=
  let U := Uval sqrtFn nodes elements loads stype
  let results := elements.filterMap (elementResult sqrtFn nodes loads stype U)
  { elements := results,
    maxDeflection := cleanValue (maxAbsFold
      ((results.map (fun er => er.stations.map Station.deflectionY)).foldl
        (· ++ ·) [])) }

/-! ## `autoConnectNodes` (`src/utils/geometryGenerator.ts` lines 155–268)

The randomly generated string ids of cloned loads are display-only and are not
modelled; everything else of the clone (`{...l, elementId, location}`) is. -/

/-- `getDist` (lines 161–177): distance from a point to a segment and the raw
(unclamped) parameter `t`; the distance needs `Math.sqrt`. -/
def getDist (sqrtFn : ℚ → ℚ) (px py x1 y1 x2 y2 : ℚ) : ℚ × ℚ :=
  let A := px - x1
  let B := py - y1
  let C := x2 - x1
  let D := y2 - y1
  let dot := A * C + B * D
  let len_sq := C * C + D * D
  let param := if len_sq ≠ 0 then dot / len_sq else -1
  let xx := if param < 0 then x1 else if param > 1 then x2 else x1 + param * C
  let yy := if param < 0 then y1 else if param > 1 then y2 else y1 + param * D
  (sqrtFn ((px - xx) * (px - xx) + (py - yy) * (py - yy)), param)

/-- The split filter (lines 194–202): strictly interior (`0.01 < t < 0.99`)
nodes within `0.05` of the segment, other than the endpoints. -/
def splitNodesOf (sqrtFn : ℚ → ℚ) (nodes : List SNode) (n1 n2 : SNode) :
    List (SNode × ℚ) :=
  ((nodes.filter (fun nd =>
      decide (nd.id ≠ n1.id) && decide (nd.id ≠ n2.id) &&
      (let r := getDist sqrtFn nd.x nd.y n1.x n1.y n2.x n2.y
       decide (r.1 < 5 / 100) && decide (r.2 > 1 / 100) && decide (r.2 < 99 / 100)))).map
    (fun nd => (nd, (getDist sqrtFn nd.x nd.y n1.x n1.y n2.x n2.y).2))).mergeSort
    (fun a b => a.2 ≤ b.2)

/-- The per-point body of the segment-creation loop (lines 220–264): emits one
sub-element per split point plus the final end point, remapping the parent's
element loads onto each segment. -/
def procPoints (el : SElement) (relLoads : List SLoad) :
    List (SNode × ℚ) → SNode → ℚ → Bool → ℤ →
    List SElement × List SLoad × ℤ
  | [], _, _, _, nextId => ([], [], nextId)
  | pt :: rest, currentStart, prevT, isFirst, nextId =>
      let elId := nextId
      let isLast := rest.isEmpty
      let segmentEl : SElement :=
        { el with id := elId, startNode := currentStart.id, endNode := pt.1.id,
                  releaseStart := isFirst && el.releaseStart,
                  releaseEnd := isLast && el.releaseEnd }
      let currentT := pt.2
      let segLoads := relLoads.filterMap (fun l =>
        match l.kind with
        | LoadKind.distributed => some { l with elementId := some elId }
        | _ =>
            let loc := l.location.getD (1 / 2)
            if loc ≥ prevT - 1 / 10 ^ 4 ∧ loc ≤ currentT + 1 / 10 ^ 4 then
              let segLen := currentT - prevT
              let newLoc := if segLen > 1 / 10 ^ 6 then (loc - prevT) / segLen else 0
              some { l with elementId := some elId,
                            location := some (max 0 (min 1 newLoc)) }
            else none)
      let tail := procPoints el relLoads rest pt.1 currentT false (nextId + 1)
      (segmentEl :: tail.1, segLoads ++ tail.2.1, tail.2.2)

/-- The per-element body of `autoConnectNodes` (lines 184–265), threading the
mutable `nextElId` counter. -/
def autoConnectElement (sqrtFn : ℚ → ℚ) (nodes : List SNode)
    (elementLoads : List SLoad) (acc : List SElement × List SLoad × ℤ)
    (el : SElement) : List SElement × List SLoad × ℤ :=
  match findNode nodes el.startNode, findNode nodes el.endNode with
  | some n1, some n2 =>
      let splits := splitNodesOf sqrtFn nodes n1 n2
      if splits.isEmpty then
        (acc.1 ++ [el],
         acc.2.1 ++ elementLoads.filter (fun l => decide (l.elementId = some el.id)),
         acc.2.2)
      else
        let points := splits ++ [(n2, 1)]
        let relLoads := elementLoads.filter (fun l => decide (l.elementId = some el.id))
        let res := procPoints el relLoads points n1 0 true acc.2.2
        (acc.1 ++ res.1, acc.2.1 ++ res.2.1, res.2.2)
  | _, _ =>
      (acc.1 ++ [el],
       acc.2.1 ++ elementLoads.filter (fun l => decide (l.elementId = some el.id)),
       acc.2.2)

/-- `autoConnectNodes` (lines 155–268). -/
def autoConnectNodes (sqrtFn : ℚ → ℚ) (nodes : List SNode)
    (elements : List SElement) (loads : List SLoad) :
    List SNode × List SElement × List SLoad :=
  let nextElId := (elements.foldl (fun m e => max m e.id) 0) + 1
  let nodeLoads := loads.filter (fun l => decide (idTruthy l.nodeId))
  let elementLoads := loads.filter (fun l => decide (idTruthy l.elementId))
  let res := elements.foldl (autoConnectElement sqrtFn nodes elementLoads)
    ([], [], nextElId)
  (nodes, res.1, nodeLoads ++ res.2.1)

/-! ## Claim theorems -/

theorem stateAt_zero (M : Aug n) : stateAt M 0 = M := by
  unfold stateAt
  rw [List.take_zero]
  rfl

/-- C9: `autoConnectNodes` never creates, deletes, or repositions nodes: the
node list in its returned triple is identical to the input node list. -/
theorem C9_nodes_unchanged (sqrtFn : ℚ → ℚ) (nodes : List SNode)
    (elements : List SElement) (loads : List SLoad) :
    (autoConnectNodes sqrtFn nodes elements loads).1 = nodes := rfl

/-! ### C10: clamping in `calculateExactValues` -/

theorem calculateExactValues_congr (a b L c s : ℚ) (ul : Fin 6 → ℚ) (sf : SForces)
    (ll : List SLoad) (h : clampSnapX a L = clampSnapX b L) :
    calculateExactValues a L c s ul sf ll = calculateExactValues b L c s ul sf ll := by
  unfold calculateExactValues calcExactRaw
  rw [h]

theorem clampSnapX_neg (L x : ℚ) (hx : x < 0) : clampSnapX x L = clampSnapX 0 L := by
  unfold clampSnapX
  rw [max_eq_left (le_trans (min_le_right L x) hx.le), max_eq_left (min_le_right L 0)]

theorem clampSnapX_gt (L x : ℚ) (hx : L < x) : clampSnapX x L = clampSnapX L L := by
  unfold clampSnapX
  rw [min_eq_left hx.le, min_self]

theorem clampSnapX_nearZero (L x : ℚ) (hL : 2 / 10 ^ 4 ≤ L) (hx0 : 0 ≤ x)
    (hx : x < 1 / 10 ^ 4) : clampSnapX x L = 0 := by
  unfold clampSnapX
  simp only []
  rw [min_eq_right (by linarith), max_eq_right hx0, if_pos hx, if_neg]
  rw [zero_sub, abs_neg, abs_of_nonneg (by linarith)]
  intro h
  linarith

theorem clampSnapX_nearL (L x : ℚ) (hL : 2 / 10 ^ 4 ≤ L) (hx : |x - L| < 1 / 10 ^ 4) :
    clampSnapX x L = L := by
  rcases abs_lt.mp hx with ⟨h1, h2⟩
  unfold clampSnapX
  simp only []
  rcases le_or_lt x L with hxL | hxL
  · rw [min_eq_right hxL, max_eq_right (by linarith)]
    have hxbig : ¬ (x < 1 / 10 ^ 4) := by push_neg; linarith
    rw [if_neg hxbig, if_pos hx]
  · rw [min_eq_left hxL.le, max_eq_right (by linarith : (0:ℚ) ≤ L)]
    have hLbig : ¬ (L < 1 / 10 ^ 4) := by push_neg; linarith
    rw [if_neg hLbig]
    rw [if_pos (by rw [sub_self]; norm_num)]

/-- C10: `calculateExactValues` is total over its position argument and
clamps it: any `xInput < 0` gives the values at `0`, any `xInput > L` gives the
values at `L`, and positions within `1e-4` of either end snap exactly to that
end (for the ends to be distinguishable the snap windows must not overlap,
i.e. `2e-4 ≤ L`). -/
theorem C10_clamping (L c s : ℚ) (ul : Fin 6 → ℚ) (sf : SForces) (ll : List SLoad)
    (hL : 2 / 10 ^ 4 ≤ L) :
    (∀ x, x < 0 →
      calculateExactValues x L c s ul sf ll = calculateExactValues 0 L c s ul sf ll) ∧
    (∀ x, L < x →
      calculateExactValues x L c s ul sf ll = calculateExactValues L L c s ul sf ll) ∧
    (∀ x, 0 ≤ x → x < 1 / 10 ^ 4 → clampSnapX x L = 0 ∧
      calculateExactValues x L c s ul sf ll = calculateExactValues 0 L c s ul sf ll) ∧
    (∀ x, |x - L| < 1 / 10 ^ 4 → clampSnapX x L = L ∧
      calculateExactValues x L c s ul sf ll = calculateExactValues L L c s ul sf ll) := by
  refine ⟨?_, ?_, ?_, ?_⟩
  · intro x hx
    exact calculateExactValues_congr _ _ _ _ _ _ _ _ (clampSnapX_neg L x hx)
  · intro x hx
    exact calculateExactValues_congr _ _ _ _ _ _ _ _ (clampSnapX_gt L x hx)
  · intro x hx0 hx
    refine ⟨clampSnapX_nearZero L x hL hx0 hx, ?_⟩
    apply calculateExactValues_congr
    rw [clampSnapX_nearZero L x hL hx0 hx,
      clampSnapX_nearZero L 0 hL le_rfl (by norm_num)]
  · intro x hx
    refine ⟨clampSnapX_nearL L x hL hx, ?_⟩
    apply calculateExactValues_congr
    rw [clampSnapX_nearL L x hL hx, clampSnapX_nearL L L hL (by rw [sub_self]; norm_num)]

theorem C10_witness :
    (2 : ℚ) / 10 ^ 4 ≤ 1 ∧
    calculateExactValues (-1) 1 1 0 (vec6g 0 0 0 0 0 0) ⟨0, 0, 0⟩ [] =
      calculateExactValues 0 1 1 0 (vec6g 0 0 0 0 0 0) ⟨0, 0, 0⟩ [] :=
  ⟨by norm_num,
    (C10_clamping 1 1 0 (vec6g 0 0 0 0 0 0) ⟨0, 0, 0⟩ [] (by norm_num)).1 (-1) (by norm_num)⟩

/-- C1: at any elimination step whose post-swap pivot magnitude is below
`1e-10`, the solver stabilizes the row (diagonal `1`, right-hand side `0`,
zeros right of the diagonal, no other row touched by this step) and continues;
every diagonal of the eliminated matrix ends up nonzero, so back-substitution
never divides by zero, and the resolved displacement of the stabilized DOF
is `0`. -/
theorem C1_stabilized_pivot_behavior (n : ℕ) (A : Fin n → Fin n → ℚ)
    (b : Fin n → ℚ) (i : Fin n)
    (hsm : |swapRows (stateAt (augmentMat A b) (i : ℕ)) i
      (pivotRow (stateAt (augmentMat A b) (i : ℕ)) i) i i.castSucc| < stabEps) :
    stateAt (augmentMat A b) ((i : ℕ) + 1) =
      stabilizeRow (swapRows (stateAt (augmentMat A b) (i : ℕ)) i
        (pivotRow (stateAt (augmentMat A b) (i : ℕ)) i)) i ∧
    gaussForward (augmentMat A b) i i.castSucc = 1 ∧
    gaussForward (augmentMat A b) i (Fin.last n) = 0 ∧
    (∀ j : Fin (n + 1), i.castSucc < j → gaussForward (augmentMat A b) i j = 0) ∧
    (∀ r : Fin n, gaussForward (augmentMat A b) r r.castSucc ≠ 0) ∧
    solveLinearSystem A b i = 0 := by
  obtain ⟨h1, h2, h3, h4, h5⟩ := stabilized_step (augmentMat A b) i hsm
  exact ⟨h1, h2, h3, h4, fun r => gaussForward_diag_ne _ r, h5⟩

theorem C1_witness :
    |swapRows (stateAt (augmentMat (fun _ _ => (0:ℚ)) (fun _ => (0:ℚ))) ((0 : Fin 1) : ℕ))
      (0 : Fin 1) (pivotRow (stateAt (augmentMat (fun _ _ => (0:ℚ)) (fun _ => (0:ℚ)))
        ((0 : Fin 1) : ℕ)) (0 : Fin 1)) (0 : Fin 1) (Fin.castSucc 0)| < stabEps ∧
    solveLinearSystem (fun _ _ => (0:ℚ)) (fun _ => (0:ℚ)) (0 : Fin 1) = 0 := by
  have hst : stateAt (n := 1) (augmentMat (fun _ _ => (0:ℚ)) (fun _ => (0:ℚ)))
      ((0 : Fin 1) : ℕ) =
      augmentMat (fun _ _ => (0:ℚ)) (fun _ => (0:ℚ)) := stateAt_zero _
  have hval : ∀ p : Fin 1,
      swapRows (stateAt (augmentMat (fun _ _ => (0:ℚ)) (fun _ => (0:ℚ))) ((0 : Fin 1) : ℕ))
        (0 : Fin 1) p (0 : Fin 1) (Fin.castSucc 0) = 0 := by
    intro p
    have hp : p = 0 := Subsingleton.elim p 0
    rw [hp, hst]
    rw [swapRows_fst]
    unfold augmentMat
    rw [dif_pos (by norm_num : ((Fin.castSucc (0 : Fin 1) : Fin 2) : ℕ) < 1)]
  have hsm : |swapRows (stateAt (augmentMat (fun _ _ => (0:ℚ)) (fun _ => (0:ℚ)))
      ((0 : Fin 1) : ℕ)) (0 : Fin 1)
      (pivotRow (stateAt (augmentMat (fun _ _ => (0:ℚ)) (fun _ => (0:ℚ)))
        ((0 : Fin 1) : ℕ)) (0 : Fin 1)) (0 : Fin 1) (Fin.castSucc 0)| < stabEps := by
    rw [hval]
    norm_num [stabEps]
  exact ⟨hsm, (C1_stabilized_pivot_behavior 1 _ _ 0 hsm).2.2.2.2.2⟩

/-! ### C5: release redistribution and static equilibrium

Sign conventions, verified on the unadjusted fixed-end actions below: the
`FemLoc` components are the fixed-end reactions in local axes, so for a
uniform transverse load of intensity `w` on a span `L` the reactions must
balance the load (`v1 + v2 + w·L = 0`) and the moments about the start must
balance (`m1 + m2 + v2·L + w·L·(L/2) = 0`). -/

theorem loadDir_y_ne_x : LoadDir.y ≠ LoadDir.x := by decide

def femForceResidualUDL (f : FemLoc) (w L : ℚ) : ℚ := f.v1 + f.v2 + w * L

def femMomentResidualUDL (f : FemLoc) (w L : ℚ) : ℚ :=
  f.m1 + f.m2 + f.v2 * L + w * L * (L / 2)

/-- C5 (code bug): for a uniform load `w = 12` on an element of length `L = 2`
released at the start only, the code's shear correction `dV = -1.5·Δm/L`
carries the wrong sign: the adjusted fixed-end actions are
`(v1, v2) = (-15, -9)` — the released end carries the larger share — and the
moment-equilibrium residual of the adjusted vector is `3·Δm = 12 ≠ 0`, while
the unadjusted vector balances exactly and force equilibrium still holds.
(The statically correct propped-cantilever shears are `(-9, -15)`.) -/
theorem C5_release_equilibrium_bug :
    femFormulas ⟨some 1, none, LoadKind.distributed, 12, some LoadDir.y, none⟩ 2 1 0 =
      ⟨0, -12, -4, 0, -12, 4⟩ ∧
    femForceResidualUDL
      (femFormulas ⟨some 1, none, LoadKind.distributed, 12, some LoadDir.y, none⟩ 2 1 0)
      12 2 = 0 ∧
    femMomentResidualUDL
      (femFormulas ⟨some 1, none, LoadKind.distributed, 12, some LoadDir.y, none⟩ 2 1 0)
      12 2 = 0 ∧
    femLocal true false ⟨some 1, none, LoadKind.distributed, 12, some LoadDir.y, none⟩
      2 1 0 = ⟨0, -15, 0, 0, -9, 6⟩ ∧
    femForceResidualUDL
      (femLocal true false ⟨some 1, none, LoadKind.distributed, 12, some LoadDir.y, none⟩
        2 1 0) 12 2 = 0 ∧
    femMomentResidualUDL
      (femLocal true false ⟨some 1, none, LoadKind.distributed, 12, some LoadDir.y, none⟩
        2 1 0) 12 2 = 12 := by
  refine ⟨?_, ?_, ?_, ?_, ?_, ?_⟩ <;>
    norm_num [femFormulas, femLocal, releaseAdjust, femForceResidualUDL,
      femMomentResidualUDL, loadDir_y_ne_x]

/-! ### C8: exclusion of degenerate elements -/

theorem nodeIndexMap_eq_none (nodes : List SNode) (i : ℤ)
    (h : ∀ nd ∈ nodes, nd.id ≠ i) : nodeIndexMap nodes i = none := by
  unfold nodeIndexMap
  have key : ∀ (l : List (ℕ × SNode)) (acc : Option ℕ), (∀ p ∈ l, p.2.id ≠ i) →
      l.foldl (fun acc p => if p.2.id = i then some p.1 else acc) acc = acc := by
    intro l
    induction l with
    | nil => intro acc _; rfl
    | cons a t ih =>
        intro acc hl
        rw [List.foldl_cons, if_neg (hl a (List.mem_cons_self a t))]
        exact ih acc (fun x hx => hl x (List.mem_cons_of_mem a hx))
  apply key
  intro p hp
  have hmem : p.2 ∈ nodes := by
    have hg := List.mem_enum_iff_getElem?.mp hp
    exact List.getElem?_mem hg
  exact h p.2 hmem

theorem getDofIndex_eq_none (nodes : List SNode) (i : ℤ)
    (h : ∀ nd ∈ nodes, nd.id ≠ i) : getDofIndex nodes i = none := by
  unfold getDofIndex
  rw [nodeIndexMap_eq_none nodes i h]
  rfl

theorem nodeIndexMap_isSome (nodes : List SNode) (i : ℤ)
    (h : ∃ nd ∈ nodes, nd.id = i) : ∃ j, nodeIndexMap nodes i = some j := by
  unfold nodeIndexMap
  have key : ∀ (l : List (ℕ × SNode)) (acc : Option ℕ),
      ((∃ p ∈ l, p.2.id = i) ∨ ∃ j, acc = some j) →
      ∃ j, l.foldl (fun acc p => if p.2.id = i then some p.1 else acc) acc = some j := by
    intro l
    induction l with
    | nil =>
        intro acc hacc
        rcases hacc with ⟨p, hp, _⟩ | h
        · exact absurd hp (List.not_mem_nil p)
        · exact h
    | cons a t ih =>
        intro acc hacc
        rw [List.foldl_cons]
        by_cases ha : a.2.id = i
        · rw [if_pos ha]
          exact ih _ (Or.inr ⟨a.1, rfl⟩)
        · rw [if_neg ha]
          apply ih
          rcases hacc with ⟨p, hp, hpid⟩ | h
          · rcases List.mem_cons.mp hp with hpa | hpt
            · exact absurd (hpa ▸ hpid) ha
            · exact Or.inl ⟨p, hpt, hpid⟩
          · exact Or.inr h
  apply key
  obtain ⟨nd, hnd, hid⟩ := h
  rcases List.mem_iff_getElem.mp hnd with ⟨j, hj, hval⟩
  have hget : nodes[j]? = some nd := by
    rw [List.getElem?_eq_getElem hj, hval]
  exact Or.inl ⟨(j, nd), List.mem_enum_iff_getElem?.mpr hget, hid⟩

theorem getDofIndex_isSome (nodes : List SNode) (i : ℤ)
    (h : ∃ nd ∈ nodes, nd.id = i) : ∃ j, getDofIndex nodes i = some j := by
  obtain ⟨j, hj⟩ := nodeIndexMap_isSome nodes i h
  exact ⟨j * 3, by unfold getDofIndex; rw [hj]; rfl⟩

theorem findNode_mem (nodes : List SNode) (i : ℤ) (nd : SNode)
    (h : findNode nodes i = some nd) : nd ∈ nodes ∧ nd.id = i := by
  unfold findNode at h
  refine ⟨List.mem_of_find?_eq_some h, ?_⟩
  have := List.find?_some h
  simpa using this

theorem contribK_missing_node (sqrtFn : ℚ → ℚ) (nodes : List SNode)
    (stype : StiffnessType) (el : SElement)
    (hmiss : (∀ nd ∈ nodes, nd.id ≠ el.startNode) ∨
      (∀ nd ∈ nodes, nd.id ≠ el.endNode)) :
    contribK sqrtFn nodes stype el = fun _ _ => 0 := by
  unfold contribK
  rcases hmiss with h | h
  · rw [getDofIndex_eq_none nodes el.startNode h]
  · rw [getDofIndex_eq_none nodes el.endNode h]
    cases getDofIndex nodes el.startNode <;> rfl

theorem contribK_short (sqrtFn : ℚ → ℚ) (nodes : List SNode)
    (stype : StiffnessType) (el : SElement) (n1 n2 : SNode)
    (h1 : findNode nodes el.startNode = some n1)
    (h2 : findNode nodes el.endNode = some n2)
    (hshort : sqrtFn ((n2.x - n1.x) * (n2.x - n1.x) + (n2.y - n1.y) * (n2.y - n1.y)) <
      1 / 10 ^ 6) :
    contribK sqrtFn nodes stype el = fun _ _ => 0 := by
  unfold contribK
  obtain ⟨i1, hi1⟩ := getDofIndex_isSome nodes el.startNode
    ⟨n1, (findNode_mem nodes _ n1 h1).1, (findNode_mem nodes _ n1 h1).2⟩
  obtain ⟨i2, hi2⟩ := getDofIndex_isSome nodes el.endNode
    ⟨n2, (findNode_mem nodes _ n2 h2).1, (findNode_mem nodes _ n2 h2).2⟩
  rw [hi1, hi2, h1, h2]
  simp only [if_pos hshort]

theorem contribF_missing_node (sqrtFn : ℚ → ℚ) (nodes : List SNode)
    (elements : List SElement) (load : SLoad) (el : SElement)
    (hT : idTruthy load.elementId)
    (hfind : elements.find? (fun e => decide (e.id = load.elementId.getD 0)) = some el)
    (hmiss : (∀ nd ∈ nodes, nd.id ≠ el.startNode) ∨
      (∀ nd ∈ nodes, nd.id ≠ el.endNode)) :
    contribF sqrtFn nodes elements load = fun _ => 0 := by
  unfold contribF
  rw [if_neg (fun h => h.1 hT), if_pos hT, hfind]
  show contribFElem sqrtFn nodes load el = fun _ => 0
  unfold contribFElem
  rcases hmiss with h | h
  · rw [getDofIndex_eq_none nodes el.startNode h]
  · rw [getDofIndex_eq_none nodes el.endNode h]
    cases getDofIndex nodes el.startNode <;> rfl

/-- C8 (amended): an element with a missing node id, or one whose computed
length is below `1e-6`, contributes nothing to the global stiffness matrix,
and a load targeting an element with a missing node id contributes nothing to
the global load vector.  (A load targeting a *short but present* element does
contribute — see `C8_counterexample`.) -/
theorem C8_amended (sqrtFn : ℚ → ℚ) (nodes : List SNode) (elements : List SElement)
    (stype : StiffnessType) :
    (∀ el : SElement,
      ((∀ nd ∈ nodes, nd.id ≠ el.startNode) ∨ (∀ nd ∈ nodes, nd.id ≠ el.endNode)) →
      contribK sqrtFn nodes stype el = fun _ _ => 0) ∧
    (∀ (el : SElement) (n1 n2 : SNode), findNode nodes el.startNode = some n1 →
      findNode nodes el.endNode = some n2 →
      sqrtFn ((n2.x - n1.x) * (n2.x - n1.x) + (n2.y - n1.y) * (n2.y - n1.y)) <
        1 / 10 ^ 6 →
      contribK sqrtFn nodes stype el = fun _ _ => 0) ∧
    (∀ (load : SLoad) (el : SElement), idTruthy load.elementId →
      elements.find? (fun e => decide (e.id = load.elementId.getD 0)) = some el →
      ((∀ nd ∈ nodes, nd.id ≠ el.startNode) ∨ (∀ nd ∈ nodes, nd.id ≠ el.endNode)) →
      contribF sqrtFn nodes elements load = fun _ => 0) :=
  ⟨fun el hmiss => contribK_missing_node sqrtFn nodes stype el hmiss,
   fun el n1 n2 h1 h2 hshort => contribK_short sqrtFn nodes stype el n1 n2 h1 h2 hshort,
   fun load el hT hfind hmiss =>
     contribF_missing_node sqrtFn nodes elements load el hT hfind hmiss⟩

theorem C8_witness :
    (∀ nd ∈ ([] : List SNode), nd.id ≠ (1 : ℤ)) ∧
    contribK (fun _ => 0) [] StiffnessType.Elastic ⟨1, 1, 2, 1, 1, 1, false, false⟩ =
      fun _ _ => 0 :=
  ⟨by simp,
   (C8_amended (fun _ => 0) [] [] StiffnessType.Elastic).1
     ⟨1, 1, 2, 1, 1, 1, false, false⟩ (Or.inl (by simp))⟩

/-- C8 (counterexample to the original claim): an element of length
`1e-7 < 1e-6` between nodes at `(0,0)` and `(1e-7,0)` is excluded from
stiffness assembly, but a uniform unit load on it still adds `L/2 = 5e-8`
to the load vector at the transverse DOF of its start node. -/
theorem C8_counterexample :
    contribK (fun q => if q = 1 / 10 ^ 14 then 1 / 10 ^ 7 else 0)
      [⟨1, 0, 0, vec3g false false false⟩, ⟨2, 1 / 10 ^ 7, 0, vec3g false false false⟩]
      StiffnessType.Elastic ⟨1, 1, 2, 1, 1, 1, false, false⟩ = (fun _ _ => 0) ∧
    assembleF (fun q => if q = 1 / 10 ^ 14 then 1 / 10 ^ 7 else 0)
      [⟨1, 0, 0, vec3g false false false⟩, ⟨2, 1 / 10 ^ 7, 0, vec3g false false false⟩]
      [⟨1, 1, 2, 1, 1, 1, false, false⟩]
      [⟨some 1, none, LoadKind.distributed, 1, some LoadDir.y, none⟩] 1 = 5 / 10 ^ 8 ∧
    (5 / 10 ^ 8 : ℚ) ≠ 0 := by
  refine ⟨?_, ?_, by norm_num⟩
  · apply contribK_short _ _ StiffnessType.Elastic _
      ⟨1, 0, 0, vec3g false false false⟩ ⟨2, 1 / 10 ^ 7, 0, vec3g false false false⟩
    · norm_num [findNode, List.find?]
    · norm_num [findNode, List.find?]
    · norm_num
  · norm_num [assembleF, List.foldl, contribF, contribFElem, idTruthy, List.find?,
      getDofIndex, nodeIndexMap, List.enum, List.enumFrom, findNode, femLocal,
      femFormulas, releaseAdjust, loadDir_y_ne_x]

/-! ### C3: symmetry and order-independence of stiffness assembly -/

theorem assembleK_apply (sqrtFn : ℚ → ℚ) (nodes : List SNode)
    (elements : List SElement) (stype : StiffnessType) (p q : ℕ) :
    assembleK sqrtFn nodes elements stype p q =
      (elements.map (fun el => contribK sqrtFn nodes stype el p q)).sum := by
  unfold assembleK
  have key : ∀ (l : List SElement) (K0 : ℕ → ℕ → ℚ),
      (l.foldl (fun K el => fun p q => K p q + contribK sqrtFn nodes stype el p q) K0)
        p q = K0 p q + (l.map (fun el => contribK sqrtFn nodes stype el p q)).sum := by
    intro l
    induction l with
    | nil => intro K0; simp
    | cons a t ih =>
        intro K0
        rw [List.foldl_cons, List.map_cons, List.sum_cons, ih]
        ring
  rw [key]
  simp

theorem kLocalOf_symm (effE effA effI L : ℚ) (relS relE : Bool) (i j : Fin 6) :
    kLocalOf effE effA effI L relS relE i j = kLocalOf effE effA effI L relS relE j i := by
  unfold kLocalOf
  cases relS <;> cases relE <;> simp only [Bool.and_self, Bool.and_false, Bool.false_and,
    Bool.and_true, Bool.true_and, if_true, if_false, Bool.false_eq_true, ite_false,
    ite_true] <;> fin_cases i <;> fin_cases j <;> simp

theorem kGlobalEl_symm (kL : Fin 6 → Fin 6 → ℚ) (c s : ℚ)
    (hsym : ∀ a b, kL a b = kL b a) (i j : Fin 6) :
    kGlobalEl kL c s i j = kGlobalEl kL c s j i := by
  unfold kGlobalEl
  rw [Finset.sum_comm]
  apply Finset.sum_congr rfl
  intro x _
  apply Finset.sum_congr rfl
  intro y _
  rw [hsym y x]
  ring

theorem scatter_symm (kg : Fin 6 → Fin 6 → ℚ) (hsym : ∀ a b, kg a b = kg b a)
    (m : Fin 6 → ℕ) (p q : ℕ) :
    (∑ a : Fin 6, ∑ b : Fin 6, if m a = p ∧ m b = q then kg a b else 0) =
    (∑ a : Fin 6, ∑ b : Fin 6, if m a = q ∧ m b = p then kg a b else 0) := by
  rw [Finset.sum_comm]
  apply Finset.sum_congr rfl
  intro x _
  apply Finset.sum_congr rfl
  intro y _
  by_cases h : m y = p ∧ m x = q
  · rw [if_pos h, if_pos ⟨h.2, h.1⟩]
    exact hsym y x
  · rw [if_neg h, if_neg (fun h2 => h ⟨h2.2, h2.1⟩)]

theorem contribK_symm (sqrtFn : ℚ → ℚ) (nodes : List SNode) (stype : StiffnessType)
    (el : SElement) (p q : ℕ) :
    contribK sqrtFn nodes stype el p q = contribK sqrtFn nodes stype el q p := by
  unfold contribK
  cases getDofIndex nodes el.startNode with
  | none => rfl
  | some idx1 =>
    cases getDofIndex nodes el.endNode with
    | none => rfl
    | some idx2 =>
      cases findNode nodes el.startNode with
      | none => rfl
      | some n1 =>
        cases findNode nodes el.endNode with
        | none => rfl
        | some n2 =>
          simp only []
          split
          · rfl
          · apply scatter_symm
            intro a b
            apply kGlobalEl_symm
            intro a2 b2
            exact kLocalOf_symm _ _ _ _ _ _ a2 b2

/-- C3: the assembled global stiffness matrix is symmetric, and assembly is
purely additive and commutative in element order: any permutation of the
element list produces the same matrix. -/
theorem C3_assembly_symmetric_commutative (sqrtFn : ℚ → ℚ) (nodes : List SNode)
    (stype : StiffnessType) (elements elements2 : List SElement)
    (hperm : elements.Perm elements2) :
    (∀ p q, assembleK sqrtFn nodes elements stype p q =
      assembleK sqrtFn nodes elements stype q p) ∧
    (∀ p q, assembleK sqrtFn nodes elements stype p q =
      assembleK sqrtFn nodes elements2 stype p q) := by
  constructor
  · intro p q
    rw [assembleK_apply, assembleK_apply]
    congr 1
    apply List.map_congr_left
    intro el _
    exact contribK_symm sqrtFn nodes stype el p q
  · intro p q
    rw [assembleK_apply, assembleK_apply]
    exact (hperm.map _).sum_eq

theorem C3_witness :
    List.Perm
      [(⟨1, 1, 2, 1, 1, 1, false, false⟩ : SElement), ⟨2, 2, 3, 1, 1, 1, false, false⟩]
      [⟨2, 2, 3, 1, 1, 1, false, false⟩, ⟨1, 1, 2, 1, 1, 1, false, false⟩] ∧
    assembleK (fun _ => 0) []
      [⟨1, 1, 2, 1, 1, 1, false, false⟩, ⟨2, 2, 3, 1, 1, 1, false, false⟩]
      StiffnessType.Elastic 0 0 =
    assembleK (fun _ => 0) []
      [⟨2, 2, 3, 1, 1, 1, false, false⟩, ⟨1, 1, 2, 1, 1, 1, false, false⟩]
      StiffnessType.Elastic 0 0 := by
  have hperm : List.Perm
      [(⟨1, 1, 2, 1, 1, 1, false, false⟩ : SElement), ⟨2, 2, 3, 1, 1, 1, false, false⟩]
      [⟨2, 2, 3, 1, 1, 1, false, false⟩, ⟨1, 1, 2, 1, 1, 1, false, false⟩] :=
    List.Perm.swap _ _ _
  exact ⟨hperm,
    (C3_assembly_symmetric_commutative (fun _ => 0) [] StiffnessType.Elastic _ _ hperm).2 0 0⟩

/-! ### C2: boundary-condition reduction -/

theorem applyBC_fold_K (d : ℕ) (ks : List ℕ) :
    ∀ (KF : (ℕ → ℕ → ℚ) × (ℕ → ℚ)) (p q : ℕ), p < d → q < d →
    (ks.foldl (applyBC1 d) KF).1 p q =
      if p ∈ ks ∨ q ∈ ks then (if p = q then 1 else 0) else KF.1 p q := by
  induction ks with
  | nil =>
      intro KF p q _ _
      rw [if_neg (by simp)]
      rfl
  | cons k t ih =>
      intro KF p q hp hq
      rw [List.foldl_cons, ih _ p q hp hq]
      by_cases hmem : p ∈ t ∨ q ∈ t
      · have hmem2 : p ∈ k :: t ∨ q ∈ k :: t := by
          rcases hmem with h | h
          · exact Or.inl (List.mem_cons_of_mem k h)
          · exact Or.inr (List.mem_cons_of_mem k h)
        rw [if_pos hmem, if_pos hmem2]
      · rw [if_neg hmem]
        push_neg at hmem
        show (if p = k ∧ q = k then (1:ℚ)
          else if p = k ∧ q < d then 0
          else if q = k ∧ p < d then 0
          else KF.1 p q) = _
        by_cases hpk : p = k
        · have hmemk : p ∈ k :: t ∨ q ∈ k :: t :=
            Or.inl (List.mem_cons.mpr (Or.inl hpk))
          by_cases hqk : q = k
          · have hpq : p = q := hpk.trans hqk.symm
            rw [if_pos ⟨hpk, hqk⟩, if_pos hmemk, if_pos hpq]
          · have hpq : ¬ p = q := fun h => hqk (h.symm.trans hpk)
            have hc1 : ¬ (p = k ∧ q = k) := fun h => hqk h.2
            rw [if_neg hc1, if_pos ⟨hpk, hq⟩, if_pos hmemk, if_neg hpq]
        · have hc1 : ¬ (p = k ∧ q = k) := fun h => hpk h.1
          have hc2 : ¬ (p = k ∧ q < d) := fun h => hpk h.1
          by_cases hqk : q = k
          · have hmemk : p ∈ k :: t ∨ q ∈ k :: t :=
              Or.inr (List.mem_cons.mpr (Or.inl hqk))
            have hpq : ¬ p = q := fun h => hpk (h.trans hqk)
            rw [if_neg hc1, if_neg hc2, if_pos ⟨hqk, hp⟩, if_pos hmemk, if_neg hpq]
          · have hc3 : ¬ (q = k ∧ p < d) := fun h => hqk h.1
            have hmemk : ¬ (p ∈ k :: t ∨ q ∈ k :: t) := by
              rintro (h | h)
              · rcases List.mem_cons.mp h with h | h
                · exact hpk h
                · exact hmem.1 h
              · rcases List.mem_cons.mp h with h | h
                · exact hqk h
                · exact hmem.2 h
            rw [if_neg hc1, if_neg hc2, if_neg hc3, if_neg hmemk]

theorem applyBC_fold_F (d : ℕ) (ks : List ℕ) :
    ∀ (KF : (ℕ → ℕ → ℚ) × (ℕ → ℚ)) (p : ℕ),
    (ks.foldl (applyBC1 d) KF).2 p = if p ∈ ks then 0 else KF.2 p := by
  induction ks with
  | nil =>
      intro KF p
      rw [if_neg (by simp)]
      rfl
  | cons k t ih =>
      intro KF p
      rw [List.foldl_cons, ih]
      by_cases hmem : p ∈ t
      · rw [if_pos hmem, if_pos (List.mem_cons_of_mem k hmem)]
      · rw [if_neg hmem]
        show (if p = k then (0:ℚ) else KF.2 p) = _
        by_cases hpk : p = k
        · have hmemk : p ∈ k :: t := List.mem_cons.mpr (Or.inl hpk)
          rw [if_pos hpk, if_pos hmemk]
        · have hmemk : ¬ p ∈ k :: t := by
            intro h
            rcases List.mem_cons.mp h with h | h
            · exact hpk h
            · exact hmem h
          rw [if_neg hpk, if_neg hmemk]

theorem mem_foldl_append {β : Type} (f : β → List ℕ) (l : List β) (x : ℕ) :
    ∀ acc : List ℕ, x ∈ l.foldl (fun a b => a ++ f b) acc ↔
      x ∈ acc ∨ ∃ b ∈ l, x ∈ f b := by
  induction l with
  | nil => intro acc; simp
  | cons a t ih =>
      intro acc
      rw [List.foldl_cons, ih]
      simp only [List.mem_append, List.mem_cons]
      constructor
      · rintro ((h | h) | ⟨b, hb, hxb⟩)
        · exact Or.inl h
        · exact Or.inr ⟨a, Or.inl rfl, h⟩
        · exact Or.inr ⟨b, Or.inr hb, hxb⟩
      · rintro (h | ⟨b, (hb | hb), hxb⟩)
        · exact Or.inl (Or.inl h)
        · exact Or.inl (Or.inr (hb ▸ hxb))
        · exact Or.inr ⟨b, hb, hxb⟩

theorem nodeIndexMap_lt (nodes : List SNode) (i : ℤ) (j : ℕ)
    (h : nodeIndexMap nodes i = some j) : j < nodes.length := by
  unfold nodeIndexMap at h
  have key : ∀ (l : List (ℕ × SNode)) (acc : Option ℕ),
      (∀ x ∈ l, x.1 < nodes.length) →
      (∀ j2, acc = some j2 → j2 < nodes.length) →
      ∀ j2, l.foldl (fun acc p => if p.2.id = i then some p.1 else acc) acc = some j2 →
        j2 < nodes.length := by
    intro l
    induction l with
    | nil => intro acc _ hacc j2 hj2; exact hacc j2 hj2
    | cons a t ih =>
        intro acc hl hacc j2 hj2
        rw [List.foldl_cons] at hj2
        refine ih _ (fun x hx => hl x (List.mem_cons_of_mem a hx)) ?_ j2 hj2
        intro j3 hj3
        by_cases ha : a.2.id = i
        · rw [if_pos ha] at hj3
          have := hl a (List.mem_cons_self a t)
          rw [← Option.some_inj.mp hj3]
          exact this
        · rw [if_neg ha] at hj3
          exact hacc j3 hj3
  refine key nodes.enum none ?_ (by intro _ h2; exact absurd h2 (by simp)) j h
  intro x hx
  have hg := List.mem_enum_iff_getElem?.mp hx
  rcases List.getElem?_eq_some.mp hg with ⟨hlt, _⟩
  exact hlt

theorem restrainedDofs_lt (nodes : List SNode) :
    ∀ k ∈ restrainedDofs nodes, k < totalDOF nodes := by
  intro k hk
  unfold restrainedDofs at hk
  rw [mem_foldl_append] at hk
  rcases hk with h | ⟨nd, _, hk⟩
  · exact absurd h (List.not_mem_nil k)
  · unfold nodeRestrainedDofs at hk
    cases h2 : nodeIndexMap nodes nd.id with
    | none => rw [h2] at hk; exact absurd hk (List.not_mem_nil k)
    | some idx =>
        rw [h2] at hk
        have hidx : idx < nodes.length := nodeIndexMap_lt nodes nd.id idx h2
        have hcases : k = idx * 3 ∨ k = idx * 3 + 1 ∨ k = idx * 3 + 2 := by
          rcases List.mem_append.mp hk with h | h
          · rcases List.mem_append.mp h with h | h
            · left; revert h; split <;> simp
            · right; left; revert h; split <;> simp
          · right; right; revert h; split <;> simp
        unfold totalDOF
        omega

theorem reducedK_char (sqrtFn : ℚ → ℚ) (nodes : List SNode) (elements : List SElement)
    (loads : List SLoad) (stype : StiffnessType) (p q : ℕ)
    (hp : p < totalDOF nodes) (hq : q < totalDOF nodes) :
    (reducedSystem sqrtFn nodes elements loads stype).1 p q =
      if p ∈ restrainedDofs nodes ∨ q ∈ restrainedDofs nodes then
        (if p = q then 1 else 0)
      else assembleK sqrtFn nodes elements stype p q := by
  unfold reducedSystem
  exact applyBC_fold_K (totalDOF nodes) (restrainedDofs nodes) _ p q hp hq

theorem reducedF_char (sqrtFn : ℚ → ℚ) (nodes : List SNode) (elements : List SElement)
    (loads : List SLoad) (stype : StiffnessType) (p : ℕ) :
    (reducedSystem sqrtFn nodes elements loads stype).2 p =
      if p ∈ restrainedDofs nodes then 0
      else assembleF sqrtFn nodes elements loads p := by
  unfold reducedSystem
  exact applyBC_fold_F (totalDOF nodes) (restrainedDofs nodes) _ p

/-- C2: for every restrained DOF `k`, row `k` and column `k` of the reduced
stiffness matrix are zeroed with unit diagonal, the reduced load entry is `0`,
every entry whose row and column are both unrestrained is left equal to the
assembled `K_global`/`F_global`, and the displacement returned by the linear
solve is `0` at `k`. -/
theorem C2_boundary_reduction (sqrtFn : ℚ → ℚ) (nodes : List SNode)
    (elements : List SElement) (loads : List SLoad) (stype : StiffnessType)
    (k : ℕ) (hk : k ∈ restrainedDofs nodes) :
    (∀ j, j < totalDOF nodes →
      (reducedSystem sqrtFn nodes elements loads stype).1 k j =
        if k = j then 1 else 0) ∧
    (∀ j, j < totalDOF nodes →
      (reducedSystem sqrtFn nodes elements loads stype).1 j k =
        if j = k then 1 else 0) ∧
    (reducedSystem sqrtFn nodes elements loads stype).2 k = 0 ∧
    (∀ p q, p < totalDOF nodes → q < totalDOF nodes →
      p ∉ restrainedDofs nodes → q ∉ restrainedDofs nodes →
      (reducedSystem sqrtFn nodes elements loads stype).1 p q =
        assembleK sqrtFn nodes elements stype p q) ∧
    (∀ p, p ∉ restrainedDofs nodes →
      (reducedSystem sqrtFn nodes elements loads stype).2 p =
        assembleF sqrtFn nodes elements loads p) ∧
    Uval sqrtFn nodes elements loads stype k = 0 := by
  have hkd : k < totalDOF nodes := restrainedDofs_lt nodes k hk
  refine ⟨?_, ?_, ?_, ?_, ?_, ?_⟩
  · intro j hj
    rw [reducedK_char sqrtFn nodes elements loads stype k j hkd hj,
      if_pos (Or.inl hk)]
  · intro j hj
    rw [reducedK_char sqrtFn nodes elements loads stype j k hj hkd,
      if_pos (Or.inr hk)]
  · rw [reducedF_char, if_pos hk]
  · intro p q hp hq hpn hqn
    rw [reducedK_char sqrtFn nodes elements loads stype p q hp hq,
      if_neg (by rintro (h | h); exacts [hpn h, hqn h])]
  · intro p hpn
    rw [reducedF_char, if_neg hpn]
  · unfold Uval
    rw [dif_pos hkd]
    apply solveLinearSystem_unitRow
    · intro j
      rw [reducedK_char sqrtFn nodes elements loads stype k (j : ℕ) hkd j.isLt,
        if_pos (Or.inl hk)]
      by_cases hkj : k = (j : ℕ)
      · rw [if_pos hkj, if_pos (Fin.ext hkj.symm)]
      · rw [if_neg hkj, if_neg (fun h => hkj (by rw [h]))]
    · rw [reducedF_char, if_pos hk]
    · intro r hr
      rw [reducedK_char sqrtFn nodes elements loads stype (r : ℕ) k r.isLt hkd,
        if_pos (Or.inr hk), if_neg (fun h => hr (Fin.ext h))]

/-! ### C7: load remapping when an element is split -/

/-- The parametric ranges `(prevT, t)` of the sub-segments created from a
point chain. -/
def segmentRanges : ℚ → List (SNode × ℚ) → List (ℚ × ℚ)
  | _, [] => []
  | prevT, pt :: rest => (prevT, pt.2) :: segmentRanges pt.2 rest

theorem procPoints_nondistributed (el : SElement) (l : SLoad)
    (hk : l.kind ≠ LoadKind.distributed) :
    ∀ (points : List (SNode × ℚ)) (start : SNode) (prevT : ℚ) (isF : Bool) (nid : ℤ),
    (procPoints el [l] points start prevT isF nid).2.1.length =
      ((segmentRanges prevT points).filter (fun ab =>
        decide (l.location.getD (1 / 2) ≥ ab.1 - 1 / 10 ^ 4) &&
        decide (l.location.getD (1 / 2) ≤ ab.2 + 1 / 10 ^ 4))).length ∧
    ∀ lc ∈ (procPoints el [l] points start prevT isF nid).2.1,
      ∃ ab ∈ segmentRanges prevT points,
        l.location.getD (1 / 2) ≥ ab.1 - 1 / 10 ^ 4 ∧
        l.location.getD (1 / 2) ≤ ab.2 + 1 / 10 ^ 4 ∧
        lc.location = some (max 0 (min 1
          (if ab.2 - ab.1 > 1 / 10 ^ 6 then
            (l.location.getD (1 / 2) - ab.1) / (ab.2 - ab.1) else 0))) ∧
        lc.kind = l.kind ∧ lc.magnitude = l.magnitude ∧ lc.direction = l.direction := by
  intro points
  induction points with
  | nil =>
      intro start prevT isF nid
      exact ⟨rfl, by intro lc hlc; exact absurd hlc (List.not_mem_nil lc)⟩
  | cons pt rest ih =>
      intro start prevT isF nid
      have hbranch : (procPoints el [l] (pt :: rest) start prevT isF nid).2.1 =
          (if l.location.getD (1 / 2) ≥ prevT - 1 / 10 ^ 4 ∧
              l.location.getD (1 / 2) ≤ pt.2 + 1 / 10 ^ 4 then
            [{ l with elementId := some nid,
                      location := some (max 0 (min 1
                        (if pt.2 - prevT > 1 / 10 ^ 6 then
                          (l.location.getD (1 / 2) - prevT) / (pt.2 - prevT) else 0))) }]
          else []) ++
          (procPoints el [l] rest pt.1 pt.2 false (nid + 1)).2.1 := by
        simp only [procPoints, List.filterMap]
        cases hlk : l.kind with
        | distributed => exact absurd hlk hk
        | point =>
            by_cases hin : l.location.getD (1 / 2) ≥ prevT - 1 / 10 ^ 4 ∧
                l.location.getD (1 / 2) ≤ pt.2 + 1 / 10 ^ 4
            · rw [if_pos hin, if_pos hin]
            · rw [if_neg hin, if_neg hin]
        | moment =>
            by_cases hin : l.location.getD (1 / 2) ≥ prevT - 1 / 10 ^ 4 ∧
                l.location.getD (1 / 2) ≤ pt.2 + 1 / 10 ^ 4
            · rw [if_pos hin, if_pos hin]
            · rw [if_neg hin, if_neg hin]
      obtain ⟨ihlen, ihmem⟩ := ih pt.1 pt.2 false (nid + 1)
      constructor
      · rw [hbranch, List.length_append, ihlen]
        show _ = (List.filter _ ((prevT, pt.2) :: segmentRanges pt.2 rest)).length
        simp only [List.filter_cons]
        by_cases hin : l.location.getD (1 / 2) ≥ prevT - 1 / 10 ^ 4 ∧
            l.location.getD (1 / 2) ≤ pt.2 + 1 / 10 ^ 4
        · have hc : (decide (l.location.getD (1 / 2) ≥ prevT - 1 / 10 ^ 4) &&
              decide (l.location.getD (1 / 2) ≤ pt.2 + 1 / 10 ^ 4)) = true := by
            rw [Bool.and_eq_true, decide_eq_true_eq, decide_eq_true_eq]
            exact hin
          rw [if_pos hin, if_pos hc]
          simp [Nat.add_comm]
        · have hc : ¬ ((decide (l.location.getD (1 / 2) ≥ prevT - 1 / 10 ^ 4) &&
              decide (l.location.getD (1 / 2) ≤ pt.2 + 1 / 10 ^ 4)) = true) := by
            rw [Bool.and_eq_true, decide_eq_true_eq, decide_eq_true_eq]
            exact hin
          rw [if_neg hin, if_neg hc]
          simp
      · intro lc hlc
        rw [hbranch] at hlc
        rcases List.mem_append.mp hlc with h | h
        · by_cases hin : l.location.getD (1 / 2) ≥ prevT - 1 / 10 ^ 4 ∧
              l.location.getD (1 / 2) ≤ pt.2 + 1 / 10 ^ 4
          · rw [if_pos hin] at h
            rcases List.mem_cons.mp h with h | h
            · refine ⟨(prevT, pt.2), List.mem_cons_self _ _, hin.1, hin.2, ?_⟩
              rw [h]
              exact ⟨rfl, rfl, rfl, rfl⟩
            · exact absurd h (List.not_mem_nil lc)
          · rw [if_neg hin] at h
            exact absurd h (List.not_mem_nil lc)
        · obtain ⟨ab, hab, h1, h2, h3⟩ := ihmem lc h
          exact ⟨ab, List.mem_cons_of_mem _ hab, h1, h2, h3⟩

theorem procPoints_distributed (el : SElement) (l : SLoad)
    (hk : l.kind = LoadKind.distributed) :
    ∀ (points : List (SNode × ℚ)) (start : SNode) (prevT : ℚ) (isF : Bool) (nid : ℤ),
    (procPoints el [l] points start prevT isF nid).2.1.length = points.length ∧
    ∀ lc ∈ (procPoints el [l] points start prevT isF nid).2.1,
      lc.kind = l.kind ∧ lc.magnitude = l.magnitude ∧ lc.direction = l.direction ∧
      lc.location = l.location := by
  intro points
  induction points with
  | nil =>
      intro start prevT isF nid
      exact ⟨rfl, by intro lc hlc; exact absurd hlc (List.not_mem_nil lc)⟩
  | cons pt rest ih =>
      intro start prevT isF nid
      have hbranch : (procPoints el [l] (pt :: rest) start prevT isF nid).2.1 =
          { l with elementId := some nid } ::
          (procPoints el [l] rest pt.1 pt.2 false (nid + 1)).2.1 := by
        simp only [procPoints, List.filterMap, hk]
        rfl
      obtain ⟨ihlen, ihmem⟩ := ih pt.1 pt.2 false (nid + 1)
      constructor
      · rw [hbranch, List.length_cons, ihlen, List.length_cons]
      · intro lc hlc
        rw [hbranch] at hlc
        rcases List.mem_cons.mp hlc with h | h
        · rw [h]
          exact ⟨rfl, rfl, rfl, rfl⟩
        · exact ihmem lc h

/-- C7 (amended): when `autoConnectNodes` splits an element, a point or moment
load on the parent is cloned onto *every* sub-segment whose parametric range,
widened by the `1e-4` tolerance, contains the load's original location — which
is exactly one segment whenever the location is more than `1e-4` away from
every split point, but two when it lies within `1e-4` of an interior split
point — with each clone's location re-normalized to the sub-segment's own
parametric length and clamped to `[0, 1]`; distributed loads are duplicated
unchanged onto every sub-segment. -/
theorem C7_amended (el : SElement) (l : SLoad)
    (points : List (SNode × ℚ)) (start : SNode) (prevT : ℚ) (isF : Bool) (nid : ℤ) :
    (l.kind ≠ LoadKind.distributed →
      (procPoints el [l] points start prevT isF nid).2.1.length =
        ((segmentRanges prevT points).filter (fun ab =>
          decide (l.location.getD (1 / 2) ≥ ab.1 - 1 / 10 ^ 4) &&
          decide (l.location.getD (1 / 2) ≤ ab.2 + 1 / 10 ^ 4))).length ∧
      ∀ lc ∈ (procPoints el [l] points start prevT isF nid).2.1,
        ∃ ab ∈ segmentRanges prevT points,
          l.location.getD (1 / 2) ≥ ab.1 - 1 / 10 ^ 4 ∧
          l.location.getD (1 / 2) ≤ ab.2 + 1 / 10 ^ 4 ∧
          lc.location = some (max 0 (min 1
            (if ab.2 - ab.1 > 1 / 10 ^ 6 then
              (l.location.getD (1 / 2) - ab.1) / (ab.2 - ab.1) else 0))) ∧
          lc.kind = l.kind ∧ lc.magnitude = l.magnitude ∧
          lc.direction = l.direction) ∧
    (l.kind = LoadKind.distributed →
      (procPoints el [l] points start prevT isF nid).2.1.length = points.length ∧
      ∀ lc ∈ (procPoints el [l] points start prevT isF nid).2.1,
        lc.kind = l.kind ∧ lc.magnitude = l.magnitude ∧ lc.direction = l.direction ∧
        lc.location = l.location) :=
  ⟨fun hk => procPoints_nondistributed el l hk points start prevT isF nid,
   fun hk => procPoints_distributed el l hk points start prevT isF nid⟩

theorem C7_witness :
    ((⟨some 1, none, LoadKind.point, 5, some LoadDir.y, some (1/2)⟩ : SLoad).kind ≠
      LoadKind.distributed) ∧
    (procPoints ⟨1, 1, 2, 1, 1, 1, false, false⟩
      [⟨some 1, none, LoadKind.point, 5, some LoadDir.y, some (1/2)⟩]
      [(⟨3, 1, 0, vec3g false false false⟩, 1/2), (⟨2, 2, 0, vec3g false false false⟩, 1)]
      ⟨1, 0, 0, vec3g false false false⟩ 0 true 2).2.1.length =
      ((segmentRanges 0
        [(⟨3, 1, 0, vec3g false false false⟩, 1/2),
         (⟨2, 2, 0, vec3g false false false⟩, 1)]).filter (fun ab =>
        decide ((1:ℚ)/2 ≥ ab.1 - 1 / 10 ^ 4) &&
        decide ((1:ℚ)/2 ≤ ab.2 + 1 / 10 ^ 4))).length := by
  constructor
  · decide
  · exact ((C7_amended ⟨1, 1, 2, 1, 1, 1, false, false⟩
      ⟨some 1, none, LoadKind.point, 5, some LoadDir.y, some (1/2)⟩
      [(⟨3, 1, 0, vec3g false false false⟩, 1/2), (⟨2, 2, 0, vec3g false false false⟩, 1)]
      ⟨1, 0, 0, vec3g false false false⟩ 0 true 2).1 (by decide)).1

/-- C7 (counterexample to the original claim): splitting the element
`(0,0)–(2,0)` at the on-axis node `(1,0)` (parameter `t = 1/2`) with a point
load at location `1/2` duplicates the load onto *both* sub-segments — the
tolerance window `[prevT - 1e-4, t + 1e-4]` of each segment contains `1/2` —
instead of assigning it to exactly one. -/
theorem C7_counterexample :
    (autoConnectNodes (fun q => if q = 0 then 0 else 1)
      [⟨1, 0, 0, vec3g false false false⟩, ⟨2, 2, 0, vec3g false false false⟩,
       ⟨3, 1, 0, vec3g false false false⟩]
      [⟨1, 1, 2, 1, 1, 1, false, false⟩]
      [⟨some 1, none, LoadKind.point, 5, some LoadDir.y, some (1/2)⟩]).2.2 =
      [⟨some 2, none, LoadKind.point, 5, some LoadDir.y, some 1⟩,
       ⟨some 3, none, LoadKind.point, 5, some LoadDir.y, some 0⟩] ∧
    ((autoConnectNodes (fun q => if q = 0 then 0 else 1)
      [⟨1, 0, 0, vec3g false false false⟩, ⟨2, 2, 0, vec3g false false false⟩,
       ⟨3, 1, 0, vec3g false false false⟩]
      [⟨1, 1, 2, 1, 1, 1, false, false⟩]
      [⟨some 1, none, LoadKind.point, 5, some LoadDir.y, some (1/2)⟩]).2.2).length = 2 ∧
    (2 : ℕ) ≠ 1 := by
  refine ⟨?_, ?_, by norm_num⟩ <;>
    norm_num [autoConnectNodes, autoConnectElement, splitNodesOf, getDist,
      procPoints, findNode, List.find?, idTruthy, List.filter, List.foldl,
      List.mergeSort, List.filterMap]

theorem C2_witness :
    0 ∈ restrainedDofs [⟨1, 0, 0, vec3g true false false⟩] ∧
    Uval (fun _ => 0) [⟨1, 0, 0, vec3g true false false⟩] [] []
      StiffnessType.Elastic 0 = 0 := by
  have hk : 0 ∈ restrainedDofs [⟨1, 0, 0, vec3g true false false⟩] := by
    norm_num [restrainedDofs, List.foldl, nodeRestrainedDofs, nodeIndexMap,
      List.enum, List.enumFrom]
  exact ⟨hk,
    (C2_boundary_reduction (fun _ => 0) [⟨1, 0, 0, vec3g true false false⟩] [] []
      StiffnessType.Elastic 0 hk).2.2.2.2.2⟩

/-! ### C4/C6: a two-node cantilever, solved end to end.

The model: node 1 at the origin, fully fixed; node 2 at `(L, 0)`, free; one
element with no releases; a single transverse nodal point load `P` at node 2.
-/

def cantNodes (L : ℚ) : List SNode :=
  [⟨1, 0, 0, vec3g true true true⟩, ⟨2, L, 0, vec3g false false false⟩]

def cantElems (E A I : ℚ) : List SElement := [⟨1, 1, 2, E, A, I, false, false⟩]

def cantLoads (P : ℚ) : List SLoad :=
  [⟨none, some 2, LoadKind.point, P, some LoadDir.y, none⟩]

def vec7g {α : Type} (a b c d e f g : α) : Fin 7 → α :=
  fun i => if (i : ℕ) = 0 then a else if (i : ℕ) = 1 then b else if (i : ℕ) = 2 then c
    else if (i : ℕ) = 3 then d else if (i : ℕ) = 4 then e else if (i : ℕ) = 5 then f else g

/-- The reduced augmented system of the cantilever: rows `0–2` are the
eliminated restrained DOFs, row `3` the axial DOF, rows `4–5` the bending
block loaded by `P`. -/
def cantAug (a b1 b2 b3 P : ℚ) : Aug 6 :=
  vec6g (vec7g 1 0 0 0 0 0 0) (vec7g 0 1 0 0 0 0 0) (vec7g 0 0 1 0 0 0 0)
    (vec7g 0 0 0 a 0 0 0) (vec7g 0 0 0 0 b1 (-b2) P) (vec7g 0 0 0 0 (-b2) b3 0)

/-- Forward elimination outcome when no swap happens at step 4 (`b2 ≤ b1`). -/
def cantAugA (a b1 b2 b3 P : ℚ) : Aug 6 :=
  vec6g (vec7g 1 0 0 0 0 0 0) (vec7g 0 1 0 0 0 0 0) (vec7g 0 0 1 0 0 0 0)
    (vec7g 0 0 0 a 0 0 0) (vec7g 0 0 0 0 b1 (-b2) P)
    (vec7g 0 0 0 0 0 (b3 + -(-b2) / b1 * -b2) (0 + -(-b2) / b1 * P))

/-- Forward elimination outcome when rows 4 and 5 are swapped (`b2 > b1`). -/
def cantAugB (a b1 b2 b3 P : ℚ) : Aug 6 :=
  vec6g (vec7g 1 0 0 0 0 0 0) (vec7g 0 1 0 0 0 0 0) (vec7g 0 0 1 0 0 0 0)
    (vec7g 0 0 0 a 0 0 0) (vec7g 0 0 0 0 (-b2) b3 0)
    (vec7g 0 0 0 0 0 (-b2 + -b1 / -b2 * b3) (P + -b1 / -b2 * 0))

theorem swapRows_self (M : Aug n) (a : Fin n) : swapRows M a a = M := by
  funext r
  unfold swapRows
  by_cases h : r = a
  · rw [if_pos h, h]
  · rw [if_neg h, if_neg h]

/-- A forward step whose pivot column is zero away from the diagonal (and whose
diagonal passes the stability check) changes nothing. -/
theorem gaussStep_diagonly (M : Aug n) (i : Fin n)
    (hq : ∀ q, q ≠ i → M q i.castSucc = 0)
    (hpiv : ¬ |M i i.castSucc| < stabEps) : gaussStep M i = M := by
  have hd : M i i.castSucc ≠ 0 := by
    intro h
    apply hpiv
    rw [h]
    simpa using (by norm_num [stabEps] : (0 : ℚ) < stabEps)
  have hpr : pivotRow M i = i := pivotRow_eq_unique M i i hd hq le_rfl
  unfold gaussStep
  rw [hpr, swapRows_self, if_neg hpiv]
  funext r j
  unfold eliminateBelow
  by_cases hir : i < r
  · rw [if_pos hir]
    by_cases h1 : j < i.castSucc
    · rw [if_pos h1]
    · rw [if_neg h1]
      by_cases h2 : j = i.castSucc
      · rw [if_pos h2, h2, hq r (ne_of_gt hir)]
      · rw [if_neg h2, hq r (ne_of_gt hir)]
        norm_num
  · rw [if_neg hir]

/-- The last forward step of a 6×6 system with an acceptable pivot changes
nothing. -/
theorem gaussStep_last6 (M : Aug 6)
    (hpiv : ¬ |M ⟨5, by norm_num⟩ (Fin.castSucc ⟨5, by norm_num⟩)| < stabEps) :
    gaussStep M ⟨5, by norm_num⟩ = M := by
  have hfl : (List.finRange 6).filter (fun k => (⟨5, by norm_num⟩ : Fin 6) < k) = [] := by
    decide
  have hpr : pivotRow M ⟨5, by norm_num⟩ = ⟨5, by norm_num⟩ := by
    unfold pivotRow
    rw [hfl]
    rfl
  unfold gaussStep
  rw [hpr, swapRows_self, if_neg hpiv]
  funext r j
  unfold eliminateBelow
  have hr : ¬ (⟨5, by norm_num⟩ : Fin 6) < r := by
    intro hlt
    have h1 : (5 : ℕ) < (r : ℕ) := hlt
    have h2 := r.isLt
    omega
  rw [if_neg hr]

theorem Tmat_id (a i : Fin 6) : Tmat 1 0 a i = if a = i then 1 else 0 := by
  fin_cases a <;> fin_cases i <;> norm_num [Tmat, vec6g, Fin.ext_iff]

theorem kGlobalEl_id (kL : Fin 6 → Fin 6 → ℚ) (i j : Fin 6) :
    kGlobalEl kL 1 0 i j = kL i j := by
  unfold kGlobalEl
  simp only [Tmat_id]
  rw [Finset.sum_eq_single i]
  · rw [Finset.sum_eq_single j]
    · rw [if_pos rfl, if_pos rfl]
      ring
    · intro b _ hb
      rw [if_neg hb]
      ring
    · intro h
      exact absurd (Finset.mem_univ j) h
  · intro x _ hx
    apply Finset.sum_eq_zero
    intro b _
    rw [if_neg hx]
    ring
  · intro h
    exact absurd (Finset.mem_univ i) h

theorem dofMap030 (a : Fin 6) : dofMap 0 3 a = (a : ℕ) := by
  fin_cases a <;> rfl

/-- Full forward elimination and back-substitution of the reduced cantilever
system, covering both partial-pivoting branches at step 4. -/
theorem cantSolve (a b1 b2 b3 P : ℚ)
    (ha : stabEps ≤ a) (hb1 : stabEps ≤ b1) (hb2 : stabEps ≤ b2)
    (hd1 : stabEps ≤ (b1 * b3 - b2 * b2) / b1)
    (hd2 : stabEps ≤ (b1 * b3 - b2 * b2) / b2) :
    ∀ k : Fin 6, backSub (gaussForward (cantAug a b1 b2 b3 P)) k =
      vec6g 0 0 0 0 (P * b3 / (b1 * b3 - b2 * b2)) (P * b2 / (b1 * b3 - b2 * b2)) k := by
  have heps : (0 : ℚ) < stabEps := by norm_num [stabEps]
  have ha0 : 0 < a := lt_of_lt_of_le heps ha
  have hb10 : 0 < b1 := lt_of_lt_of_le heps hb1
  have hb20 : 0 < b2 := lt_of_lt_of_le heps hb2
  have hb1ne : b1 ≠ 0 := ne_of_gt hb10
  have hb2ne : b2 ≠ 0 := ne_of_gt hb20
  have hd0 : 0 < b1 * b3 - b2 * b2 := by
    have h1 : 0 < (b1 * b3 - b2 * b2) / b1 := lt_of_lt_of_le heps hd1
    have h2 := mul_pos h1 hb10
    calc (0 : ℚ) < (b1 * b3 - b2 * b2) / b1 * b1 := h2
      _ = b1 * b3 - b2 * b2 := div_mul_cancel₀ _ hb1ne
  have hdne : b1 * b3 - b2 * b2 ≠ 0 := ne_of_gt hd0
  have hst0 : gaussStep (cantAug a b1 b2 b3 P) ⟨0, by norm_num⟩ = cantAug a b1 b2 b3 P := by
    apply gaussStep_diagonly
    · intro q hq
      fin_cases q <;> first | exact absurd rfl hq | rfl
    · show ¬ |(1 : ℚ)| < stabEps
      norm_num [stabEps]
  have hst1 : gaussStep (cantAug a b1 b2 b3 P) ⟨1, by norm_num⟩ = cantAug a b1 b2 b3 P := by
    apply gaussStep_diagonly
    · intro q hq
      fin_cases q <;> first | exact absurd rfl hq | rfl
    · show ¬ |(1 : ℚ)| < stabEps
      norm_num [stabEps]
  have hst2 : gaussStep (cantAug a b1 b2 b3 P) ⟨2, by norm_num⟩ = cantAug a b1 b2 b3 P := by
    apply gaussStep_diagonly
    · intro q hq
      fin_cases q <;> first | exact absurd rfl hq | rfl
    · show ¬ |(1 : ℚ)| < stabEps
      norm_num [stabEps]
  have hst3 : gaussStep (cantAug a b1 b2 b3 P) ⟨3, by norm_num⟩ = cantAug a b1 b2 b3 P := by
    apply gaussStep_diagonly
    · intro q hq
      fin_cases q <;> first | exact absurd rfl hq | rfl
    · show ¬ |a| < stabEps
      rw [abs_of_pos ha0]
      exact not_lt.mpr ha
  have hS1 : stateAt (cantAug a b1 b2 b3 P) 1 = cantAug a b1 b2 b3 P := by
    rw [show (1 : ℕ) = 0 + 1 from rfl, stateAt_succ _ 0 (by norm_num), stateAt_zero]
    exact hst0
  have hS2 : stateAt (cantAug a b1 b2 b3 P) 2 = cantAug a b1 b2 b3 P := by
    rw [show (2 : ℕ) = 1 + 1 from rfl, stateAt_succ _ 1 (by norm_num), hS1]
    exact hst1
  have hS3 : stateAt (cantAug a b1 b2 b3 P) 3 = cantAug a b1 b2 b3 P := by
    rw [show (3 : ℕ) = 2 + 1 from rfl, stateAt_succ _ 2 (by norm_num), hS2]
    exact hst2
  have hS4 : stateAt (cantAug a b1 b2 b3 P) 4 = cantAug a b1 b2 b3 P := by
    rw [show (4 : ℕ) = 3 + 1 from rfl, stateAt_succ _ 3 (by norm_num), hS3]
    exact hst3
  have hfl4 : (List.finRange 6).filter (fun k => (⟨4, by norm_num⟩ : Fin 6) < k) =
      [⟨5, by norm_num⟩] := by decide
  have habs2 : |(-b2 : ℚ)| = b2 := by rw [abs_neg, abs_of_pos hb20]
  have habs1 : |b1| = b1 := abs_of_pos hb10
  by_cases hbr : b2 > b1
  · -- pivot row 5: rows 4 and 5 are swapped
    have hpr4 : pivotRow (cantAug a b1 b2 b3 P) ⟨4, by norm_num⟩ = ⟨5, by norm_num⟩ := by
      unfold pivotRow
      rw [hfl4]
      simp only [List.foldl_cons, List.foldl_nil]
      have hcond : |cantAug a b1 b2 b3 P ⟨5, by norm_num⟩ (Fin.castSucc ⟨4, by norm_num⟩)| >
          |cantAug a b1 b2 b3 P ⟨4, by norm_num⟩ (Fin.castSucc ⟨4, by norm_num⟩)| := by
        show |(-b2 : ℚ)| > |b1|
        rw [habs2, habs1]
        exact hbr
      rw [if_pos hcond]
    have hst4 : gaussStep (cantAug a b1 b2 b3 P) ⟨4, by norm_num⟩ = cantAugB a b1 b2 b3 P := by
      unfold gaussStep
      rw [hpr4]
      have hnost : ¬ |swapRows (cantAug a b1 b2 b3 P) ⟨4, by norm_num⟩ ⟨5, by norm_num⟩
          ⟨4, by norm_num⟩ (Fin.castSucc ⟨4, by norm_num⟩)| < stabEps := by
        show ¬ |(-b2 : ℚ)| < stabEps
        rw [habs2]
        exact not_lt.mpr hb2
      rw [if_neg hnost]
      funext r j
      fin_cases r <;> fin_cases j <;> rfl
    have hS5 : stateAt (cantAug a b1 b2 b3 P) 5 = cantAugB a b1 b2 b3 P := by
      rw [show (5 : ℕ) = 4 + 1 from rfl, stateAt_succ _ 4 (by norm_num), hS4]
      exact hst4
    have hvB : (-b2 + -b1 / -b2 * b3 : ℚ) = (b1 * b3 - b2 * b2) / b2 := by
      field_simp
      ring
    have hfwd : gaussForward (cantAug a b1 b2 b3 P) = cantAugB a b1 b2 b3 P := by
      have h6 : stateAt (cantAug a b1 b2 b3 P) (5 + 1) = cantAugB a b1 b2 b3 P := by
        rw [stateAt_succ _ 5 (by norm_num), hS5]
        apply gaussStep_last6
        show ¬ |(-b2 + -b1 / -b2 * b3 : ℚ)| < stabEps
        rw [hvB, abs_of_pos (lt_of_lt_of_le heps hd2)]
        exact not_lt.mpr hd2
      rw [← stateAt_ge_n (cantAug a b1 b2 b3 P) 6 le_rfl]
      exact h6
    have hx5 : backSub (cantAugB a b1 b2 b3 P) ⟨5, by norm_num⟩ =
        P * b2 / (b1 * b3 - b2 * b2) := by
      rw [backSub_spec]
      have hIoi : Finset.Ioi (⟨5, by norm_num⟩ : Fin 6) = ∅ := by decide
      rw [hIoi, Finset.sum_empty]
      show (P + -b1 / -b2 * 0 - 0) / (-b2 + -b1 / -b2 * b3) = _
      rw [hvB, show (P + -b1 / -b2 * 0 - 0 : ℚ) = P from by ring, div_div_eq_mul_div]
    have hx4 : backSub (cantAugB a b1 b2 b3 P) ⟨4, by norm_num⟩ =
        P * b3 / (b1 * b3 - b2 * b2) := by
      rw [backSub_spec]
      have hIoi : Finset.Ioi (⟨4, by norm_num⟩ : Fin 6) = {⟨5, by norm_num⟩} := by decide
      rw [hIoi, Finset.sum_singleton, hx5]
      show (0 - b3 * (P * b2 / (b1 * b3 - b2 * b2))) / -b2 = _
      field_simp
      ring
    have hx3 : backSub (cantAugB a b1 b2 b3 P) ⟨3, by norm_num⟩ = 0 := by
      rw [backSub_spec]
      have hz : ∀ j ∈ Finset.Ioi (⟨3, by norm_num⟩ : Fin 6),
          cantAugB a b1 b2 b3 P ⟨3, by norm_num⟩ j.castSucc *
            backSub (cantAugB a b1 b2 b3 P) j = 0 := by
        intro j hj
        fin_cases j
        · exact absurd hj (by decide)
        · exact absurd hj (by decide)
        · exact absurd hj (by decide)
        · exact absurd hj (by decide)
        · exact mul_eq_zero_of_left rfl _
        · exact mul_eq_zero_of_left rfl _
      rw [Finset.sum_eq_zero hz]
      show ((0 : ℚ) - 0) / a = 0
      norm_num
    have hx2 : backSub (cantAugB a b1 b2 b3 P) ⟨2, by norm_num⟩ = 0 := by
      rw [backSub_spec]
      have hz : ∀ j ∈ Finset.Ioi (⟨2, by norm_num⟩ : Fin 6),
          cantAugB a b1 b2 b3 P ⟨2, by norm_num⟩ j.castSucc *
            backSub (cantAugB a b1 b2 b3 P) j = 0 := by
        intro j hj
        fin_cases j
        · exact absurd hj (by decide)
        · exact absurd hj (by decide)
        · exact absurd hj (by decide)
        · exact mul_eq_zero_of_left rfl _
        · exact mul_eq_zero_of_left rfl _
        · exact mul_eq_zero_of_left rfl _
      rw [Finset.sum_eq_zero hz]
      show ((0 : ℚ) - 0) / 1 = 0
      norm_num
    have hx1 : backSub (cantAugB a b1 b2 b3 P) ⟨1, by norm_num⟩ = 0 := by
      rw [backSub_spec]
      have hz : ∀ j ∈ Finset.Ioi (⟨1, by norm_num⟩ : Fin 6),
          cantAugB a b1 b2 b3 P ⟨1, by norm_num⟩ j.castSucc *
            backSub (cantAugB a b1 b2 b3 P) j = 0 := by
        intro j hj
        fin_cases j
        · exact absurd hj (by decide)
        · exact absurd hj (by decide)
        · exact mul_eq_zero_of_left rfl _
        · exact mul_eq_zero_of_left rfl _
        · exact mul_eq_zero_of_left rfl _
        · exact mul_eq_zero_of_left rfl _
      rw [Finset.sum_eq_zero hz]
      show ((0 : ℚ) - 0) / 1 = 0
      norm_num
    have hx0 : backSub (cantAugB a b1 b2 b3 P) ⟨0, by norm_num⟩ = 0 := by
      rw [backSub_spec]
      have hz : ∀ j ∈ Finset.Ioi (⟨0, by norm_num⟩ : Fin 6),
          cantAugB a b1 b2 b3 P ⟨0, by norm_num⟩ j.castSucc *
            backSub (cantAugB a b1 b2 b3 P) j = 0 := by
        intro j hj
        fin_cases j
        · exact absurd hj (by decide)
        · exact mul_eq_zero_of_left rfl _
        · exact mul_eq_zero_of_left rfl _
        · exact mul_eq_zero_of_left rfl _
        · exact mul_eq_zero_of_left rfl _
        · exact mul_eq_zero_of_left rfl _
      rw [Finset.sum_eq_zero hz]
      show ((0 : ℚ) - 0) / 1 = 0
      norm_num
    intro k
    rw [hfwd]
    fin_cases k
    exacts [hx0, hx1, hx2, hx3, hx4, hx5]
  · -- pivot stays at row 4
    have hpr4 : pivotRow (cantAug a b1 b2 b3 P) ⟨4, by norm_num⟩ = ⟨4, by norm_num⟩ := by
      unfold pivotRow
      rw [hfl4]
      simp only [List.foldl_cons, List.foldl_nil]
      have hcond : ¬ |cantAug a b1 b2 b3 P ⟨5, by norm_num⟩ (Fin.castSucc ⟨4, by norm_num⟩)| >
          |cantAug a b1 b2 b3 P ⟨4, by norm_num⟩ (Fin.castSucc ⟨4, by norm_num⟩)| := by
        show ¬ |(-b2 : ℚ)| > |b1|
        rw [habs2, habs1]
        exact hbr
      rw [if_neg hcond]
    have hst4 : gaussStep (cantAug a b1 b2 b3 P) ⟨4, by norm_num⟩ = cantAugA a b1 b2 b3 P := by
      unfold gaussStep
      rw [hpr4, swapRows_self]
      have hnost : ¬ |cantAug a b1 b2 b3 P ⟨4, by norm_num⟩
          (Fin.castSucc ⟨4, by norm_num⟩)| < stabEps := by
        show ¬ |b1| < stabEps
        rw [habs1]
        exact not_lt.mpr hb1
      rw [if_neg hnost]
      funext r j
      fin_cases r <;> fin_cases j <;> rfl
    have hS5 : stateAt (cantAug a b1 b2 b3 P) 5 = cantAugA a b1 b2 b3 P := by
      rw [show (5 : ℕ) = 4 + 1 from rfl, stateAt_succ _ 4 (by norm_num), hS4]
      exact hst4
    have hvA : (b3 + -(-b2) / b1 * -b2 : ℚ) = (b1 * b3 - b2 * b2) / b1 := by
      field_simp
      ring
    have hfwd : gaussForward (cantAug a b1 b2 b3 P) = cantAugA a b1 b2 b3 P := by
      have h6 : stateAt (cantAug a b1 b2 b3 P) (5 + 1) = cantAugA a b1 b2 b3 P := by
        rw [stateAt_succ _ 5 (by norm_num), hS5]
        apply gaussStep_last6
        show ¬ |(b3 + -(-b2) / b1 * -b2 : ℚ)| < stabEps
        rw [hvA, abs_of_pos (lt_of_lt_of_le heps hd1)]
        exact not_lt.mpr hd1
      rw [← stateAt_ge_n (cantAug a b1 b2 b3 P) 6 le_rfl]
      exact h6
    have hx5 : backSub (cantAugA a b1 b2 b3 P) ⟨5, by norm_num⟩ =
        P * b2 / (b1 * b3 - b2 * b2) := by
      rw [backSub_spec]
      have hIoi : Finset.Ioi (⟨5, by norm_num⟩ : Fin 6) = ∅ := by decide
      rw [hIoi, Finset.sum_empty]
      show (0 + -(-b2) / b1 * P - 0) / (b3 + -(-b2) / b1 * -b2) = _
      rw [hvA]
      field_simp
      ring
    have hx4 : backSub (cantAugA a b1 b2 b3 P) ⟨4, by norm_num⟩ =
        P * b3 / (b1 * b3 - b2 * b2) := by
      rw [backSub_spec]
      have hIoi : Finset.Ioi (⟨4, by norm_num⟩ : Fin 6) = {⟨5, by norm_num⟩} := by decide
      rw [hIoi, Finset.sum_singleton, hx5]
      show (P - -b2 * (P * b2 / (b1 * b3 - b2 * b2))) / b1 = _
      field_simp
      ring
    have hx3 : backSub (cantAugA a b1 b2 b3 P) ⟨3, by norm_num⟩ = 0 := by
      rw [backSub_spec]
      have hz : ∀ j ∈ Finset.Ioi (⟨3, by norm_num⟩ : Fin 6),
          cantAugA a b1 b2 b3 P ⟨3, by norm_num⟩ j.castSucc *
            backSub (cantAugA a b1 b2 b3 P) j = 0 := by
        intro j hj
        fin_cases j
        · exact absurd hj (by decide)
        · exact absurd hj (by decide)
        · exact absurd hj (by decide)
        · exact absurd hj (by decide)
        · exact mul_eq_zero_of_left rfl _
        · exact mul_eq_zero_of_left rfl _
      rw [Finset.sum_eq_zero hz]
      show ((0 : ℚ) - 0) / a = 0
      norm_num
    have hx2 : backSub (cantAugA a b1 b2 b3 P) ⟨2, by norm_num⟩ = 0 := by
      rw [backSub_spec]
      have hz : ∀ j ∈ Finset.Ioi (⟨2, by norm_num⟩ : Fin 6),
          cantAugA a b1 b2 b3 P ⟨2, by norm_num⟩ j.castSucc *
            backSub (cantAugA a b1 b2 b3 P) j = 0 := by
        intro j hj
        fin_cases j
        · exact absurd hj (by decide)
        · exact absurd hj (by decide)
        · exact absurd hj (by decide)
        · exact mul_eq_zero_of_left rfl _
        · exact mul_eq_zero_of_left rfl _
        · exact mul_eq_zero_of_left rfl _
      rw [Finset.sum_eq_zero hz]
      show ((0 : ℚ) - 0) / 1 = 0
      norm_num
    have hx1 : backSub (cantAugA a b1 b2 b3 P) ⟨1, by norm_num⟩ = 0 := by
      rw [backSub_spec]
      have hz : ∀ j ∈ Finset.Ioi (⟨1, by norm_num⟩ : Fin 6),
          cantAugA a b1 b2 b3 P ⟨1, by norm_num⟩ j.castSucc *
            backSub (cantAugA a b1 b2 b3 P) j = 0 := by
        intro j hj
        fin_cases j
        · exact absurd hj (by decide)
        · exact absurd hj (by decide)
        · exact mul_eq_zero_of_left rfl _
        · exact mul_eq_zero_of_left rfl _
        · exact mul_eq_zero_of_left rfl _
        · exact mul_eq_zero_of_left rfl _
      rw [Finset.sum_eq_zero hz]
      show ((0 : ℚ) - 0) / 1 = 0
      norm_num
    have hx0 : backSub (cantAugA a b1 b2 b3 P) ⟨0, by norm_num⟩ = 0 := by
      rw [backSub_spec]
      have hz : ∀ j ∈ Finset.Ioi (⟨0, by norm_num⟩ : Fin 6),
          cantAugA a b1 b2 b3 P ⟨0, by norm_num⟩ j.castSucc *
            backSub (cantAugA a b1 b2 b3 P) j = 0 := by
        intro j hj
        fin_cases j
        · exact absurd hj (by decide)
        · exact mul_eq_zero_of_left rfl _
        · exact mul_eq_zero_of_left rfl _
        · exact mul_eq_zero_of_left rfl _
        · exact mul_eq_zero_of_left rfl _
        · exact mul_eq_zero_of_left rfl _
      rw [Finset.sum_eq_zero hz]
      show ((0 : ℚ) - 0) / 1 = 0
      norm_num
    intro k
    rw [hfwd]
    fin_cases k
    exacts [hx0, hx1, hx2, hx3, hx4, hx5]

theorem cant_restrainedDofs (L : ℚ) : restrainedDofs (cantNodes L) = [0, 1, 2] := rfl

theorem cant_totalDOF (L : ℚ) : totalDOF (cantNodes L) = 6 := rfl

/-- The global load vector of the cantilever: the single nodal load lands on
DOF 4 (the `y` translation of node 2). -/
theorem cant_assembleF (sqrtFn : ℚ → ℚ) (L E A I P : ℚ) (p : ℕ) :
    assembleF sqrtFn (cantNodes L) (cantElems E A I) (cantLoads P) p =
      if p = 4 then P else 0 := by
  have h0 : assembleF sqrtFn (cantNodes L) (cantElems E A I) (cantLoads P) p =
      0 + (if p = 4 then P else 0) := rfl
  rw [h0, zero_add]

/-- The assembled stiffness matrix of the cantilever equals the local matrix:
the element is horizontal, so the transformation is the identity. -/
theorem cant_assembleK (sqrtFn : ℚ → ℚ) (L E A I : ℚ)
    (hsq : sqrtFn ((L - 0) * (L - 0) + (0 - 0) * (0 - 0)) = L)
    (hL6 : ¬ L < 1 / 10 ^ 6) (hL0 : L ≠ 0) (p q : ℕ) (hp : p < 6) (hq : q < 6) :
    assembleK sqrtFn (cantNodes L) (cantElems E A I) StiffnessType.Elastic p q =
      kLocalOf (E * 10 ^ 6) (A * (1 / 10 ^ 4)) (I * (1 / 10 ^ 6)) L false false
        ⟨p, hp⟩ ⟨q, hq⟩ := by
  have h0 : assembleK sqrtFn (cantNodes L) (cantElems E A I) StiffnessType.Elastic p q =
      0 + contribK sqrtFn (cantNodes L) StiffnessType.Elastic
        ⟨1, 1, 2, E, A, I, false, false⟩ p q := rfl
  rw [h0, zero_add]
  show (if sqrtFn ((L - 0) * (L - 0) + (0 - 0) * (0 - 0)) < 1 / 10 ^ 6 then
      (fun _ _ => (0 : ℚ))
    else fun pp qq => ∑ a : Fin 6, ∑ b : Fin 6,
      if dofMap 0 3 a = pp ∧ dofMap 0 3 b = qq then
        kGlobalEl (kLocalOf (E * 10 ^ 6) (A * (1 / 10 ^ 4)) (I * (1 / 10 ^ 6))
          (sqrtFn ((L - 0) * (L - 0) + (0 - 0) * (0 - 0))) false false)
          ((L - 0) / sqrtFn ((L - 0) * (L - 0) + (0 - 0) * (0 - 0)))
          ((0 - 0) / sqrtFn ((L - 0) * (L - 0) + (0 - 0) * (0 - 0))) a b
      else 0) p q = _
  rw [hsq, if_neg hL6]
  show (∑ a : Fin 6, ∑ b : Fin 6,
      if dofMap 0 3 a = p ∧ dofMap 0 3 b = q then
        kGlobalEl (kLocalOf (E * 10 ^ 6) (A * (1 / 10 ^ 4)) (I * (1 / 10 ^ 6)) L
          false false) ((L - 0) / L) ((0 - 0) / L) a b
      else 0) = _
  rw [show ((L : ℚ) - 0) / L = 1 from by rw [sub_zero]; exact div_self hL0,
    show ((0 : ℚ) - 0) / L = 0 from by norm_num]
  simp only [kGlobalEl_id, dofMap030]
  rw [Finset.sum_eq_single (⟨p, hp⟩ : Fin 6)]
  · rw [Finset.sum_eq_single (⟨q, hq⟩ : Fin 6)]
    · rw [if_pos ⟨rfl, rfl⟩]
    · intro b _ hb
      rw [if_neg (fun h => hb (Fin.ext h.2))]
    · intro h
      exact absurd (Finset.mem_univ _) h
  · intro x _ hx
    apply Finset.sum_eq_zero
    intro b _
    rw [if_neg (fun h => hx (Fin.ext h.1))]
  · intro h
    exact absurd (Finset.mem_univ _) h

/-- The augmented matrix fed to the linear solver for the cantilever model is
exactly `cantAug` at the element stiffness coefficients. -/
theorem cant_augment (sqrtFn : ℚ → ℚ) (L E A I P : ℚ)
    (hsq : sqrtFn ((L - 0) * (L - 0) + (0 - 0) * (0 - 0)) = L)
    (hL6 : ¬ L < 1 / 10 ^ 6) (hL0 : L ≠ 0) :
    augmentMat
      (fun r q : Fin 6 => (reducedSystem sqrtFn (cantNodes L) (cantElems E A I) (cantLoads P) StiffnessType.Elastic).1 ↑r ↑q)
      (fun r : Fin 6 => (reducedSystem sqrtFn (cantNodes L) (cantElems E A I) (cantLoads P) StiffnessType.Elastic).2 ↑r) =
    cantAug (E * 10 ^ 6 * (A * (1 / 10 ^ 4)) / L) (12 * (E * 10 ^ 6) * (I * (1 / 10 ^ 6)) / (L * L * L)) (6 * (E * 10 ^ 6) * (I * (1 / 10 ^ 6)) / (L * L)) (4 * (E * 10 ^ 6) * (I * (1 / 10 ^ 6)) / L) P := by
  funext r j
  fin_cases r <;> fin_cases j
  · show (reducedSystem sqrtFn (cantNodes L) (cantElems E A I) (cantLoads P) StiffnessType.Elastic).1 0 0 = 1
    rw [reducedK_char sqrtFn (cantNodes L) (cantElems E A I) (cantLoads P) StiffnessType.Elastic 0 0 (by norm_num [totalDOF, cantNodes]) (by norm_num [totalDOF, cantNodes]), cant_restrainedDofs]
    have hc : (0 : ℕ) ∈ ([0, 1, 2] : List ℕ) ∨ (0 : ℕ) ∈ ([0, 1, 2] : List ℕ) := by decide
    rw [if_pos hc]
    rw [if_pos rfl]
  · show (reducedSystem sqrtFn (cantNodes L) (cantElems E A I) (cantLoads P) StiffnessType.Elastic).1 0 1 = 0
    rw [reducedK_char sqrtFn (cantNodes L) (cantElems E A I) (cantLoads P) StiffnessType.Elastic 0 1 (by norm_num [totalDOF, cantNodes]) (by norm_num [totalDOF, cantNodes]), cant_restrainedDofs]
    have hc : (0 : ℕ) ∈ ([0, 1, 2] : List ℕ) ∨ (1 : ℕ) ∈ ([0, 1, 2] : List ℕ) := by decide
    rw [if_pos hc]
    have hne : ¬ (0 : ℕ) = 1 := by norm_num
    rw [if_neg hne]
  · show (reducedSystem sqrtFn (cantNodes L) (cantElems E A I) (cantLoads P) StiffnessType.Elastic).1 0 2 = 0
    rw [reducedK_char sqrtFn (cantNodes L) (cantElems E A I) (cantLoads P) StiffnessType.Elastic 0 2 (by norm_num [totalDOF, cantNodes]) (by norm_num [totalDOF, cantNodes]), cant_restrainedDofs]
    have hc : (0 : ℕ) ∈ ([0, 1, 2] : List ℕ) ∨ (2 : ℕ) ∈ ([0, 1, 2] : List ℕ) := by decide
    rw [if_pos hc]
    have hne : ¬ (0 : ℕ) = 2 := by norm_num
    rw [if_neg hne]
  · show (reducedSystem sqrtFn (cantNodes L) (cantElems E A I) (cantLoads P) StiffnessType.Elastic).1 0 3 = 0
    rw [reducedK_char sqrtFn (cantNodes L) (cantElems E A I) (cantLoads P) StiffnessType.Elastic 0 3 (by norm_num [totalDOF, cantNodes]) (by norm_num [totalDOF, cantNodes]), cant_restrainedDofs]
    have hc : (0 : ℕ) ∈ ([0, 1, 2] : List ℕ) ∨ (3 : ℕ) ∈ ([0, 1, 2] : List ℕ) := by decide
    rw [if_pos hc]
    have hne : ¬ (0 : ℕ) = 3 := by norm_num
    rw [if_neg hne]
  · show (reducedSystem sqrtFn (cantNodes L) (cantElems E A I) (cantLoads P) StiffnessType.Elastic).1 0 4 = 0
    rw [reducedK_char sqrtFn (cantNodes L) (cantElems E A I) (cantLoads P) StiffnessType.Elastic 0 4 (by norm_num [totalDOF, cantNodes]) (by norm_num [totalDOF, cantNodes]), cant_restrainedDofs]
    have hc : (0 : ℕ) ∈ ([0, 1, 2] : List ℕ) ∨ (4 : ℕ) ∈ ([0, 1, 2] : List ℕ) := by decide
    rw [if_pos hc]
    have hne : ¬ (0 : ℕ) = 4 := by norm_num
    rw [if_neg hne]
  · show (reducedSystem sqrtFn (cantNodes L) (cantElems E A I) (cantLoads P) StiffnessType.Elastic).1 0 5 = 0
    rw [reducedK_char sqrtFn (cantNodes L) (cantElems E A I) (cantLoads P) StiffnessType.Elastic 0 5 (by norm_num [totalDOF, cantNodes]) (by norm_num [totalDOF, cantNodes]), cant_restrainedDofs]
    have hc : (0 : ℕ) ∈ ([0, 1, 2] : List ℕ) ∨ (5 : ℕ) ∈ ([0, 1, 2] : List ℕ) := by decide
    rw [if_pos hc]
    have hne : ¬ (0 : ℕ) = 5 := by norm_num
    rw [if_neg hne]
  · show (reducedSystem sqrtFn (cantNodes L) (cantElems E A I) (cantLoads P) StiffnessType.Elastic).2 0 = 0
    rw [reducedF_char sqrtFn (cantNodes L) (cantElems E A I) (cantLoads P) StiffnessType.Elastic 0, cant_restrainedDofs]
    have hc : (0 : ℕ) ∈ ([0, 1, 2] : List ℕ) := by decide
    rw [if_pos hc]
  · show (reducedSystem sqrtFn (cantNodes L) (cantElems E A I) (cantLoads P) StiffnessType.Elastic).1 1 0 = 0
    rw [reducedK_char sqrtFn (cantNodes L) (cantElems E A I) (cantLoads P) StiffnessType.Elastic 1 0 (by norm_num [totalDOF, cantNodes]) (by norm_num [totalDOF, cantNodes]), cant_restrainedDofs]
    have hc : (1 : ℕ) ∈ ([0, 1, 2] : List ℕ) ∨ (0 : ℕ) ∈ ([0, 1, 2] : List ℕ) := by decide
    rw [if_pos hc]
    have hne : ¬ (1 : ℕ) = 0 := by norm_num
    rw [if_neg hne]
  · show (reducedSystem sqrtFn (cantNodes L) (cantElems E A I) (cantLoads P) StiffnessType.Elastic).1 1 1 = 1
    rw [reducedK_char sqrtFn (cantNodes L) (cantElems E A I) (cantLoads P) StiffnessType.Elastic 1 1 (by norm_num [totalDOF, cantNodes]) (by norm_num [totalDOF, cantNodes]), cant_restrainedDofs]
    have hc : (1 : ℕ) ∈ ([0, 1, 2] : List ℕ) ∨ (1 : ℕ) ∈ ([0, 1, 2] : List ℕ) := by decide
    rw [if_pos hc]
    rw [if_pos rfl]
  · show (reducedSystem sqrtFn (cantNodes L) (cantElems E A I) (cantLoads P) StiffnessType.Elastic).1 1 2 = 0
    rw [reducedK_char sqrtFn (cantNodes L) (cantElems E A I) (cantLoads P) StiffnessType.Elastic 1 2 (by norm_num [totalDOF, cantNodes]) (by norm_num [totalDOF, cantNodes]), cant_restrainedDofs]
    have hc : (1 : ℕ) ∈ ([0, 1, 2] : List ℕ) ∨ (2 : ℕ) ∈ ([0, 1, 2] : List ℕ) := by decide
    rw [if_pos hc]
    have hne : ¬ (1 : ℕ) = 2 := by norm_num
    rw [if_neg hne]
  · show (reducedSystem sqrtFn (cantNodes L) (cantElems E A I) (cantLoads P) StiffnessType.Elastic).1 1 3 = 0
    rw [reducedK_char sqrtFn (cantNodes L) (cantElems E A I) (cantLoads P) StiffnessType.Elastic 1 3 (by norm_num [totalDOF, cantNodes]) (by norm_num [totalDOF, cantNodes]), cant_restrainedDofs]
    have hc : (1 : ℕ) ∈ ([0, 1, 2] : List ℕ) ∨ (3 : ℕ) ∈ ([0, 1, 2] : List ℕ) := by decide
    rw [if_pos hc]
    have hne : ¬ (1 : ℕ) = 3 := by norm_num
    rw [if_neg hne]
  · show (reducedSystem sqrtFn (cantNodes L) (cantElems E A I) (cantLoads P) StiffnessType.Elastic).1 1 4 = 0
    rw [reducedK_char sqrtFn (cantNodes L) (cantElems E A I) (cantLoads P) StiffnessType.Elastic 1 4 (by norm_num [totalDOF, cantNodes]) (by norm_num [totalDOF, cantNodes]), cant_restrainedDofs]
    have hc : (1 : ℕ) ∈ ([0, 1, 2] : List ℕ) ∨ (4 : ℕ) ∈ ([0, 1, 2] : List ℕ) := by decide
    rw [if_pos hc]
    have hne : ¬ (1 : ℕ) = 4 := by norm_num
    rw [if_neg hne]
  · show (reducedSystem sqrtFn (cantNodes L) (cantElems E A I) (cantLoads P) StiffnessType.Elastic).1 1 5 = 0
    rw [reducedK_char sqrtFn (cantNodes L) (cantElems E A I) (cantLoads P) StiffnessType.Elastic 1 5 (by norm_num [totalDOF, cantNodes]) (by norm_num [totalDOF, cantNodes]), cant_restrainedDofs]
    have hc : (1 : ℕ) ∈ ([0, 1, 2] : List ℕ) ∨ (5 : ℕ) ∈ ([0, 1, 2] : List ℕ) := by decide
    rw [if_pos hc]
    have hne : ¬ (1 : ℕ) = 5 := by norm_num
    rw [if_neg hne]
  · show (reducedSystem sqrtFn (cantNodes L) (cantElems E A I) (cantLoads P) StiffnessType.Elastic).2 1 = 0
    rw [reducedF_char sqrtFn (cantNodes L) (cantElems E A I) (cantLoads P) StiffnessType.Elastic 1, cant_restrainedDofs]
    have hc : (1 : ℕ) ∈ ([0, 1, 2] : List ℕ) := by decide
    rw [if_pos hc]
  · show (reducedSystem sqrtFn (cantNodes L) (cantElems E A I) (cantLoads P) StiffnessType.Elastic).1 2 0 = 0
    rw [reducedK_char sqrtFn (cantNodes L) (cantElems E A I) (cantLoads P) StiffnessType.Elastic 2 0 (by norm_num [totalDOF, cantNodes]) (by norm_num [totalDOF, cantNodes]), cant_restrainedDofs]
    have hc : (2 : ℕ) ∈ ([0, 1, 2] : List ℕ) ∨ (0 : ℕ) ∈ ([0, 1, 2] : List ℕ) := by decide
    rw [if_pos hc]
    have hne : ¬ (2 : ℕ) = 0 := by norm_num
    rw [if_neg hne]
  · show (reducedSystem sqrtFn (cantNodes L) (cantElems E A I) (cantLoads P) StiffnessType.Elastic).1 2 1 = 0
    rw [reducedK_char sqrtFn (cantNodes L) (cantElems E A I) (cantLoads P) StiffnessType.Elastic 2 1 (by norm_num [totalDOF, cantNodes]) (by norm_num [totalDOF, cantNodes]), cant_restrainedDofs]
    have hc : (2 : ℕ) ∈ ([0, 1, 2] : List ℕ) ∨ (1 : ℕ) ∈ ([0, 1, 2] : List ℕ) := by decide
    rw [if_pos hc]
    have hne : ¬ (2 : ℕ) = 1 := by norm_num
    rw [if_neg hne]
  · show (reducedSystem sqrtFn (cantNodes L) (cantElems E A I) (cantLoads P) StiffnessType.Elastic).1 2 2 = 1
    rw [reducedK_char sqrtFn (cantNodes L) (cantElems E A I) (cantLoads P) StiffnessType.Elastic 2 2 (by norm_num [totalDOF, cantNodes]) (by norm_num [totalDOF, cantNodes]), cant_restrainedDofs]
    have hc : (2 : ℕ) ∈ ([0, 1, 2] : List ℕ) ∨ (2 : ℕ) ∈ ([0, 1, 2] : List ℕ) := by decide
    rw [if_pos hc]
    rw [if_pos rfl]
  · show (reducedSystem sqrtFn (cantNodes L) (cantElems E A I) (cantLoads P) StiffnessType.Elastic).1 2 3 = 0
    rw [reducedK_char sqrtFn (cantNodes L) (cantElems E A I) (cantLoads P) StiffnessType.Elastic 2 3 (by norm_num [totalDOF, cantNodes]) (by norm_num [totalDOF, cantNodes]), cant_restrainedDofs]
    have hc : (2 : ℕ) ∈ ([0, 1, 2] : List ℕ) ∨ (3 : ℕ) ∈ ([0, 1, 2] : List ℕ) := by decide
    rw [if_pos hc]
    have hne : ¬ (2 : ℕ) = 3 := by norm_num
    rw [if_neg hne]
  · show (reducedSystem sqrtFn (cantNodes L) (cantElems E A I) (cantLoads P) StiffnessType.Elastic).1 2 4 = 0
    rw [reducedK_char sqrtFn (cantNodes L) (cantElems E A I) (cantLoads P) StiffnessType.Elastic 2 4 (by norm_num [totalDOF, cantNodes]) (by norm_num [totalDOF, cantNodes]), cant_restrainedDofs]
    have hc : (2 : ℕ) ∈ ([0, 1, 2] : List ℕ) ∨ (4 : ℕ) ∈ ([0, 1, 2] : List ℕ) := by decide
    rw [if_pos hc]
    have hne : ¬ (2 : ℕ) = 4 := by norm_num
    rw [if_neg hne]
  · show (reducedSystem sqrtFn (cantNodes L) (cantElems E A I) (cantLoads P) StiffnessType.Elastic).1 2 5 = 0
    rw [reducedK_char sqrtFn (cantNodes L) (cantElems E A I) (cantLoads P) StiffnessType.Elastic 2 5 (by norm_num [totalDOF, cantNodes]) (by norm_num [totalDOF, cantNodes]), cant_restrainedDofs]
    have hc : (2 : ℕ) ∈ ([0, 1, 2] : List ℕ) ∨ (5 : ℕ) ∈ ([0, 1, 2] : List ℕ) := by decide
    rw [if_pos hc]
    have hne : ¬ (2 : ℕ) = 5 := by norm_num
    rw [if_neg hne]
  · show (reducedSystem sqrtFn (cantNodes L) (cantElems E A I) (cantLoads P) StiffnessType.Elastic).2 2 = 0
    rw [reducedF_char sqrtFn (cantNodes L) (cantElems E A I) (cantLoads P) StiffnessType.Elastic 2, cant_restrainedDofs]
    have hc : (2 : ℕ) ∈ ([0, 1, 2] : List ℕ) := by decide
    rw [if_pos hc]
  · show (reducedSystem sqrtFn (cantNodes L) (cantElems E A I) (cantLoads P) StiffnessType.Elastic).1 3 0 = 0
    rw [reducedK_char sqrtFn (cantNodes L) (cantElems E A I) (cantLoads P) StiffnessType.Elastic 3 0 (by norm_num [totalDOF, cantNodes]) (by norm_num [totalDOF, cantNodes]), cant_restrainedDofs]
    have hc : (3 : ℕ) ∈ ([0, 1, 2] : List ℕ) ∨ (0 : ℕ) ∈ ([0, 1, 2] : List ℕ) := by decide
    rw [if_pos hc]
    have hne : ¬ (3 : ℕ) = 0 := by norm_num
    rw [if_neg hne]
  · show (reducedSystem sqrtFn (cantNodes L) (cantElems E A I) (cantLoads P) StiffnessType.Elastic).1 3 1 = 0
    rw [reducedK_char sqrtFn (cantNodes L) (cantElems E A I) (cantLoads P) StiffnessType.Elastic 3 1 (by norm_num [totalDOF, cantNodes]) (by norm_num [totalDOF, cantNodes]), cant_restrainedDofs]
    have hc : (3 : ℕ) ∈ ([0, 1, 2] : List ℕ) ∨ (1 : ℕ) ∈ ([0, 1, 2] : List ℕ) := by decide
    rw [if_pos hc]
    have hne : ¬ (3 : ℕ) = 1 := by norm_num
    rw [if_neg hne]
  · show (reducedSystem sqrtFn (cantNodes L) (cantElems E A I) (cantLoads P) StiffnessType.Elastic).1 3 2 = 0
    rw [reducedK_char sqrtFn (cantNodes L) (cantElems E A I) (cantLoads P) StiffnessType.Elastic 3 2 (by norm_num [totalDOF, cantNodes]) (by norm_num [totalDOF, cantNodes]), cant_restrainedDofs]
    have hc : (3 : ℕ) ∈ ([0, 1, 2] : List ℕ) ∨ (2 : ℕ) ∈ ([0, 1, 2] : List ℕ) := by decide
    rw [if_pos hc]
    have hne : ¬ (3 : ℕ) = 2 := by norm_num
    rw [if_neg hne]
  · show (reducedSystem sqrtFn (cantNodes L) (cantElems E A I) (cantLoads P) StiffnessType.Elastic).1 3 3 = E * 10 ^ 6 * (A * (1 / 10 ^ 4)) / L
    rw [reducedK_char sqrtFn (cantNodes L) (cantElems E A I) (cantLoads P) StiffnessType.Elastic 3 3 (by norm_num [totalDOF, cantNodes]) (by norm_num [totalDOF, cantNodes]), cant_restrainedDofs]
    have hc : ¬ ((3 : ℕ) ∈ ([0, 1, 2] : List ℕ) ∨ (3 : ℕ) ∈ ([0, 1, 2] : List ℕ)) := by decide
    rw [if_neg hc, cant_assembleK sqrtFn L E A I hsq hL6 hL0 3 3 (by norm_num) (by norm_num)]
    rfl
  · show (reducedSystem sqrtFn (cantNodes L) (cantElems E A I) (cantLoads P) StiffnessType.Elastic).1 3 4 = 0
    rw [reducedK_char sqrtFn (cantNodes L) (cantElems E A I) (cantLoads P) StiffnessType.Elastic 3 4 (by norm_num [totalDOF, cantNodes]) (by norm_num [totalDOF, cantNodes]), cant_restrainedDofs]
    have hc : ¬ ((3 : ℕ) ∈ ([0, 1, 2] : List ℕ) ∨ (4 : ℕ) ∈ ([0, 1, 2] : List ℕ)) := by decide
    rw [if_neg hc, cant_assembleK sqrtFn L E A I hsq hL6 hL0 3 4 (by norm_num) (by norm_num)]
    rfl
  · show (reducedSystem sqrtFn (cantNodes L) (cantElems E A I) (cantLoads P) StiffnessType.Elastic).1 3 5 = 0
    rw [reducedK_char sqrtFn (cantNodes L) (cantElems E A I) (cantLoads P) StiffnessType.Elastic 3 5 (by norm_num [totalDOF, cantNodes]) (by norm_num [totalDOF, cantNodes]), cant_restrainedDofs]
    have hc : ¬ ((3 : ℕ) ∈ ([0, 1, 2] : List ℕ) ∨ (5 : ℕ) ∈ ([0, 1, 2] : List ℕ)) := by decide
    rw [if_neg hc, cant_assembleK sqrtFn L E A I hsq hL6 hL0 3 5 (by norm_num) (by norm_num)]
    rfl
  · show (reducedSystem sqrtFn (cantNodes L) (cantElems E A I) (cantLoads P) StiffnessType.Elastic).2 3 = 0
    rw [reducedF_char sqrtFn (cantNodes L) (cantElems E A I) (cantLoads P) StiffnessType.Elastic 3, cant_restrainedDofs]
    have hc : ¬ (3 : ℕ) ∈ ([0, 1, 2] : List ℕ) := by decide
    rw [if_neg hc, cant_assembleF sqrtFn L E A I P 3]
    have h4 : ¬ (3 : ℕ) = 4 := by norm_num
    rw [if_neg h4]
  · show (reducedSystem sqrtFn (cantNodes L) (cantElems E A I) (cantLoads P) StiffnessType.Elastic).1 4 0 = 0
    rw [reducedK_char sqrtFn (cantNodes L) (cantElems E A I) (cantLoads P) StiffnessType.Elastic 4 0 (by norm_num [totalDOF, cantNodes]) (by norm_num [totalDOF, cantNodes]), cant_restrainedDofs]
    have hc : (4 : ℕ) ∈ ([0, 1, 2] : List ℕ) ∨ (0 : ℕ) ∈ ([0, 1, 2] : List ℕ) := by decide
    rw [if_pos hc]
    have hne : ¬ (4 : ℕ) = 0 := by norm_num
    rw [if_neg hne]
  · show (reducedSystem sqrtFn (cantNodes L) (cantElems E A I) (cantLoads P) StiffnessType.Elastic).1 4 1 = 0
    rw [reducedK_char sqrtFn (cantNodes L) (cantElems E A I) (cantLoads P) StiffnessType.Elastic 4 1 (by norm_num [totalDOF, cantNodes]) (by norm_num [totalDOF, cantNodes]), cant_restrainedDofs]
    have hc : (4 : ℕ) ∈ ([0, 1, 2] : List ℕ) ∨ (1 : ℕ) ∈ ([0, 1, 2] : List ℕ) := by decide
    rw [if_pos hc]
    have hne : ¬ (4 : ℕ) = 1 := by norm_num
    rw [if_neg hne]
  · show (reducedSystem sqrtFn (cantNodes L) (cantElems E A I) (cantLoads P) StiffnessType.Elastic).1 4 2 = 0
    rw [reducedK_char sqrtFn (cantNodes L) (cantElems E A I) (cantLoads P) StiffnessType.Elastic 4 2 (by norm_num [totalDOF, cantNodes]) (by norm_num [totalDOF, cantNodes]), cant_restrainedDofs]
    have hc : (4 : ℕ) ∈ ([0, 1, 2] : List ℕ) ∨ (2 : ℕ) ∈ ([0, 1, 2] : List ℕ) := by decide
    rw [if_pos hc]
    have hne : ¬ (4 : ℕ) = 2 := by norm_num
    rw [if_neg hne]
  · show (reducedSystem sqrtFn (cantNodes L) (cantElems E A I) (cantLoads P) StiffnessType.Elastic).1 4 3 = 0
    rw [reducedK_char sqrtFn (cantNodes L) (cantElems E A I) (cantLoads P) StiffnessType.Elastic 4 3 (by norm_num [totalDOF, cantNodes]) (by norm_num [totalDOF, cantNodes]), cant_restrainedDofs]
    have hc : ¬ ((4 : ℕ) ∈ ([0, 1, 2] : List ℕ) ∨ (3 : ℕ) ∈ ([0, 1, 2] : List ℕ)) := by decide
    rw [if_neg hc, cant_assembleK sqrtFn L E A I hsq hL6 hL0 4 3 (by norm_num) (by norm_num)]
    rfl
  · show (reducedSystem sqrtFn (cantNodes L) (cantElems E A I) (cantLoads P) StiffnessType.Elastic).1 4 4 = 12 * (E * 10 ^ 6) * (I * (1 / 10 ^ 6)) / (L * L * L)
    rw [reducedK_char sqrtFn (cantNodes L) (cantElems E A I) (cantLoads P) StiffnessType.Elastic 4 4 (by norm_num [totalDOF, cantNodes]) (by norm_num [totalDOF, cantNodes]), cant_restrainedDofs]
    have hc : ¬ ((4 : ℕ) ∈ ([0, 1, 2] : List ℕ) ∨ (4 : ℕ) ∈ ([0, 1, 2] : List ℕ)) := by decide
    rw [if_neg hc, cant_assembleK sqrtFn L E A I hsq hL6 hL0 4 4 (by norm_num) (by norm_num)]
    rfl
  · show (reducedSystem sqrtFn (cantNodes L) (cantElems E A I) (cantLoads P) StiffnessType.Elastic).1 4 5 = -(6 * (E * 10 ^ 6) * (I * (1 / 10 ^ 6)) / (L * L))
    rw [reducedK_char sqrtFn (cantNodes L) (cantElems E A I) (cantLoads P) StiffnessType.Elastic 4 5 (by norm_num [totalDOF, cantNodes]) (by norm_num [totalDOF, cantNodes]), cant_restrainedDofs]
    have hc : ¬ ((4 : ℕ) ∈ ([0, 1, 2] : List ℕ) ∨ (5 : ℕ) ∈ ([0, 1, 2] : List ℕ)) := by decide
    rw [if_neg hc, cant_assembleK sqrtFn L E A I hsq hL6 hL0 4 5 (by norm_num) (by norm_num)]
    rfl
  · show (reducedSystem sqrtFn (cantNodes L) (cantElems E A I) (cantLoads P) StiffnessType.Elastic).2 4 = P
    rw [reducedF_char sqrtFn (cantNodes L) (cantElems E A I) (cantLoads P) StiffnessType.Elastic 4, cant_restrainedDofs]
    have hc : ¬ (4 : ℕ) ∈ ([0, 1, 2] : List ℕ) := by decide
    rw [if_neg hc, cant_assembleF sqrtFn L E A I P 4]
    rw [if_pos rfl]
  · show (reducedSystem sqrtFn (cantNodes L) (cantElems E A I) (cantLoads P) StiffnessType.Elastic).1 5 0 = 0
    rw [reducedK_char sqrtFn (cantNodes L) (cantElems E A I) (cantLoads P) StiffnessType.Elastic 5 0 (by norm_num [totalDOF, cantNodes]) (by norm_num [totalDOF, cantNodes]), cant_restrainedDofs]
    have hc : (5 : ℕ) ∈ ([0, 1, 2] : List ℕ) ∨ (0 : ℕ) ∈ ([0, 1, 2] : List ℕ) := by decide
    rw [if_pos hc]
    have hne : ¬ (5 : ℕ) = 0 := by norm_num
    rw [if_neg hne]
  · show (reducedSystem sqrtFn (cantNodes L) (cantElems E A I) (cantLoads P) StiffnessType.Elastic).1 5 1 = 0
    rw [reducedK_char sqrtFn (cantNodes L) (cantElems E A I) (cantLoads P) StiffnessType.Elastic 5 1 (by norm_num [totalDOF, cantNodes]) (by norm_num [totalDOF, cantNodes]), cant_restrainedDofs]
    have hc : (5 : ℕ) ∈ ([0, 1, 2] : List ℕ) ∨ (1 : ℕ) ∈ ([0, 1, 2] : List ℕ) := by decide
    rw [if_pos hc]
    have hne : ¬ (5 : ℕ) = 1 := by norm_num
    rw [if_neg hne]
  · show (reducedSystem sqrtFn (cantNodes L) (cantElems E A I) (cantLoads P) StiffnessType.Elastic).1 5 2 = 0
    rw [reducedK_char sqrtFn (cantNodes L) (cantElems E A I) (cantLoads P) StiffnessType.Elastic 5 2 (by norm_num [totalDOF, cantNodes]) (by norm_num [totalDOF, cantNodes]), cant_restrainedDofs]
    have hc : (5 : ℕ) ∈ ([0, 1, 2] : List ℕ) ∨ (2 : ℕ) ∈ ([0, 1, 2] : List ℕ) := by decide
    rw [if_pos hc]
    have hne : ¬ (5 : ℕ) = 2 := by norm_num
    rw [if_neg hne]
  · show (reducedSystem sqrtFn (cantNodes L) (cantElems E A I) (cantLoads P) StiffnessType.Elastic).1 5 3 = 0
    rw [reducedK_char sqrtFn (cantNodes L) (cantElems E A I) (cantLoads P) StiffnessType.Elastic 5 3 (by norm_num [totalDOF, cantNodes]) (by norm_num [totalDOF, cantNodes]), cant_restrainedDofs]
    have hc : ¬ ((5 : ℕ) ∈ ([0, 1, 2] : List ℕ) ∨ (3 : ℕ) ∈ ([0, 1, 2] : List ℕ)) := by decide
    rw [if_neg hc, cant_assembleK sqrtFn L E A I hsq hL6 hL0 5 3 (by norm_num) (by norm_num)]
    rfl
  · show (reducedSystem sqrtFn (cantNodes L) (cantElems E A I) (cantLoads P) StiffnessType.Elastic).1 5 4 = -(6 * (E * 10 ^ 6) * (I * (1 / 10 ^ 6)) / (L * L))
    rw [reducedK_char sqrtFn (cantNodes L) (cantElems E A I) (cantLoads P) StiffnessType.Elastic 5 4 (by norm_num [totalDOF, cantNodes]) (by norm_num [totalDOF, cantNodes]), cant_restrainedDofs]
    have hc : ¬ ((5 : ℕ) ∈ ([0, 1, 2] : List ℕ) ∨ (4 : ℕ) ∈ ([0, 1, 2] : List ℕ)) := by decide
    rw [if_neg hc, cant_assembleK sqrtFn L E A I hsq hL6 hL0 5 4 (by norm_num) (by norm_num)]
    rfl
  · show (reducedSystem sqrtFn (cantNodes L) (cantElems E A I) (cantLoads P) StiffnessType.Elastic).1 5 5 = 4 * (E * 10 ^ 6) * (I * (1 / 10 ^ 6)) / L
    rw [reducedK_char sqrtFn (cantNodes L) (cantElems E A I) (cantLoads P) StiffnessType.Elastic 5 5 (by norm_num [totalDOF, cantNodes]) (by norm_num [totalDOF, cantNodes]), cant_restrainedDofs]
    have hc : ¬ ((5 : ℕ) ∈ ([0, 1, 2] : List ℕ) ∨ (5 : ℕ) ∈ ([0, 1, 2] : List ℕ)) := by decide
    rw [if_neg hc, cant_assembleK sqrtFn L E A I hsq hL6 hL0 5 5 (by norm_num) (by norm_num)]
    rfl
  · show (reducedSystem sqrtFn (cantNodes L) (cantElems E A I) (cantLoads P) StiffnessType.Elastic).2 5 = 0
    rw [reducedF_char sqrtFn (cantNodes L) (cantElems E A I) (cantLoads P) StiffnessType.Elastic 5, cant_restrainedDofs]
    have hc : ¬ (5 : ℕ) ∈ ([0, 1, 2] : List ℕ) := by decide
    rw [if_neg hc, cant_assembleF sqrtFn L E A I P 5]
    have h4 : ¬ (5 : ℕ) = 4 := by norm_num
    rw [if_neg h4]

/-- The resolved displacement vector of the cantilever: restrained and axial
DOFs are zero, the tip deflection is `PL³/3EI`, the tip rotation `PL²/2EI`
(in the solverrs internal units, where `effE·effI = E·I`). -/
theorem cant_Uval (sqrtFn : ℚ → ℚ) (L E A I P : ℚ)
    (hL : 1 / 10 ^ 4 ≤ L) (hE : 0 < E) (hA : 0 < A) (hI : 0 < I)
    (hsq : sqrtFn ((L - 0) * (L - 0) + (0 - 0) * (0 - 0)) = L)
    (hs1 : stabEps ≤ 100 * E * A / L)
    (hs2 : stabEps ≤ 12 * E * I / (L * L * L))
    (hs3 : stabEps ≤ 6 * E * I / (L * L))
    (hs4 : stabEps ≤ E * I / L)
    (hs5 : stabEps ≤ 2 * E * I / (L * L)) :
    ∀ (k : ℕ) (hk : k < 6),
      Uval sqrtFn (cantNodes L) (cantElems E A I) (cantLoads P) StiffnessType.Elastic k =
        vec6g 0 0 0 0 (P * L ^ 3 / (3 * (E * I))) (P * L ^ 2 / (2 * (E * I))) ⟨k, hk⟩ := by
  have hL0 : (0 : ℚ) < L := lt_of_lt_of_le (by norm_num) hL
  have hLne : L ≠ 0 := ne_of_gt hL0
  have hEne : E ≠ 0 := ne_of_gt hE
  have hIne : I ≠ 0 := ne_of_gt hI
  have hL6 : ¬ L < 1 / 10 ^ 6 := not_lt.mpr (le_trans (by norm_num) hL)
  have ha : stabEps ≤ E * 10 ^ 6 * (A * (1 / 10 ^ 4)) / L := by
    rw [show E * 10 ^ 6 * (A * (1 / 10 ^ 4)) / L = 100 * E * A / L from by ring]
    exact hs1
  have hb1 : stabEps ≤ 12 * (E * 10 ^ 6) * (I * (1 / 10 ^ 6)) / (L * L * L) := by
    rw [show 12 * (E * 10 ^ 6) * (I * (1 / 10 ^ 6)) / (L * L * L) =
      12 * E * I / (L * L * L) from by ring]
    exact hs2
  have hb2 : stabEps ≤ 6 * (E * 10 ^ 6) * (I * (1 / 10 ^ 6)) / (L * L) := by
    rw [show 6 * (E * 10 ^ 6) * (I * (1 / 10 ^ 6)) / (L * L) =
      6 * E * I / (L * L) from by ring]
    exact hs3
  have hd1 : stabEps ≤ (12 * (E * 10 ^ 6) * (I * (1 / 10 ^ 6)) / (L * L * L) *
      (4 * (E * 10 ^ 6) * (I * (1 / 10 ^ 6)) / L) -
      6 * (E * 10 ^ 6) * (I * (1 / 10 ^ 6)) / (L * L) *
      (6 * (E * 10 ^ 6) * (I * (1 / 10 ^ 6)) / (L * L))) /
      (12 * (E * 10 ^ 6) * (I * (1 / 10 ^ 6)) / (L * L * L)) := by
    rw [show (12 * (E * 10 ^ 6) * (I * (1 / 10 ^ 6)) / (L * L * L) *
      (4 * (E * 10 ^ 6) * (I * (1 / 10 ^ 6)) / L) -
      6 * (E * 10 ^ 6) * (I * (1 / 10 ^ 6)) / (L * L) *
      (6 * (E * 10 ^ 6) * (I * (1 / 10 ^ 6)) / (L * L))) /
      (12 * (E * 10 ^ 6) * (I * (1 / 10 ^ 6)) / (L * L * L)) =
      E * I / L from by field_simp [hEne, hIne, hLne]; ring]
    exact hs4
  have hd2 : stabEps ≤ (12 * (E * 10 ^ 6) * (I * (1 / 10 ^ 6)) / (L * L * L) *
      (4 * (E * 10 ^ 6) * (I * (1 / 10 ^ 6)) / L) -
      6 * (E * 10 ^ 6) * (I * (1 / 10 ^ 6)) / (L * L) *
      (6 * (E * 10 ^ 6) * (I * (1 / 10 ^ 6)) / (L * L))) /
      (6 * (E * 10 ^ 6) * (I * (1 / 10 ^ 6)) / (L * L)) := by
    rw [show (12 * (E * 10 ^ 6) * (I * (1 / 10 ^ 6)) / (L * L * L) *
      (4 * (E * 10 ^ 6) * (I * (1 / 10 ^ 6)) / L) -
      6 * (E * 10 ^ 6) * (I * (1 / 10 ^ 6)) / (L * L) *
      (6 * (E * 10 ^ 6) * (I * (1 / 10 ^ 6)) / (L * L))) /
      (6 * (E * 10 ^ 6) * (I * (1 / 10 ^ 6)) / (L * L)) =
      2 * E * I / (L * L) from by field_simp [hEne, hIne, hLne]; ring]
    exact hs5
  intro k hk
  unfold Uval
  rw [dif_pos (show k < totalDOF (cantNodes L) from hk)]
  show backSub (gaussForward (augmentMat
    (fun r q : Fin 6 => (reducedSystem sqrtFn (cantNodes L) (cantElems E A I)
      (cantLoads P) StiffnessType.Elastic).1 ↑r ↑q)
    (fun r : Fin 6 => (reducedSystem sqrtFn (cantNodes L) (cantElems E A I)
      (cantLoads P) StiffnessType.Elastic).2 ↑r))) ⟨k, hk⟩ = _
  rw [cant_augment sqrtFn L E A I P hsq hL6 hLne,
    cantSolve _ _ _ _ P ha hb1 hb2 hd1 hd2 ⟨k, hk⟩,
    show P * (4 * (E * 10 ^ 6) * (I * (1 / 10 ^ 6)) / L) /
      (12 * (E * 10 ^ 6) * (I * (1 / 10 ^ 6)) / (L * L * L) *
        (4 * (E * 10 ^ 6) * (I * (1 / 10 ^ 6)) / L) -
       6 * (E * 10 ^ 6) * (I * (1 / 10 ^ 6)) / (L * L) *
        (6 * (E * 10 ^ 6) * (I * (1 / 10 ^ 6)) / (L * L))) =
      P * L ^ 3 / (3 * (E * I)) from by
        have hDne : 12 * (E * 10 ^ 6) * (I * (1 / 10 ^ 6)) / (L * L * L) *
        (4 * (E * 10 ^ 6) * (I * (1 / 10 ^ 6)) / L) -
       6 * (E * 10 ^ 6) * (I * (1 / 10 ^ 6)) / (L * L) *
        (6 * (E * 10 ^ 6) * (I * (1 / 10 ^ 6)) / (L * L)) ≠ 0 := by
          rw [show 12 * (E * 10 ^ 6) * (I * (1 / 10 ^ 6)) / (L * L * L) *
        (4 * (E * 10 ^ 6) * (I * (1 / 10 ^ 6)) / L) -
       6 * (E * 10 ^ 6) * (I * (1 / 10 ^ 6)) / (L * L) *
        (6 * (E * 10 ^ 6) * (I * (1 / 10 ^ 6)) / (L * L)) = 12 * (E * I) ^ 2 / L ^ 4 from by ring]
          positivity
        rw [div_eq_div_iff hDne (by positivity)]
        field_simp
        ring,
    show P * (6 * (E * 10 ^ 6) * (I * (1 / 10 ^ 6)) / (L * L)) /
      (12 * (E * 10 ^ 6) * (I * (1 / 10 ^ 6)) / (L * L * L) *
        (4 * (E * 10 ^ 6) * (I * (1 / 10 ^ 6)) / L) -
       6 * (E * 10 ^ 6) * (I * (1 / 10 ^ 6)) / (L * L) *
        (6 * (E * 10 ^ 6) * (I * (1 / 10 ^ 6)) / (L * L))) =
      P * L ^ 2 / (2 * (E * I)) from by
        have hDne : 12 * (E * 10 ^ 6) * (I * (1 / 10 ^ 6)) / (L * L * L) *
        (4 * (E * 10 ^ 6) * (I * (1 / 10 ^ 6)) / L) -
       6 * (E * 10 ^ 6) * (I * (1 / 10 ^ 6)) / (L * L) *
        (6 * (E * 10 ^ 6) * (I * (1 / 10 ^ 6)) / (L * L)) ≠ 0 := by
          rw [show 12 * (E * 10 ^ 6) * (I * (1 / 10 ^ 6)) / (L * L * L) *
        (4 * (E * 10 ^ 6) * (I * (1 / 10 ^ 6)) / L) -
       6 * (E * 10 ^ 6) * (I * (1 / 10 ^ 6)) / (L * L) *
        (6 * (E * 10 ^ 6) * (I * (1 / 10 ^ 6)) / (L * L)) = 12 * (E * I) ^ 2 / L ^ 4 from by ring]
          positivity
        rw [div_eq_div_iff hDne (by positivity)]
        field_simp
        ring]

theorem clampSnapX_self (L : ℚ) (hL : 0 ≤ L) : clampSnapX L L = L := by
  unfold clampSnapX
  simp only []
  rw [min_self, max_eq_right hL]
  by_cases h : L < 1 / 10 ^ 4
  · rw [if_pos h]
    rw [if_pos (by rw [zero_sub, abs_neg]; rw [abs_of_nonneg hL]; exact h)]
  · rw [if_neg h]
    rw [if_pos (by rw [sub_self, abs_zero]; norm_num)]

/-- At the tip station `x = L` the recovered deflection is exactly the local
end displacement `u_local[4]` (the Hermitian weights collapse to `0,0,1,0`). -/
theorem calcExactRaw_tip_defl (L c s : ℚ) (ul : Fin 6 → ℚ) (sf : SForces)
    (hL0 : 0 < L) (hL9 : 1 / 10 ^ 9 < L) :
    (calcExactRaw L L c s ul sf []).deflection = ul 4 := by
  unfold calcExactRaw
  simp only []
  rw [clampSnapX_self L (le_of_lt hL0), if_pos hL9, div_self (ne_of_gt hL0)]
  show (1 - 3 * 1 * 1 + 2 * 1 * 1 * 1) * ul 1 + L * (1 - 2 * 1 * 1 + 1 * 1 * 1) * ul 2 +
      (3 * 1 * 1 - 2 * 1 * 1 * 1) * ul 4 + L * (-(1 * 1) + 1 * 1 * 1) * ul 5 = ul 4
  ring

/-- At the tip station with no element loads, the recovered bending moment is
`-m + fy·L` computed from the (cleaned) start forces. -/
theorem calcExactRaw_tip_moment (L c s : ℚ) (ul : Fin 6 → ℚ) (sf : SForces)
    (hL0 : 0 ≤ L) :
    (calcExactRaw L L c s ul sf []).moment = -sf.m + sf.fy * L := by
  unfold calcExactRaw
  simp only []
  rw [clampSnapX_self L hL0]
  rfl

theorem stationAt_x (n1 : SNode) (L c s : ℚ) (ul : Fin 6 → ℚ) (sf : SForces)
    (ll : List SLoad) (x : ℚ) : (stationAt n1 L c s ul sf ll x).x = x := rfl

theorem stationAt_deflectionY (n1 : SNode) (L c s : ℚ) (ul : Fin 6 → ℚ) (sf : SForces)
    (ll : List SLoad) (x : ℚ) :
    (stationAt n1 L c s ul sf ll x).deflectionY =
      cleanValue ((calcExactRaw x L c s ul sf ll).deflection * 1000) := rfl

theorem stationAt_moment (n1 : SNode) (L c s : ℚ) (ul : Fin 6 → ℚ) (sf : SForces)
    (ll : List SLoad) (x : ℚ) :
    (stationAt n1 L c s ul sf ll x).moment =
      cleanValue ((calcExactRaw x L c s ul sf ll).moment) := rfl

theorem L_mem_sortedStations (L : ℚ) (ll : List SLoad) : L ∈ sortedStations L ll := by
  unfold sortedStations
  rw [List.mem_mergeSort, List.mem_dedup]
  unfold criticalBase
  simp

/-- Tip-station values of a station list built over an element with no element
loads: the tip station exists and reports `cleanValue (u_local[4]·1000)` as
deflection and `cleanValue (-m + fy·L)` as moment. -/
theorem stations_tip (n1 : SNode) (L c s : ℚ) (ul : Fin 6 → ℚ) (sf : SForces)
    (hL : 1 / 10 ^ 4 ≤ L) :
    (∃ st ∈ (sortedStations L []).map (stationAt n1 L c s ul sf []), st.x = L) ∧
    (∀ st ∈ (sortedStations L []).map (stationAt n1 L c s ul sf []), st.x = L →
      st.deflectionY = cleanValue (ul 4 * 1000) ∧
      st.moment = cleanValue (-sf.m + sf.fy * L)) := by
  have hL0 : (0 : ℚ) < L := lt_of_lt_of_le (by norm_num) hL
  have hL9 : 1 / 10 ^ 9 < L := lt_of_lt_of_le (by norm_num) hL
  constructor
  · exact ⟨stationAt n1 L c s ul sf [] L,
      List.mem_map_of_mem _ (L_mem_sortedStations L []), rfl⟩
  · intro st hst hx
    obtain ⟨x, hxmem, hxeq⟩ := List.mem_map.mp hst
    have hxL : x = L := by rw [← hx, ← hxeq, stationAt_x]
    rw [hxL] at hxeq
    rw [← hxeq, stationAt_deflectionY, stationAt_moment,
      calcExactRaw_tip_defl L c s ul sf hL0 hL9,
      calcExactRaw_tip_moment L c s ul sf (le_of_lt hL0)]
    exact ⟨rfl, rfl⟩

/-- Structural characterization of a successful `elementResult`: the element's
node lookups succeeded and the result's stations, start forces and local
displacements are exactly the post-processing formulas. -/
theorem elementResult_stations (sqrtFn : ℚ → ℚ) (nodes : List SNode)
    (loads : List SLoad) (stype : StiffnessType) (U : ℕ → ℚ) (el : SElement)
    (er : ElementResultE)
    (h : elementResult sqrtFn nodes loads stype U el = some er) :
    ∃ (idx1 idx2 : ℕ) (n1 n2 : SNode),
      getDofIndex nodes el.startNode = some idx1 ∧
      getDofIndex nodes el.endNode = some idx2 ∧
      findNode nodes el.startNode = some n1 ∧
      findNode nodes el.endNode = some n2 ∧
      er.u_local = uLocalVec ((n2.x - n1.x) / sqrtFn ((n2.x - n1.x) * (n2.x - n1.x) +
          (n2.y - n1.y) * (n2.y - n1.y)))
        ((n2.y - n1.y) / sqrtFn ((n2.x - n1.x) * (n2.x - n1.x) +
          (n2.y - n1.y) * (n2.y - n1.y))) (uGlobalEl U idx1 idx2) ∧
      er.startForces =
        ⟨cleanValue (fStiff (kLocalOf (effEOf stype el) (effAOf stype el) (effIOf el)
            (sqrtFn ((n2.x - n1.x) * (n2.x - n1.x) + (n2.y - n1.y) * (n2.y - n1.y)))
            el.releaseStart el.releaseEnd) er.u_local 0 +
          femSumOf el.releaseStart el.releaseEnd
            (loads.filter (fun l => decide (l.elementId = some el.id)))
            (sqrtFn ((n2.x - n1.x) * (n2.x - n1.x) + (n2.y - n1.y) * (n2.y - n1.y)))
            ((n2.x - n1.x) / sqrtFn ((n2.x - n1.x) * (n2.x - n1.x) +
              (n2.y - n1.y) * (n2.y - n1.y)))
            ((n2.y - n1.y) / sqrtFn ((n2.x - n1.x) * (n2.x - n1.x) +
              (n2.y - n1.y) * (n2.y - n1.y))) 0),
         cleanValue (fStiff (kLocalOf (effEOf stype el) (effAOf stype el) (effIOf el)
            (sqrtFn ((n2.x - n1.x) * (n2.x - n1.x) + (n2.y - n1.y) * (n2.y - n1.y)))
            el.releaseStart el.releaseEnd) er.u_local 1 +
          femSumOf el.releaseStart el.releaseEnd
            (loads.filter (fun l => decide (l.elementId = some el.id)))
            (sqrtFn ((n2.x - n1.x) * (n2.x - n1.x) + (n2.y - n1.y) * (n2.y - n1.y)))
            ((n2.x - n1.x) / sqrtFn ((n2.x - n1.x) * (n2.x - n1.x) +
              (n2.y - n1.y) * (n2.y - n1.y)))
            ((n2.y - n1.y) / sqrtFn ((n2.x - n1.x) * (n2.x - n1.x) +
              (n2.y - n1.y) * (n2.y - n1.y))) 1),
         cleanValue (fStiff (kLocalOf (effEOf stype el) (effAOf stype el) (effIOf el)
            (sqrtFn ((n2.x - n1.x) * (n2.x - n1.x) + (n2.y - n1.y) * (n2.y - n1.y)))
            el.releaseStart el.releaseEnd) er.u_local 2 +
          femSumOf el.releaseStart el.releaseEnd
            (loads.filter (fun l => decide (l.elementId = some el.id)))
            (sqrtFn ((n2.x - n1.x) * (n2.x - n1.x) + (n2.y - n1.y) * (n2.y - n1.y)))
            ((n2.x - n1.x) / sqrtFn ((n2.x - n1.x) * (n2.x - n1.x) +
              (n2.y - n1.y) * (n2.y - n1.y)))
            ((n2.y - n1.y) / sqrtFn ((n2.x - n1.x) * (n2.x - n1.x) +
              (n2.y - n1.y) * (n2.y - n1.y))) 2)⟩ ∧
      er.stations = (sortedStations
          (sqrtFn ((n2.x - n1.x) * (n2.x - n1.x) + (n2.y - n1.y) * (n2.y - n1.y)))
          (loads.filter (fun l => decide (l.elementId = some el.id)))).map
        (stationAt n1
          (sqrtFn ((n2.x - n1.x) * (n2.x - n1.x) + (n2.y - n1.y) * (n2.y - n1.y)))
          ((n2.x - n1.x) / sqrtFn ((n2.x - n1.x) * (n2.x - n1.x) +
            (n2.y - n1.y) * (n2.y - n1.y)))
          ((n2.y - n1.y) / sqrtFn ((n2.x - n1.x) * (n2.x - n1.x) +
            (n2.y - n1.y) * (n2.y - n1.y)))
          er.u_local er.startForces
          (loads.filter (fun l => decide (l.elementId = some el.id)))) := by
  unfold elementResult at h
  split at h
  · rename_i idx1 idx2 heq1 heq2
    split at h
    · rename_i n1 n2 heq3 heq4
      refine ⟨idx1, idx2, n1, n2, heq1, heq2, heq3, heq4, ?_⟩
      obtain rfl := (Option.some_inj.mp h).symm
      exact ⟨rfl, rfl, rfl⟩
    · exact absurd h (by simp)
  · exact absurd h (by simp)

/-- End-to-end solution of the cantilever model: `solveStructure` returns one
element result whose tip station reports `cleanValue (PL³/(3EI)·1000)` as the
deflection and whose tip moment is recovered from the *cleaned* start forces. -/
theorem cantilever_solution (sqrtFn : ℚ → ℚ) (L E A I P : ℚ)
    (hL : 1 / 10 ^ 4 ≤ L) (hE : 0 < E) (hA : 0 < A) (hI : 0 < I)
    (hsq : sqrtFn ((L - 0) * (L - 0) + (0 - 0) * (0 - 0)) = L)
    (hs1 : stabEps ≤ 100 * E * A / L)
    (hs2 : stabEps ≤ 12 * E * I / (L * L * L))
    (hs3 : stabEps ≤ 6 * E * I / (L * L))
    (hs4 : stabEps ≤ E * I / L)
    (hs5 : stabEps ≤ 2 * E * I / (L * L)) :
    ∃ er, (solveStructure sqrtFn (cantNodes L) (cantElems E A I) (cantLoads P)
        StiffnessType.Elastic).elements = [er] ∧
      (∃ st ∈ er.stations, st.x = L) ∧
      (∀ st ∈ er.stations, st.x = L →
        st.deflectionY = cleanValue (P * L ^ 3 / (3 * (E * I)) * 1000) ∧
        st.moment = cleanValue (-(cleanValue (-(P * L))) + cleanValue (-P) * L)) := by
  have hL0 : (0 : ℚ) < L := lt_of_lt_of_le (by norm_num) hL
  have hLne : L ≠ 0 := ne_of_gt hL0
  have hEne : E ≠ 0 := ne_of_gt hE
  have hIne : I ≠ 0 := ne_of_gt hI
  obtain ⟨er, hER⟩ : ∃ e, elementResult sqrtFn (cantNodes L) (cantLoads P)
      StiffnessType.Elastic (Uval sqrtFn (cantNodes L) (cantElems E A I) (cantLoads P) StiffnessType.Elastic)
      ⟨1, 1, 2, E, A, I, false, false⟩ = some e := ⟨_, rfl⟩
  obtain ⟨idx1, idx2, n1, n2, heq1, heq2, heq3, heq4, hul, hsf, hstations⟩ :=
    elementResult_stations _ _ _ _ _ _ _ hER
  have h1 : (some 0 : Option ℕ) = some idx1 := heq1
  obtain rfl := (Option.some_inj.mp h1).symm
  have h2 : (some 3 : Option ℕ) = some idx2 := heq2
  obtain rfl := (Option.some_inj.mp h2).symm
  have h3 : (some (⟨1, 0, 0, vec3g true true true⟩ : SNode) : Option SNode) = some n1 := heq3
  obtain rfl := (Option.some_inj.mp h3)
  have h4 : (some (⟨2, L, 0, vec3g false false false⟩ : SNode) : Option SNode) = some n2 := heq4
  obtain rfl := (Option.some_inj.mp h4)
  have hfil : (cantLoads P).filter
      (fun l => decide (l.elementId = some (⟨1, 1, 2, E, A, I, false, false⟩ : SElement).id))
      = [] := rfl
  rw [hfil] at hsf hstations
  rw [hsq] at hul hsf hstations
  have hct : ((L : ℚ) - 0) / L = 1 := by rw [sub_zero]; exact div_self hLne
  have hcs : ((0 : ℚ) - 0) / L = 0 := by norm_num
  rw [hct, hcs] at hul hsf hstations
  -- the solved displacements
  have hU4 : Uval sqrtFn (cantNodes L) (cantElems E A I) (cantLoads P) StiffnessType.Elastic (3 + 1) = P * L ^ 3 / (3 * (E * I)) :=
    cant_Uval sqrtFn L E A I P hL hE hA hI hsq hs1 hs2 hs3 hs4 hs5 4 (by norm_num)
  have hU5 : Uval sqrtFn (cantNodes L) (cantElems E A I) (cantLoads P) StiffnessType.Elastic (3 + 2) = P * L ^ 2 / (2 * (E * I)) :=
    cant_Uval sqrtFn L E A I P hL hE hA hI hsq hs1 hs2 hs3 hs4 hs5 5 (by norm_num)
  have hU0 : Uval sqrtFn (cantNodes L) (cantElems E A I) (cantLoads P) StiffnessType.Elastic 0 = 0 :=
    cant_Uval sqrtFn L E A I P hL hE hA hI hsq hs1 hs2 hs3 hs4 hs5 0 (by norm_num)
  have hU1 : Uval sqrtFn (cantNodes L) (cantElems E A I) (cantLoads P) StiffnessType.Elastic 1 = 0 :=
    cant_Uval sqrtFn L E A I P hL hE hA hI hsq hs1 hs2 hs3 hs4 hs5 1 (by norm_num)
  have hU2 : Uval sqrtFn (cantNodes L) (cantElems E A I) (cantLoads P) StiffnessType.Elastic 2 = 0 :=
    cant_Uval sqrtFn L E A I P hL hE hA hI hsq hs1 hs2 hs3 hs4 hs5 2 (by norm_num)
  have hU3 : Uval sqrtFn (cantNodes L) (cantElems E A I) (cantLoads P) StiffnessType.Elastic 3 = 0 :=
    cant_Uval sqrtFn L E A I P hL hE hA hI hsq hs1 hs2 hs3 hs4 hs5 3 (by norm_num)
  have hul4 : er.u_local 4 = P * L ^ 3 / (3 * (E * I)) := by
    rw [hul]
    show -0 * Uval sqrtFn (cantNodes L) (cantElems E A I) (cantLoads P) StiffnessType.Elastic 3 + 1 * Uval sqrtFn (cantNodes L) (cantElems E A I) (cantLoads P) StiffnessType.Elastic (3 + 1) = _
    rw [hU3, hU4]
    ring
  have hFt1val : fStiff (kLocalOf (E * 10 ^ 6) (A * (1 / 10 ^ 4)) (I * (1 / 10 ^ 6)) L
      false false) er.u_local 1 + femSumOf false false [] L 1 0 1 = -P := by
    rw [hul]
    have hfem : femSumOf false false ([] : List SLoad) L 1 0 1 = 0 := rfl
    rw [hfem]
    unfold fStiff
    rw [Fin.sum_univ_six]
    show (0 : ℚ) * (1 * Uval sqrtFn (cantNodes L) (cantElems E A I) (cantLoads P) StiffnessType.Elastic 0 + 0 * Uval sqrtFn (cantNodes L) (cantElems E A I) (cantLoads P) StiffnessType.Elastic 1)
        + 12 * (E * 10 ^ 6) * (I * (1 / 10 ^ 6)) / (L * L * L) * (-0 * Uval sqrtFn (cantNodes L) (cantElems E A I) (cantLoads P) StiffnessType.Elastic 0 + 1 * Uval sqrtFn (cantNodes L) (cantElems E A I) (cantLoads P) StiffnessType.Elastic 1)
        + 6 * (E * 10 ^ 6) * (I * (1 / 10 ^ 6)) / (L * L) * Uval sqrtFn (cantNodes L) (cantElems E A I) (cantLoads P) StiffnessType.Elastic 2
        + 0 * (1 * Uval sqrtFn (cantNodes L) (cantElems E A I) (cantLoads P) StiffnessType.Elastic 3 + 0 * Uval sqrtFn (cantNodes L) (cantElems E A I) (cantLoads P) StiffnessType.Elastic (3 + 1))
        + -(12 * (E * 10 ^ 6) * (I * (1 / 10 ^ 6)) / (L * L * L)) *
            (-0 * Uval sqrtFn (cantNodes L) (cantElems E A I) (cantLoads P) StiffnessType.Elastic 3 + 1 * Uval sqrtFn (cantNodes L) (cantElems E A I) (cantLoads P) StiffnessType.Elastic (3 + 1))
        + 6 * (E * 10 ^ 6) * (I * (1 / 10 ^ 6)) / (L * L) * Uval sqrtFn (cantNodes L) (cantElems E A I) (cantLoads P) StiffnessType.Elastic (3 + 2) + 0 = -P
    rw [hU0, hU1, hU2, hU3, hU4, hU5]
    field_simp
    ring
  have hFt2val : fStiff (kLocalOf (E * 10 ^ 6) (A * (1 / 10 ^ 4)) (I * (1 / 10 ^ 6)) L
      false false) er.u_local 2 + femSumOf false false [] L 1 0 2 = -(P * L) := by
    rw [hul]
    have hfem : femSumOf false false ([] : List SLoad) L 1 0 2 = 0 := rfl
    rw [hfem]
    unfold fStiff
    rw [Fin.sum_univ_six]
    show (0 : ℚ) * (1 * Uval sqrtFn (cantNodes L) (cantElems E A I) (cantLoads P) StiffnessType.Elastic 0 + 0 * Uval sqrtFn (cantNodes L) (cantElems E A I) (cantLoads P) StiffnessType.Elastic 1)
        + 6 * (E * 10 ^ 6) * (I * (1 / 10 ^ 6)) / (L * L) * (-0 * Uval sqrtFn (cantNodes L) (cantElems E A I) (cantLoads P) StiffnessType.Elastic 0 + 1 * Uval sqrtFn (cantNodes L) (cantElems E A I) (cantLoads P) StiffnessType.Elastic 1)
        + 4 * (E * 10 ^ 6) * (I * (1 / 10 ^ 6)) / L * Uval sqrtFn (cantNodes L) (cantElems E A I) (cantLoads P) StiffnessType.Elastic 2
        + 0 * (1 * Uval sqrtFn (cantNodes L) (cantElems E A I) (cantLoads P) StiffnessType.Elastic 3 + 0 * Uval sqrtFn (cantNodes L) (cantElems E A I) (cantLoads P) StiffnessType.Elastic (3 + 1))
        + -(6 * (E * 10 ^ 6) * (I * (1 / 10 ^ 6)) / (L * L)) *
            (-0 * Uval sqrtFn (cantNodes L) (cantElems E A I) (cantLoads P) StiffnessType.Elastic 3 + 1 * Uval sqrtFn (cantNodes L) (cantElems E A I) (cantLoads P) StiffnessType.Elastic (3 + 1))
        + 2 * (E * 10 ^ 6) * (I * (1 / 10 ^ 6)) / L * Uval sqrtFn (cantNodes L) (cantElems E A I) (cantLoads P) StiffnessType.Elastic (3 + 2) + 0 = -(P * L)
    rw [hU0, hU1, hU2, hU3, hU4, hU5]
    field_simp
    ring
  have hfy : er.startForces.fy = cleanValue (-P) := by
    rw [hsf]
    exact congrArg cleanValue hFt1val
  have hmV : er.startForces.m = cleanValue (-(P * L)) := by
    rw [hsf]
    exact congrArg cleanValue hFt2val
  refine ⟨er, ?_, ?_, ?_⟩
  · show ([(⟨1, 1, 2, E, A, I, false, false⟩ : SElement)].filterMap
      (elementResult sqrtFn (cantNodes L) (cantLoads P) StiffnessType.Elastic
        (Uval sqrtFn (cantNodes L) (cantElems E A I) (cantLoads P) StiffnessType.Elastic))) = [er]
    simp only [List.filterMap_cons, List.filterMap_nil, hER]
  · rw [hstations]
    exact (stations_tip ⟨1, 0, 0, vec3g true true true⟩ L 1 0 er.u_local
      er.startForces hL).1
  · rw [hstations]
    intro st hst hx
    obtain ⟨hd, hm⟩ := (stations_tip ⟨1, 0, 0, vec3g true true true⟩ L 1 0 er.u_local
      er.startForces hL).2 st hst hx
    constructor
    · rw [hd, hul4]
    · rw [hm, hfy, hmV]

theorem stationAt_axial (n1 : SNode) (L c s : ℚ) (ul : Fin 6 → ℚ) (sf : SForces)
    (ll : List SLoad) (x : ℚ) :
    (stationAt n1 L c s ul sf ll x).axial =
      cleanValue ((calcExactRaw x L c s ul sf ll).axial) := rfl

theorem stationAt_shear (n1 : SNode) (L c s : ℚ) (ul : Fin 6 → ℚ) (sf : SForces)
    (ll : List SLoad) (x : ℚ) :
    (stationAt n1 L c s ul sf ll x).shear =
      cleanValue ((calcExactRaw x L c s ul sf ll).shear) := rfl

/-- C4: for a two-node cantilever — node 1 fully fixed, node 2 free at
distance `L`, one element with elastic properties `E, I` (area `A`), no
releases, `Elastic` stiffness mode — loaded by a single transverse nodal point
load `P` at the free node, `solveStructure` produces exactly one element
result, its station list contains the tip station `x = L`, and the deflection
reported there equals `PL³/(3EI)` up to the solverrs mm conversion (`×1000`)
and display cleanup (`cleanValue`).  The hypotheses pin the numeric tolerance:
the model square root is exact on `L²`, `L ≥ 10⁻⁴`, the material and section
constants are positive, and every pivot the elimination meets stays at or
above the `10⁻¹⁰` stabilization threshold. -/
theorem C4_cantilever_tip_deflection (sqrtFn : ℚ → ℚ) (L E A I P : ℚ)
    (hL : 1 / 10 ^ 4 ≤ L) (hE : 0 < E) (hA : 0 < A) (hI : 0 < I)
    (hsq : sqrtFn ((L - 0) * (L - 0) + (0 - 0) * (0 - 0)) = L)
    (hs1 : stabEps ≤ 100 * E * A / L)
    (hs2 : stabEps ≤ 12 * E * I / (L * L * L))
    (hs3 : stabEps ≤ 6 * E * I / (L * L))
    (hs4 : stabEps ≤ E * I / L)
    (hs5 : stabEps ≤ 2 * E * I / (L * L)) :
    ∃ er, (solveStructure sqrtFn (cantNodes L) (cantElems E A I) (cantLoads P)
        StiffnessType.Elastic).elements = [er] ∧
      (∃ st ∈ er.stations, st.x = L) ∧
      ∀ st ∈ er.stations, st.x = L →
        st.deflectionY = cleanValue (P * L ^ 3 / (3 * (E * I)) * 1000) := by
  obtain ⟨er, h1, h2, h3⟩ :=
    cantilever_solution sqrtFn L E A I P hL hE hA hI hsq hs1 hs2 hs3 hs4 hs5
  exact ⟨er, h1, h2, fun st hst hx => (h3 st hst hx).1⟩

theorem C4_witness :
    (1 / 10 ^ 4 : ℚ) ≤ 2 ∧ (0 : ℚ) < 200 ∧
    ∃ er, (solveStructure (fun q => if q = 4 then 2 else 0) (cantNodes 2)
        (cantElems 200 50 200) (cantLoads (-10)) StiffnessType.Elastic).elements = [er] ∧
      (∃ st ∈ er.stations, st.x = 2) ∧
      ∀ st ∈ er.stations, st.x = 2 →
        st.deflectionY = cleanValue ((-10) * 2 ^ 3 / (3 * ((200 : ℚ) * 200)) * 1000) := by
  refine ⟨by norm_num, by norm_num, ?_⟩
  exact C4_cantilever_tip_deflection (fun q => if q = 4 then 2 else 0) 2 200 50 200 (-10)
    (by norm_num) (by norm_num) (by norm_num) (by norm_num) (by norm_num)
    (by norm_num [stabEps]) (by norm_num [stabEps]) (by norm_num [stabEps])
    (by norm_num [stabEps]) (by norm_num [stabEps])

/-- C6 (amended): `cleanValue` is applied exactly once to every displayed
station value and the deflection channel is computed entirely from uncleaned
intermediates (the raw displacement solution) — but the `N/V/M` channels are
not: the element start forces are snapped by `cleanValue` *before* station
recovery (solver.ts lines 552–556), so every station's axial/shear/moment is
the cleaned version of a quantity computed from the already-cleaned start
forces, not from uncleaned intermediates. -/
theorem C6_amended (sqrtFn : ℚ → ℚ) (nodes : List SNode) (elements : List SElement)
    (loads : List SLoad) (stype : StiffnessType) :
    ∀ er ∈ (solveStructure sqrtFn nodes elements loads stype).elements,
    ∃ (n1 : SNode) (L c s : ℚ) (ul Ft : Fin 6 → ℚ) (elL : List SLoad),
      er.startForces = ⟨cleanValue (Ft 0), cleanValue (Ft 1), cleanValue (Ft 2)⟩ ∧
      er.stations = (sortedStations L elL).map (stationAt n1 L c s ul er.startForces elL) ∧
      ∀ st ∈ er.stations,
        st.deflectionY = cleanValue ((calcExactRaw st.x L c s ul
          ⟨Ft 0, Ft 1, Ft 2⟩ elL).deflection * 1000) ∧
        st.axial = cleanValue ((calcExactRaw st.x L c s ul er.startForces elL).axial) ∧
        st.shear = cleanValue ((calcExactRaw st.x L c s ul er.startForces elL).shear) ∧
        st.moment = cleanValue ((calcExactRaw st.x L c s ul er.startForces elL).moment) := by
  intro er her
  have h1 : er ∈ elements.filterMap (elementResult sqrtFn nodes loads stype
      (Uval sqrtFn nodes elements loads stype)) := her
  obtain ⟨el, hel, hres⟩ := List.mem_filterMap.mp h1
  obtain ⟨idx1, idx2, n1, n2, heq1, heq2, heq3, heq4, hul, hsf, hstations⟩ :=
    elementResult_stations _ _ _ _ _ _ _ hres
  refine ⟨n1, _, _, _, er.u_local,
    (fun r => fStiff (kLocalOf (effEOf stype el) (effAOf stype el) (effIOf el)
        (sqrtFn ((n2.x - n1.x) * (n2.x - n1.x) + (n2.y - n1.y) * (n2.y - n1.y)))
        el.releaseStart el.releaseEnd) er.u_local r +
      femSumOf el.releaseStart el.releaseEnd
        (loads.filter (fun l => decide (l.elementId = some el.id)))
        (sqrtFn ((n2.x - n1.x) * (n2.x - n1.x) + (n2.y - n1.y) * (n2.y - n1.y)))
        ((n2.x - n1.x) / sqrtFn ((n2.x - n1.x) * (n2.x - n1.x) +
          (n2.y - n1.y) * (n2.y - n1.y)))
        ((n2.y - n1.y) / sqrtFn ((n2.x - n1.x) * (n2.x - n1.x) +
          (n2.y - n1.y) * (n2.y - n1.y))) r),
    _, hsf, hstations, ?_⟩
  intro st hst
  rw [hstations] at hst
  obtain ⟨x, hxmem, hxeq⟩ := List.mem_map.mp hst
  rw [← hxeq]
  refine ⟨?_, ?_, ?_, ?_⟩
  · rw [stationAt_deflectionY, stationAt_x]
    rfl
  · rw [stationAt_axial, stationAt_x]
  · rw [stationAt_shear, stationAt_x]
  · rw [stationAt_moment, stationAt_x]

theorem C6_witness :
    ∃ er, er ∈ (solveStructure (fun q => if q = 4 then 2 else 0) (cantNodes 2)
        (cantElems 200 50 200) (cantLoads (3 / 200)) StiffnessType.Elastic).elements ∧
      (∃ (n1 : SNode) (L c s : ℚ) (ul Ft : Fin 6 → ℚ) (elL : List SLoad),
        er.startForces = ⟨cleanValue (Ft 0), cleanValue (Ft 1), cleanValue (Ft 2)⟩ ∧
        er.stations = (sortedStations L elL).map
          (stationAt n1 L c s ul er.startForces elL) ∧
        ∀ st ∈ er.stations,
          st.deflectionY = cleanValue ((calcExactRaw st.x L c s ul
            ⟨Ft 0, Ft 1, Ft 2⟩ elL).deflection * 1000) ∧
          st.axial = cleanValue ((calcExactRaw st.x L c s ul er.startForces elL).axial) ∧
          st.shear = cleanValue ((calcExactRaw st.x L c s ul er.startForces elL).shear) ∧
          st.moment = cleanValue ((calcExactRaw st.x L c s ul
            er.startForces elL).moment)) := by
  obtain ⟨er, hER⟩ : ∃ e, (solveStructure (fun q => if q = 4 then 2 else 0) (cantNodes 2)
      (cantElems 200 50 200) (cantLoads (3 / 200)) StiffnessType.Elastic).elements = [e] :=
    ⟨_, rfl⟩
  have hmem : er ∈ (solveStructure (fun q => if q = 4 then 2 else 0) (cantNodes 2)
      (cantElems 200 50 200) (cantLoads (3 / 200)) StiffnessType.Elastic).elements := by
    rw [hER]
    exact List.mem_singleton.mpr rfl
  exact ⟨er, hmem, C6_amended (fun q => if q = 4 then 2 else 0) (cantNodes 2)
    (cantElems 200 50 200) (cantLoads (3 / 200)) StiffnessType.Elastic er hmem⟩

/-- C6 (counterexample to the original claim): in the cantilever with
`L = 2, E = 200, A = 50, I = 200` and tip load `P = 3/200`, the true start
forces are `fy = -0.015, m = -0.03`; `cleanValue` snaps `fy` to `0` *before*
station recovery, so the reported tip moment is `cleanValue (0.03 + 0·2) =
3/100`, while the cleaned version of the same quantity computed from the
uncleaned start forces is `cleanValue (0.03 - 0.015·2) = 0` — a station value
that does *not* equal the cleaned version of any quantity computed entirely
from uncleaned intermediates, because the cleanup feeds back. -/
theorem C6_counterexample :
    ∃ er, (solveStructure (fun q => if q = 4 then 2 else 0) (cantNodes 2)
        (cantElems 200 50 200) (cantLoads (3 / 200)) StiffnessType.Elastic).elements
        = [er] ∧
      (∃ st ∈ er.stations, st.x = 2 ∧ st.moment = 3 / 100) ∧
      cleanValue ((calcExactRaw 2 2 1 0 (fun _ => 0)
        ⟨0, -(3 / 200), -(3 / 200 * 2)⟩ []).moment) = 0 ∧
      (3 / 100 : ℚ) ≠ 0 := by
  obtain ⟨er, h1, ⟨st0, hst0, hx0⟩, h3⟩ :=
    cantilever_solution (fun q => if q = 4 then 2 else 0) 2 200 50 200 (3 / 200)
      (by norm_num) (by norm_num) (by norm_num) (by norm_num) (by norm_num)
      (by norm_num [stabEps]) (by norm_num [stabEps]) (by norm_num [stabEps])
      (by norm_num [stabEps]) (by norm_num [stabEps])
  refine ⟨er, h1, ⟨st0, hst0, hx0, ?_⟩, ?_, by norm_num⟩
  · rw [(h3 st0 hst0 hx0).2]
    norm_num [cleanValue, jround, round4, abs_eval]
  · rw [calcExactRaw_tip_moment 2 1 0 (fun _ => 0) ⟨0, -(3 / 200), -(3 / 200 * 2)⟩
      (by norm_num)]
    norm_num [cleanValue, jround, round4, abs_eval]

end StructuralSolver
